import Mathlib

/-!
# NStyle Sentinel: the reservation processor

A shallow embedding of `backend/sentinel/src/services/appointmentService.js`
(with `infrastructure/db.js` and `errors/httpError.js`), of the slot search of
`services/availabilityService.js`, and of the HTTP boundary: `security/agentSignature.js`,
`services/payloadSanitizer.js` and the handlers of `middleware/sentinelMiddleware.js`.

* Instants (`Date`, `timestamptz`) are epoch milliseconds, an `Int`; an ISO string
  produced by `toISOString()` is represented by the instant it denotes.
* The `appointments` and `clients` tables are lists of rows; SQL statements are
  list operations on them.
* Everything the service awaits from outside (store faults, the availability
  service, the push gateway, the webhook endpoint, `now()`, generated keys) is
  supplied by an `Env`, so each operation is a function of the environment, the
  command and the world before it.
* Every external call is appended to the world's `trace`.
-/

namespace Sentinel

deriving instance DecidableEq for Except

/-! ## Errors -/

/-- A thrown JavaScript value. `HttpError` is `errors/httpError.js`; `Error` is any
other error object, with the optional `code` property that the `pg` driver sets to
the SQLSTATE of a failed statement (a thrown primitive other than `null` and
`undefined` behaves as an `Error` without `code`: its properties read as `undefined`);
`nullish` is a thrown `null` or `undefined`, as from `Promise.reject()` in an injected
collaborator: `error?.code` is `undefined` on it and reading `error.message` throws a
`TypeError`. -/
inductive JsError where
  | HttpError (statusCode : Nat) (message : String) (code : String)
  | Error (message : String) (code : Option String)
  | nullish
  deriving DecidableEq, Repr

/-- The `code` property of a thrown value (`error?.code`). -/
def JsError.code : JsError → Option String
  | .HttpError _ _ c => some c
  | .Error _ c => c
  | .nullish => none

/-- The `statusCode` property of a thrown value. -/
def JsError.statusCode : JsError → Option Nat
  | .HttpError s _ _ => some s
  | .Error _ _ => none
  | .nullish => none

/-! ## Data model -/

/-- Column `appointments.status`. -/
inductive Status where
  | pending_approval
  | confirmed
  | cancelled
  | rejected
  deriving DecidableEq, Repr

/-- Column `appointments.pending_action` when it is not null. -/
inductive PendingAction where
  | book
  | cancel
  | modify
  deriving DecidableEq, Repr

/-- The JSON object kept in `appointments.pending_payload`. The handlers build it by
spreading the previous object and overwriting keys, so every key is optional
(`none` is an absent key or a `null` value). -/
structure PendingPayload where
  requestedBy : Option String := none
  durationMinutes : Option Nat := none
  clientPhoneNumber : Option String := none
  type : Option PendingAction := none
  requestedReason : Option String := none
  previousStatus : Option Status := none
  previousStartTime : Option Int := none
  previousEndTime : Option Int := none
  requestedDurationMinutes : Option Nat := none
  deriving DecidableEq, Repr

/-- A row of the `appointments` table, with the columns the service reads or writes. -/
structure Appointment where
  id : String
  client_id : String
  start_time : Int
  end_time : Int
  status : Status
  pending_action : Option PendingAction
  pending_payload : Option PendingPayload
  version : Int
  requested_by_channel : Option String
  agent_request_id : Option String
  audit_tier : String
  approval_requested_at : Option Int
  approved_at : Option Int
  cancelled_at : Option Int
  confirmed_by : Option String
  confirmation_webhook_url : Option String
  notes : Option String
  created_at : Int
  deriving DecidableEq, Repr

/-- A row of the `clients` table. -/
structure ClientRow where
  id : String
  phone_number : String
  name : String
  email : Option String
  updated_at : Int
  deriving DecidableEq, Repr

/-- The `client` object of a book command. -/
structure Person where
  name : String
  phoneNumber : String
  email : Option String
  deriving DecidableEq, Repr

/-- A sanitised agent command (the object `sanitizeAgentPayload` returns). A handler
reads only the fields of its own action; `durationMinutes` is a natural number
because the sanitiser admits only integers from 15 to 240. -/
structure Payload where
  action : String
  agentRequestId : Option String
  auditTier : String
  confirmationWebhookUrl : Option String
  notes : Option String
  client : Person
  requestedStart : Int
  durationMinutes : Nat
  appointmentId : String
  reason : Option String
  deriving DecidableEq, Repr

/-- The argument object of `confirmPendingAppointment`. -/
structure Approval where
  appointmentId : String
  expectedVersion : Int
  approved : Bool
  reviewedBy : String := "toney"
  deriving DecidableEq, Repr

/-- The objects the service resolves with, one constructor per `status` string. -/
inductive Response where
  | pending_toney_approval (action : PendingAction) (appointmentId : String) (version : Int)
      (startTime endTime : Option Int)
  | conflict (action : String) (requestedTime : Int) (proposedTime : Option Int)
  | already_cancelled (appointmentId : String)
  | approval_resolved (appointmentId : String) (appointmentStatus : Status) (version : Int)
      (webhookDelivered : Bool)
  deriving DecidableEq, Repr

/-- The `status` property of a response object. -/
def Response.status : Response → String
  | .pending_toney_approval .. => "pending_toney_approval"
  | .conflict .. => "conflict"
  | .already_cancelled .. => "already_cancelled"
  | .approval_resolved .. => "approval_resolved"

/-- The two tables of the store. -/
structure Db where
  appointments : List Appointment
  clients : List ClientRow
  deriving DecidableEq, Repr

/-- An external call made by the service. -/
inductive Event where
  | query
  | transaction (committed : Bool)
  | getNextAvailable
  | sendPendingApproval (appointmentId : String) (action : PendingAction)
  | postConfirmation (url : String)
  deriving DecidableEq, Repr

/-- The store together with the trace of external calls made so far. -/
structure World where
  db : Db
  trace : List Event
  deriving DecidableEq, Repr

/-- What the outside world answers during one operation. -/
structure Env where
  /-- The value of `now()` inside the transaction. -/
  now : Int
  /-- The key the store generates for an inserted appointment. -/
  newAppointmentId : String
  /-- The key the store generates for an inserted client. -/
  newClientId : String
  /-- The error, if any, with which attempt `n` (from 1) of the conflict read rejects. -/
  queryFault : Nat → Option JsError
  /-- The error, if any, that the store raises while the transaction runs (a lost race, a
  dropped connection); the transaction is rolled back and rejects with it. -/
  txFault : Option JsError
  /-- The injected `availabilityService.getNextAvailable`, reading the appointments table. -/
  getNextAvailable : List Appointment → Int → Nat → Option String → Except JsError (Option Int)
  /-- The error, if any, with which `pushGateway.sendPendingApproval` rejects. -/
  pushFault : Option JsError
  /-- The error, if any, with which attempt `n` (from 1) of `webhookClient.postConfirmation`
  rejects. -/
  webhookFault : Nat → Option JsError

/-! ## Helpers of `appointmentService.js` -/

/-- Source `addMinutes`: `new Date(date.getTime() + minutes * 60_000)`. -/
def addMinutes (date : Int) (minutes : Int) : Int :=
  date + minutes * 60000

/-- JavaScript truthiness of an optional string: `undefined`, `null` and `''` are falsy. -/
def truthy : Option String → Bool
  | some s => s != ""
  | none => false

/-- The SQL predicate `status in ('pending_approval', 'confirmed')`. -/
def Appointment.active (r : Appointment) : Bool :=
  r.status = Status.pending_approval || r.status = Status.confirmed

/-- The SQL predicate `tstzrange(a1, a2, '[)') && tstzrange(b1, b2, '[)')`: the two half-open
ranges share an instant. An empty range (`a1 = a2`) overlaps nothing. The service writes
only rows with `start_time ≤ end_time`, so the error PostgreSQL raises for an inverted
range is left out. -/
def rangesOverlap (a1 a2 b1 b2 : Int) : Bool :=
  decide (a1 < a2) && decide (b1 < b2) && decide (a1 < b2) && decide (b1 < a2)

/-- The rows returned by the statement of `overlapRangeQuery`, run with parameters
`$1 = start`, `$2 = end` and, when `excludeAppointmentId` is truthy, `$3` the excluded id. -/
def overlapRangeQuery (rows : List Appointment) (start stop : Int)
    (excludeAppointmentId : Option String) : List Appointment :=
  let hits := rows.filter (fun r =>
    r.active && rangesOverlap r.start_time r.end_time start stop &&
      (if truthy excludeAppointmentId then decide (some r.id ≠ excludeAppointmentId) else true))
  (hits.insertionSort (fun a b => a.start_time ≤ b.start_time)).take 1

/-- Modelled from the spec: the RetryPolicy, which in the source is the `p-retry` package
(absent from the sources). `pRetry attempt retries n` runs attempt number `n`; when it
rejects and retries remain, it runs the next one. It returns the outcome of the last
attempt made and that attempt's number. -/
def pRetry {α : Type} (attempt : Nat → Except JsError α) : Nat → Nat → Except JsError α × Nat
  | 0, n => (attempt n, n)
  | retries + 1, n =>
    match attempt n with
    | .ok a => (.ok a, n)
    | .error _ => pRetry attempt retries (n + 1)

/-! ## The store -/

/-- An error raised by the store, carrying its SQLSTATE in `code`. -/
def pgError (sqlstate : String) : JsError :=
  JsError.Error "store error" (some sqlstate)

/-- Modelled from the spec: the store-level exclusion guarantee on `appointments` (the
schema is absent from the sources; the service names its SQLSTATE `23P01`). A row
version `r` violates it when `r` is active and some other row is active with a range
overlapping that of `r`. -/
def exclusionViolation (r : Appointment) (others : List Appointment) : Bool :=
  r.active && others.any (fun x =>
    x.active && rangesOverlap x.start_time x.end_time r.start_time r.end_time)

/-- The statement `insert into appointments ...`: the primary key and the exclusion
constraint are checked, then the row is appended. -/
def insertAppointment (rows : List Appointment) (r : Appointment) :
    Except JsError (List Appointment) :=
  if rows.any (fun x => x.id = r.id) then .error (pgError "23505")
  else if exclusionViolation r rows then .error (pgError "23P01")
  else .ok (rows ++ [r])

/-- The statement `update appointments set ... where id = $1 [and guard] returning ...`:
every row with that id satisfying `guard` is replaced by `set` of it, unless a new row
version violates the exclusion constraint against the rows left alone. Returns the new
table and the `returning` rows. -/
def updateAppointment (rows : List Appointment) (id : String) (guard : Appointment → Bool)
    (set : Appointment → Appointment) : Except JsError (List Appointment × List Appointment) :=
  let hit := fun (r : Appointment) => decide (r.id = id) && guard r
  let changed := (rows.filter hit).map set
  let rest := rows.filter (fun r => !hit r)
  if changed.any (fun r => exclusionViolation r rest) then .error (pgError "23P01")
  else .ok (rows.map (fun r => if hit r then set r else r), changed)

/-- Source `withTransaction` of `infrastructure/db.js`: `BEGIN`, the callback, `COMMIT`;
on any error `ROLLBACK` (the store is left as it was) and rethrow. -/
def withTransaction {α : Type} (env : Env) (callback : Db → Except JsError (α × Db))
    (w : World) : Except JsError α × World :=
  match env.txFault with
  | some e => (.error e, { w with trace := w.trace ++ [Event.transaction false] })
  | none =>
    match callback w.db with
    | .ok (a, db) => (.ok a, { db := db, trace := w.trace ++ [Event.transaction true] })
    | .error e => (.error e, { w with trace := w.trace ++ [Event.transaction false] })

/-! ## `AppointmentService` -/

/-- Source `findConflict`: the overlap query under `pRetry` with two retries; one `query`
event per attempt. -/
def findConflict (env : Env) (start stop : Int) (excludeAppointmentId : Option String)
    (w : World) : Except JsError (Option Appointment) × World :=
  let out := pRetry (fun n =>
    match env.queryFault n with
    | some e => .error e
    | none => .ok (overlapRangeQuery w.db.appointments start stop excludeAppointmentId).head?) 2 1
  (out.1, { w with trace := w.trace ++ List.replicate out.2 Event.query })

/-- Source `buildConflictResponse`. -/
def buildConflictResponse (env : Env) (payload : Payload) (requestedStart : Int)
    (durationMinutes : Nat) (excludeAppointmentId : Option String) (w : World) :
    Except JsError Response × World :=
  let w1 := { w with trace := w.trace ++ [Event.getNextAvailable] }
  match env.getNextAvailable w.db.appointments requestedStart durationMinutes
      excludeAppointmentId with
  | .error e => (.error e, w1)
  | .ok nextAvailable => (.ok (Response.conflict payload.action requestedStart nextAvailable), w1)

/-- Source `upsertClient`: insert the client, or on a phone-number conflict refresh name
and email (`coalesce(excluded.email, clients.email)`); returns the new table and the id. -/
def upsertClient (env : Env) (clients : List ClientRow) (person : Person) :
    Except JsError (List ClientRow × String) :=
  match clients.find? (fun c => c.phone_number = person.phoneNumber) with
  | some c =>
    .ok (clients.map (fun r =>
      if r.phone_number = person.phoneNumber then
        { r with name := person.name, email := (person.email <|> r.email), updated_at := env.now }
      else r), c.id)
  | none =>
    if clients.any (fun c => c.id = env.newClientId) then .error (pgError "23505")
    else
      let row : ClientRow := { id := env.newClientId, phone_number := person.phoneNumber
                               name := person.name, email := person.email
                               updated_at := env.now }
      .ok (clients ++ [row], env.newClientId)

/-- Source `getAppointmentForUpdate`: `select ... where id = $1 for update`; 404 unless
exactly one row comes back. -/
def getAppointmentForUpdate (db : Db) (appointmentId : String) : Except JsError Appointment :=
  match db.appointments.filter (fun r => r.id = appointmentId) with
  | [row] => .ok row
  | _ => .error (JsError.HttpError 404 "Appointment not found" "not_found")

/-- Source `resolveApprovalTransition`: the status an approval decision resolves to. -/
def resolveApprovalTransition (existing : Appointment) (approved : Bool) : Status :=
  if approved then
    (if existing.pending_action = some PendingAction.cancel then Status.cancelled
     else Status.confirmed)
  else if existing.pending_action = some PendingAction.book then Status.rejected
  else Status.confirmed

/-- Modelled from the spec: the default of column `appointments.version` (the schema is
absent from the sources). A reservation is created with version 1. -/
def initialVersion : Int := 1

/-- The row that the `insert` statement of `handleBook` creates. Columns the statement does
not name take their defaults: `initialVersion`, creation time `now()`, the rest null. -/
def bookRow (env : Env) (payload : Payload) (clientId : String) : Appointment :=
  { id := env.newAppointmentId
    client_id := clientId
    start_time := payload.requestedStart
    end_time := addMinutes payload.requestedStart payload.durationMinutes
    status := Status.pending_approval
    pending_action := some PendingAction.book
    pending_payload := some { requestedBy := some "ai_agent"
                              durationMinutes := some payload.durationMinutes
                              clientPhoneNumber := some payload.client.phoneNumber }
    version := initialVersion
    requested_by_channel := some "ai_agent"
    agent_request_id := payload.agentRequestId
    audit_tier := payload.auditTier
    approval_requested_at := some env.now
    approved_at := none
    cancelled_at := none
    confirmed_by := none
    confirmation_webhook_url := payload.confirmationWebhookUrl
    notes := payload.notes
    created_at := env.now }

/-- The transaction callback of `handleBook`: upsert the client, insert the appointment,
return the inserted row. -/
def bookTransaction (env : Env) (payload : Payload) (db : Db) :
    Except JsError (Appointment × Db) :=
  match upsertClient env db.clients payload.client with
  | .error e => .error e
  | .ok (clients, clientId) =>
    let row := bookRow env payload clientId
    match insertAppointment db.appointments row with
    | .error e => .error e
    | .ok rows => .ok (row, { appointments := rows, clients := clients })

/-- The `await this.pushGateway.sendPendingApproval(...)` step followed by the handler's
`return` of the pending response. -/
def notifyPending (env : Env) (action : PendingAction) (row : Appointment)
    (withTimes : Bool) (w : World) : Except JsError Response × World :=
  let w1 := { w with trace := w.trace ++ [Event.sendPendingApproval row.id action] }
  match env.pushFault with
  | some e => (.error e, w1)
  | none =>
    (.ok (Response.pending_toney_approval action row.id row.version
      (if withTimes then some row.start_time else none)
      (if withTimes then some row.end_time else none)), w1)

/-- Source `handleBook`. -/
def handleBook (env : Env) (payload : Payload) (w : World) : Except JsError Response × World :=
  let start := payload.requestedStart
  let stop := addMinutes start payload.durationMinutes
  match findConflict env start stop none w with
  | (.error e, w1) => (.error e, w1)
  | (.ok (some _), w1) => buildConflictResponse env payload start payload.durationMinutes none w1
  | (.ok none, w1) =>
    let attempt : Except JsError Response × World :=
      match withTransaction env (bookTransaction env payload) w1 with
      | (.error e, w2) => (.error e, w2)
      | (.ok result, w2) => notifyPending env PendingAction.book result true w2
    match attempt with
    | (.error e, w3) =>
      if e.code = some "23P01" then
        buildConflictResponse env payload start payload.durationMinutes none w3
      else (.error e, w3)
    | (.ok r, w3) => (.ok r, w3)

/-- The `set` clause of the `update` in `handleCancel`. -/
def cancelSet (env : Env) (payload : Payload) (existing : Appointment) (r : Appointment) :
    Appointment :=
  { r with
    status := Status.pending_approval
    pending_action := some PendingAction.cancel
    pending_payload := some { (existing.pending_payload.getD {}) with
                              type := some PendingAction.cancel
                              requestedReason := (payload.reason <|> payload.notes)
                              previousStatus := some existing.status }
    approval_requested_at := some env.now
    notes := (payload.notes <|> r.notes)
    agent_request_id := (payload.agentRequestId <|> r.agent_request_id)
    audit_tier := payload.auditTier
    confirmation_webhook_url := (payload.confirmationWebhookUrl <|> r.confirmation_webhook_url)
    version := existing.version + 1 }

/-- The transaction callback of `handleCancel`. The first component tells whether the row
was already cancelled; the second is `row` (`result.rows[0]` may be undefined). -/
def cancelTransaction (env : Env) (payload : Payload) (db : Db) :
    Except JsError ((Bool × Option Appointment) × Db) :=
  match getAppointmentForUpdate db payload.appointmentId with
  | .error e => .error e
  | .ok existing =>
    if existing.status = Status.cancelled then .ok ((true, some existing), db)
    else
      match updateAppointment db.appointments payload.appointmentId (fun _ => true)
          (cancelSet env payload existing) with
      | .error e => .error e
      | .ok (rows, returned) => .ok ((false, returned.head?), { db with appointments := rows })

/-- The `TypeError` JavaScript throws on reading a property of `undefined` or of `null`. -/
def typeError : JsError :=
  JsError.Error "TypeError: Cannot read properties of undefined" none

/-- Source `handleCancel`. -/
def handleCancel (env : Env) (payload : Payload) (w : World) : Except JsError Response × World :=
  match withTransaction env (cancelTransaction env payload) w with
  | (.error e, w1) => (.error e, w1)
  | (.ok (_, none), w1) => (.error typeError, w1)
  | (.ok (true, some row), w1) => (.ok (Response.already_cancelled row.id), w1)
  | (.ok (false, some row), w1) => notifyPending env PendingAction.cancel row false w1

/-- The `set` clause of the `update` in `handleModify`. -/
def modifySet (env : Env) (payload : Payload) (existing : Appointment) (r : Appointment) :
    Appointment :=
  { r with
    start_time := payload.requestedStart
    end_time := addMinutes payload.requestedStart payload.durationMinutes
    status := Status.pending_approval
    pending_action := some PendingAction.modify
    pending_payload := some { (existing.pending_payload.getD {}) with
                              type := some PendingAction.modify
                              previousStartTime := some existing.start_time
                              previousEndTime := some existing.end_time
                              previousStatus := some existing.status
                              requestedDurationMinutes := some payload.durationMinutes }
    approval_requested_at := some env.now
    agent_request_id := (payload.agentRequestId <|> r.agent_request_id)
    audit_tier := payload.auditTier
    confirmation_webhook_url := (payload.confirmationWebhookUrl <|> r.confirmation_webhook_url)
    notes := (payload.notes <|> r.notes)
    version := existing.version + 1 }

/-- The transaction callback of `handleModify`. -/
def modifyTransaction (env : Env) (payload : Payload) (db : Db) :
    Except JsError (Option Appointment × Db) :=
  match getAppointmentForUpdate db payload.appointmentId with
  | .error e => .error e
  | .ok existing =>
    if existing.status = Status.cancelled then
      .error (JsError.HttpError 409 "Cannot modify a cancelled appointment" "invalid_state")
    else
      match updateAppointment db.appointments payload.appointmentId (fun _ => true)
          (modifySet env payload existing) with
      | .error e => .error e
      | .ok (rows, returned) => .ok (returned.head?, { db with appointments := rows })

/-- Source `handleModify`. -/
def handleModify (env : Env) (payload : Payload) (w : World) : Except JsError Response × World :=
  let start := payload.requestedStart
  let stop := addMinutes start payload.durationMinutes
  match findConflict env start stop (some payload.appointmentId) w with
  | (.error e, w1) => (.error e, w1)
  | (.ok (some _), w1) =>
    buildConflictResponse env payload start payload.durationMinutes (some payload.appointmentId) w1
  | (.ok none, w1) =>
    let attempt : Except JsError Response × World :=
      match withTransaction env (modifyTransaction env payload) w1 with
      | (.error e, w2) => (.error e, w2)
      | (.ok none, w2) => (.error typeError, w2)
      | (.ok (some updated), w2) => notifyPending env PendingAction.modify updated true w2
    match attempt with
    | (.error e, w3) =>
      if e.code = some "23P01" then
        buildConflictResponse env payload start payload.durationMinutes
          (some payload.appointmentId) w3
      else (.error e, w3)
    | (.ok r, w3) => (.ok r, w3)

/-- Source `handleAgentAction`. -/
def handleAgentAction (env : Env) (payload : Payload) (w : World) :
    Except JsError Response × World :=
  if payload.action = "book" then handleBook env payload w
  else if payload.action = "cancel" then handleCancel env payload w
  else if payload.action = "modify" then handleModify env payload w
  else (.error (JsError.HttpError 400 "Unsupported action" "invalid_action"), w)

/-- The `set` clause of the `update` in `confirmPendingAppointment`. -/
def approveSet (env : Env) (a : Approval) (nextState : Status) (r : Appointment) : Appointment :=
  { r with
    status := nextState
    pending_action := none
    pending_payload := none
    approved_at := if a.approved then some env.now else r.approved_at
    cancelled_at := if nextState = Status.cancelled then some env.now else r.cancelled_at
    confirmed_by := some a.reviewedBy
    version := r.version + 1 }

/-- The transaction callback of `confirmPendingAppointment`. -/
def approveTransaction (env : Env) (a : Approval) (db : Db) :
    Except JsError (Appointment × Db) :=
  match getAppointmentForUpdate db a.appointmentId with
  | .error e => .error e
  | .ok existing =>
    if existing.status ≠ Status.pending_approval ∨ existing.pending_action = none then
      .error (JsError.HttpError 409 "Appointment is not awaiting approval" "invalid_state")
    else
      let nextState := resolveApprovalTransition existing a.approved
      match updateAppointment db.appointments a.appointmentId
          (fun r => decide (r.version = a.expectedVersion)) (approveSet env a nextState) with
      | .error e => .error e
      | .ok (rows, [row]) => .ok (row, { db with appointments := rows })
      | .ok _ =>
        .error (JsError.HttpError 409 "Approval version conflict" "optimistic_lock_conflict")

/-- The webhook step of `confirmPendingAppointment`: when the url is truthy,
`postConfirmation` under `pRetry` with two retries; yields `webhookDelivered`. The
`catch` block reads `error.message` of what `p-retry` rejects with, which is an error
object (the package replaces a rejection that is not one by a `TypeError`). -/
def deliverWebhook (env : Env) (url : Option String) (w : World) : Bool × World :=
  if truthy url then
    let out := pRetry (fun n =>
      match env.webhookFault n with
      | some e => .error e
      | none => .ok ()) 2 1
    (match out.1 with
      | .ok _ => true
      | .error _ => false,
     { w with trace := w.trace ++ List.replicate out.2 (Event.postConfirmation (url.getD "")) })
  else (false, w)

/-- Source `confirmPendingAppointment`. -/
def confirmPendingAppointment (env : Env) (a : Approval) (w : World) :
    Except JsError Response × World :=
  match withTransaction env (approveTransaction env a) w with
  | (.error e, w1) => (.error e, w1)
  | (.ok updated, w1) =>
    let d := deliverWebhook env updated.confirmation_webhook_url w1
    (.ok (Response.approval_resolved updated.id updated.status updated.version d.1), d.2)

/-! ## `availabilityService.js`

`Date` reads and builds calendar fields in the time zone of the process. A `Zone` gives
the two conversions of ECMAScript between an instant and its local time (milliseconds
counted as if the wall clock were UTC, so that the local calendar day is the quotient by
86 400 000). The module constants read from the process environment
(`DEFAULT_SLOT_MINUTES` and the others) and the time zone are the fields of a `Config`;
the constants are natural numbers, as the hours, minutes and lengths they stand for. -/

/-- The time zone of the process. -/
structure Zone where
  /-- The local time of an instant (`LocalTime(t)`): the instant plus the offset in force
  at it. -/
  toLocal : Int → Int
  /-- The instant of a local time (`UTC(t)`); a local time that occurs twice or never at a
  change of offset is resolved as the platform does. -/
  fromLocal : Int → Int

/-- The zone UTC. -/
def utcZone : Zone :=
  { toLocal := fun t => t, fromLocal := fun t => t }

/-- The zone keeps one offset from UTC at all times (no daylight saving time). -/
def FixedOffset (zone : Zone) : Prop :=
  ∃ offset : Int, (∀ t, zone.toLocal t = t + offset) ∧ ∀ t, zone.fromLocal t = t - offset

/-- The module constants of `availabilityService.js` and the time zone of the process. -/
structure Config where
  /-- Constant `DEFAULT_SLOT_MINUTES`. -/
  slotMinutes : Nat
  /-- Constant `DEFAULT_HORIZON_DAYS`. -/
  horizonDays : Nat
  /-- Constant `DEFAULT_START_HOUR`. -/
  startHour : Nat
  /-- Constant `DEFAULT_START_MINUTE`. -/
  startMinute : Nat
  /-- Constant `DEFAULT_END_HOUR`. -/
  endHour : Nat
  /-- Constant `DEFAULT_END_MINUTE`. -/
  endMinute : Nat
  /-- The time zone of the process (`TZ`). -/
  zone : Zone

/-- The constants when the environment sets none of them, in a process whose time zone is
UTC: 30-minute slots, a 30-day horizon, business hours 09:30 to 18:00. -/
def defaultConfig : Config :=
  { slotMinutes := 30, horizonDays := 30, startHour := 9, startMinute := 30,
    endHour := 18, endMinute := 0, zone := utcZone }

/-- A row of the `availability_overrides` table. A custom time is the pair (hours, minutes)
that `String(t).split(':').map(Number)` yields for a `time` value `HH:MM:SS`. -/
structure OverrideRow where
  override_date : Int
  is_blocked : Bool
  custom_start_time : Option (Nat × Nat)
  custom_end_time : Option (Nat × Nat)
  deriving DecidableEq, Repr

/-- A busy interval `{ id, start, end }` as `loadBusyAppointments` returns it (`stop` is the
field `end`). -/
structure Busy where
  id : String
  start : Int
  stop : Int
  deriving DecidableEq, Repr

/-- Source `startOfDay`: `new Date(y, m, d)` with the local calendar fields of `date`, the
instant of local midnight of the local day of `date`. -/
def startOfDay (zone : Zone) (date : Int) : Int :=
  zone.fromLocal (zone.toLocal date - zone.toLocal date % 86400000)

/-- Source `endOfDay`: `new Date(y, m, d, 23, 59, 59, 999)` with the local calendar fields
of `date`. -/
def endOfDay (zone : Zone) (date : Int) : Int :=
  zone.fromLocal (zone.toLocal date - zone.toLocal date % 86400000 + 86399999)

/-- Source `dayKey`: the local calendar date of `date`. The string `YYYY-MM-DD` is
represented by the number of the local day, which determines it. -/
def dayKey (zone : Zone) (date : Int) : Int :=
  zone.toLocal date / 86400000

/-- Source `roundUpToBoundary`: `Math.ceil(t / slotMs) * slotMs`. With a slot of 0 minutes
the quotient is not a number and the result is an invalid date, `none`. -/
def roundUpToBoundary (date : Int) (slotMinutes : Nat) : Option Int :=
  if slotMinutes = 0 then none
  else some (-((-date) / (slotMinutes * 60000)) * (slotMinutes * 60000))

/-- Source `overlaps`: `aStart < bEnd && aEnd > bStart`. -/
def overlaps (aStart aEnd bStart bEnd : Int) : Bool :=
  decide (aStart < bEnd) && decide (aEnd > bStart)

/-- The method `Date.prototype.setHours(h, m, 0, 0)` on a copy of `day`: the instant of
the local time `h:m` of the local day of `day`. -/
def setHours (zone : Zone) (day : Int) (h m : Nat) : Int :=
  zone.fromLocal (zone.toLocal day - zone.toLocal day % 86400000 + h * 3600000 + m * 60000)

/-- Source `toWindowForDay`: `none` is `null` (a blocked day), otherwise `(start, end)`. -/
def toWindowForDay (cfg : Config) (day : Int) (override : Option OverrideRow) :
    Option (Int × Int) :=
  let standard := some (setHours cfg.zone day cfg.startHour cfg.startMinute,
    setHours cfg.zone day cfg.endHour cfg.endMinute)
  match override with
  | none => standard
  | some o =>
    if o.is_blocked then none
    else
      match o.custom_start_time, o.custom_end_time with
      | some (sh, sm), some (eh, em) =>
        some (setHours cfg.zone day sh sm, setHours cfg.zone day eh em)
      | _, _ => standard

namespace AvailabilityService

/-- Source `isFree`. -/
def isFree (start stop : Int) : List Busy → Bool
  | [] => true
  | busy :: rest =>
    if busy.stop ≤ start then isFree start stop rest
    else if busy.start ≥ stop then isFree start stop rest
    else if overlaps start stop busy.start busy.stop then false
    else isFree start stop rest

/-- The `while` loop of `scanForSlot` from `cursor`, run for at most `steps` tests of its
condition: `none` when the condition fails (or the tests are used up). -/
def walkGrid (slotMs durationMs windowEnd : Int) (busyRows : List Busy) : Nat → Int → Option Int
  | 0, _ => none
  | steps + 1, cursor =>
    if cursor + durationMs ≤ windowEnd then
      if isFree cursor (cursor + durationMs) busyRows then some cursor
      else walkGrid slotMs durationMs windowEnd busyRows steps (cursor + slotMs)
    else none

/-- The number of cursors `cursor + i * slotMs` that pass the condition of the `while` loop
(for a positive slot): running `walkGrid` for that many tests is running the loop to its
end, see `walkGrid_loop`. -/
def gridSteps (slotMs durationMs windowEnd cursor : Int) : Nat :=
  ((windowEnd - durationMs - cursor) / slotMs + 1).toNat

/-- The day scanned at `offsetDays`: `addMinutes(firstDay, offsetDays * 24 * 60)` with
`firstDay = startOfDay(requestedStart)`. -/
def dayAt (zone : Zone) (requestedStart : Int) (offsetDays : Nat) : Int :=
  addMinutes (startOfDay zone requestedStart) (offsetDays * 24 * 60)

/-- The `for` loop of `scanForSlot` from day `offsetDays`, for `days` more days. -/
def scanDays (cfg : Config) (requestedStart durationMs : Int) (busyRows : List Busy)
    (overrideRows : Int → Option OverrideRow) : Nat → Nat → Option Int
  | 0, _ => none
  | days + 1, offsetDays =>
    let day := dayAt cfg.zone requestedStart offsetDays
    match toWindowForDay cfg day (overrideRows (dayKey cfg.zone day)) with
    | none => scanDays cfg requestedStart durationMs busyRows overrideRows days (offsetDays + 1)
    | some (windowStart, windowEnd) =>
      let dayStart := if offsetDays = 0 then max windowStart requestedStart else windowStart
      match roundUpToBoundary dayStart cfg.slotMinutes with
      | none => scanDays cfg requestedStart durationMs busyRows overrideRows days (offsetDays + 1)
      | some cursor =>
        match walkGrid (cfg.slotMinutes * 60000) durationMs windowEnd busyRows
            (gridSteps (cfg.slotMinutes * 60000) durationMs windowEnd cursor) cursor with
        | some t => some t
        | none =>
          scanDays cfg requestedStart durationMs busyRows overrideRows days (offsetDays + 1)

/-- Source `scanForSlot`: `overrideRows` is the `Map` from day key to override row; days
`0` to `horizonDays` are scanned; `none` is `null`. -/
def scanForSlot (cfg : Config) (requestedStart : Int) (durationMinutes : Nat)
    (busyRows : List Busy) (overrideRows : Int → Option OverrideRow) (horizonDays : Nat) :
    Option Int :=
  scanDays cfg requestedStart (durationMinutes * 60000) busyRows overrideRows
    (horizonDays + 1) 0

/-- Source `loadBusyAppointments`: the active appointments whose range overlaps
`[start, end)`, without the excluded one, by start time. -/
def loadBusyAppointments (appointments : List Appointment) (start stop : Int)
    (excludeAppointmentId : Option String) : List Busy :=
  ((appointments.filter (fun r =>
      r.active && rangesOverlap r.start_time r.end_time start stop &&
        (if truthy excludeAppointmentId then decide (some r.id ≠ excludeAppointmentId)
         else true))).insertionSort (fun a b => a.start_time ≤ b.start_time)).map
    (fun r => { id := r.id, start := r.start_time, stop := r.end_time })

/-- Source `loadOverrides`: the override rows dated from `fromDay` to `toDay`, by date, put
in a `Map` under their day key (a later row replaces an earlier one with the same key).
The store casts the two bounds to dates in the time zone of the process. -/
def loadOverrides (zone : Zone) (overrides : List OverrideRow) (fromDay toDay : Int) :
    Int → Option OverrideRow :=
  let rows := (overrides.filter (fun o =>
      decide (dayKey zone fromDay ≤ dayKey zone o.override_date) &&
        decide (dayKey zone o.override_date ≤ dayKey zone toDay))).insertionSort
    (fun a b => a.override_date ≤ b.override_date)
  fun key => rows.reverse.find? (fun o => dayKey zone o.override_date = key)

/-- Source `getNextAvailable`, on the `appointments` and `availability_overrides` tables;
`horizonDays = none` takes the default `DEFAULT_HORIZON_DAYS`. -/
def getNextAvailable (cfg : Config) (appointments : List Appointment)
    (overrides : List OverrideRow) (requestedStart : Int) (durationMinutes : Nat)
    (excludeAppointmentId : Option String) (horizonDays : Option Nat) : Option Int :=
  let horizon := horizonDays.getD cfg.horizonDays
  let horizonEnd := addMinutes requestedStart (horizon * 24 * 60)
  let busyRows := loadBusyAppointments appointments requestedStart horizonEnd excludeAppointmentId
  let overrideRows := loadOverrides cfg.zone overrides (startOfDay cfg.zone requestedStart)
    (endOfDay cfg.zone horizonEnd)
  scanForSlot cfg requestedStart durationMinutes busyRows overrideRows horizon

/-- The instant `t` is a feasible start on the day scanned at `offsetDays`: the day has a
window, `t` is on the slot grid, not before the window start (nor, on day 0, before the
requested start), the candidate ends by the window end, and it overlaps no busy interval
(overlap test of the source: `a1 < b2` and `a2 > b1`). -/
def DayFeasible (cfg : Config) (requestedStart durationMs : Int) (busyRows : List Busy)
    (overrideRows : Int → Option OverrideRow) (offsetDays : Nat) (t : Int) : Prop :=
  ∃ windowStart windowEnd,
    toWindowForDay cfg (dayAt cfg.zone requestedStart offsetDays)
      (overrideRows (dayKey cfg.zone (dayAt cfg.zone requestedStart offsetDays))) =
        some (windowStart, windowEnd) ∧
    ((cfg.slotMinutes : Int) * 60000) ∣ t ∧
    (if offsetDays = 0 then max windowStart requestedStart else windowStart) ≤ t ∧
    t + durationMs ≤ windowEnd ∧
    ∀ b ∈ busyRows, overlaps t (t + durationMs) b.start b.stop = false

/-- The instant `t` is a feasible start on one of the days `0` to `horizonDays`. -/
def Feasible (cfg : Config) (requestedStart durationMs : Int) (busyRows : List Busy)
    (overrideRows : Int → Option OverrideRow) (horizonDays : Nat) (t : Int) : Prop :=
  ∃ offsetDays, offsetDays ≤ horizonDays ∧
    DayFeasible cfg requestedStart durationMs busyRows overrideRows offsetDays t

end AvailabilityService

/-! ## The non-overlap invariant -/

/-- Two rows conflict when both are active and their ranges share an instant. -/
def conflicting (a b : Appointment) : Bool :=
  a.active && b.active && rangesOverlap a.start_time a.end_time b.start_time b.end_time

/-- No two rows of the table (at distinct positions) conflict. -/
def NoOverlap (rows : List Appointment) : Prop :=
  rows.Pairwise (fun a b => conflicting a b = false)

instance (rows : List Appointment) : Decidable (NoOverlap rows) := by
  unfold NoOverlap; infer_instance

/-- The half-open ranges `[a1, a2)` and `[b1, b2)` intersect: some instant lies in both. -/
def Intersect (a1 a2 b1 b2 : Int) : Prop :=
  ∃ t : Int, a1 ≤ t ∧ t < a2 ∧ b1 ≤ t ∧ t < b2

/-- The invariant of the data model: no two active reservations (status pending_approval
or confirmed) of the table have intersecting ranges `[start_time, end_time)`. -/
def NonOverlapping (rows : List Appointment) : Prop :=
  rows.Pairwise (fun a b =>
    ¬((a.status = Status.pending_approval ∨ a.status = Status.confirmed) ∧
      (b.status = Status.pending_approval ∨ b.status = Status.confirmed) ∧
      Intersect a.start_time a.end_time b.start_time b.end_time))

/-! ## Running operations one at a time -/

/-- A request to the service: an agent command or an approval decision. -/
inductive Operation where
  | agent (payload : Payload)
  | approve (a : Approval)

/-- One operation, run to completion. -/
def step (env : Env) (op : Operation) (w : World) : Except JsError Response × World :=
  match op with
  | .agent payload => handleAgentAction env payload w
  | .approve a => confirmPendingAppointment env a w

/-- A sequence of operations, each with its own environment, run one after the other. -/
def run : List (Env × Operation) → World → World
  | [], w => w
  | (env, op) :: rest, w => run rest (step env op w).2

/-! ## JavaScript values and strings

The HTTP boundary (`security/agentSignature.js`, `services/payloadSanitizer.js`,
`middleware/sentinelMiddleware.js`) works on header maps, strings and the parsed request
body.

* A `String` is the sequence of its Unicode characters; `length` counts UTF-16 code units
  (`jsLength`). Strings with unpaired surrogates are not represented.
* Numbers are exact rationals: every finite double is one, and the only arithmetic made
  on them (one subtraction, comparisons with constants) is taken to be exact.
* What the platform supplies and the sources do not define (the clock, the process
  environment, number parsing and printing, `JSON.stringify`, HMAC-SHA256, date parsing)
  is a field of `Runtime`; the theorems hold for every runtime.
* Case mapping is done on the letters `A` to `Z` and `a` to `z` (and the Kelvin sign, the
  one other character whose lower case is one of them); JavaScript maps other letters too.
-/

/-- A JavaScript value found in a request: `undefined` or a JSON value. The fields of an
object have distinct keys. -/
inductive JsValue where
  | undefined
  | null
  | bool (b : Bool)
  | number (x : ℚ)
  | string (s : String)
  | array (items : List JsValue)
  | object (fields : List (String × JsValue))

/-- Property access `value.key` and `value?.key` for the keys the sources read (none is
`length` or inherited): the field of an object, `undefined` in every other case. -/
def JsValue.get (value : JsValue) (key : String) : JsValue :=
  match value with
  | .object fields => (fields.lookup key).getD .undefined
  | _ => .undefined

/-- The operator `a ?? b`. -/
def JsValue.orElse (a b : JsValue) : JsValue :=
  match a with
  | .undefined => b
  | .null => b
  | _ => a

/-- What the platform supplies. -/
structure Runtime where
  /-- The value of `Date.now()`. -/
  now : Int
  /-- The object `process.env`. -/
  env : String → Option String
  /-- The conversion `Number(text)` of a string when the result is finite; `none` when it
  is `NaN` or infinite. -/
  parseNumber : String → Option ℚ
  /-- The conversion `String(x)` of a finite number. -/
  numberToString : ℚ → String
  /-- The conversion `String(value)` of an array or an object. -/
  objectToString : JsValue → String
  /-- The function `JSON.stringify` on a value that is not `undefined`. -/
  stringify : JsValue → String
  /-- The bytes of `crypto.createHmac('sha256', secret).update(message).digest()`. -/
  hmacSha256 : String → String → List (Fin 256)
  /-- The time value of `new Date(text)`; `none` when it is `NaN`. -/
  parseDate : String → Option Int

/-- The conversion `String(value)`. -/
def toStr (rt : Runtime) : JsValue → String
  | .undefined => "undefined"
  | .null => "null"
  | .bool true => "true"
  | .bool false => "false"
  | .number x => rt.numberToString x
  | .string s => s
  | .array items => rt.objectToString (.array items)
  | .object fields => rt.objectToString (.object fields)

/-- The conversion `Number(value)` when the result is finite (`none`: `NaN` or infinite).
An array or an object is converted to a string first. -/
def toNumber (rt : Runtime) : JsValue → Option ℚ
  | .undefined => none
  | .null => some 0
  | .bool true => some 1
  | .bool false => some 0
  | .number x => some x
  | .string s => rt.parseNumber s
  | .array items => rt.parseNumber (rt.objectToString (.array items))
  | .object fields => rt.parseNumber (rt.objectToString (.object fields))

/-- White space and line terminators of ECMAScript: what `trim` removes and `\s` matches. -/
def isWhiteSpace (c : Char) : Bool :=
  [0x09, 0x0A, 0x0B, 0x0C, 0x0D, 0x20, 0xA0, 0x1680, 0x2028, 0x2029, 0x202F, 0x205F, 0x3000,
    0xFEFF].contains c.toNat || (decide (0x2000 ≤ c.toNat) && decide (c.toNat ≤ 0x200A))

/-- The method `String.prototype.trim`. -/
def trim (s : String) : String :=
  String.mk ((s.data.dropWhile isWhiteSpace).reverse.dropWhile isWhiteSpace).reverse

/-- The method `String.prototype.toLowerCase`. -/
def toLowerCase (s : String) : String :=
  String.mk (s.data.map (fun c => if c.toNat = 0x212A then 'k' else c.toLower))

/-- The method `String.prototype.toUpperCase` on the letters `a` to `z`; every other
character is kept, also the letters outside ASCII that JavaScript maps (U+0131 to `I`,
U+00DF to `SS`). It agrees with the source on header names, methods and tiers written in
ASCII. -/
def toUpperCase (s : String) : String :=
  String.mk (s.data.map Char.toUpper)

/-- The property `length` of a string: its number of UTF-16 code units. -/
def jsLength (s : String) : Nat :=
  (s.data.map (fun c => if c.toNat < 0x10000 then 1 else 2)).sum

/-- The first `n` UTF-16 code units of a character sequence, `slice(0, n)`. A character of
two code units that straddles the cut is dropped (JavaScript keeps its first half). -/
def sliceTo : Nat → List Char → List Char
  | _, [] => []
  | n, c :: rest =>
    if (if c.toNat < 0x10000 then 1 else 2) ≤ n then
      c :: sliceTo (n - (if c.toNat < 0x10000 then 1 else 2)) rest
    else []

/-- The method `Array.prototype.join` on an array of strings. -/
def joinWith (sep : String) : List String → String
  | [] => ""
  | [a] => a
  | a :: rest => a ++ sep ++ joinWith sep rest

/-! ## `security/agentSignature.js` -/

/-- Constant `DEFAULT_MAX_SKEW_MS`. -/
def DEFAULT_MAX_SKEW_MS : ℚ := 5 * 60 * 1000

/-- The value of a hexadecimal digit, `none` for any other character. -/
def hexValue (c : Char) : Option Nat :=
  if '0' ≤ c ∧ c ≤ '9' then some (c.toNat - 48)
  else if 'a' ≤ c ∧ c ≤ 'f' then some (c.toNat - 87)
  else if 'A' ≤ c ∧ c ≤ 'F' then some (c.toNat - 55)
  else none

/-- The function `Buffer.from(text, 'hex')` of Node.js: pairs of hexadecimal digits are
decoded from the left; decoding stops at the first pair that is not two hexadecimal digits,
and a single digit left at the end is dropped. -/
def bufferFromHex : List Char → List (Fin 256)
  | a :: b :: rest =>
    match hexValue a, hexValue b with
    | some x, some y => Fin.ofNat (16 * x + y) :: bufferFromHex rest
    | _, _ => []
  | _ => []

/-- The lower-case hexadecimal digit of a number below 16. -/
def hexDigit (n : Nat) : Char :=
  if n < 10 then Char.ofNat (48 + n) else Char.ofNat (87 + n)

/-- The encoding `digest('hex')` of a byte sequence: two lower-case digits per byte. -/
def toHex : List (Fin 256) → List Char
  | [] => []
  | b :: rest => hexDigit (b.val / 16) :: hexDigit (b.val % 16) :: toHex rest

/-- The test `/^[a-fA-F0-9]+$/.test(text)`. -/
def isHex (text : String) : Bool :=
  !text.data.isEmpty && text.data.all (fun c => (hexValue c).isSome)

/-- Source `getHeader`. The header map is a list of (name, value) pairs. -/
def getHeader (headers : List (String × String)) (key : String) : Option String :=
  headers.lookup key <|> headers.lookup (toLowerCase key) <|> headers.lookup (toUpperCase key)

/-- A request as the verifier and the handlers read it. `rawBody` is `req.rawBody` when it
is a string or a `Buffer` (then its UTF-8 text), `none` otherwise; `headers` is
`req.headers ?? {}`. -/
structure Request where
  method : Option String
  originalUrl : Option String
  url : Option String
  headers : List (String × String)
  rawBody : Option String
  body : JsValue

/-- Source `normalizeRawBody`. -/
def normalizeRawBody (rt : Runtime) (req : Request) : String :=
  match req.rawBody with
  | some raw => raw
  | none =>
    match req.body with
    | .string s => s
    | body => rt.stringify (body.orElse (.object []))

/-- Source `getSecretForTier`. -/
def getSecretForTier (rt : Runtime) (tier : String) : Option String :=
  rt.env ("NSTYLE_AGENT_TOKEN_" ++ toUpperCase tier) <|> rt.env "NSTYLE_AGENT_TOKEN"

/-- Source `safeEqualsHex`; `crypto.timingSafeEqual` is equality of two buffers of the same
length. -/
def safeEqualsHex (providedHex expectedHex : String) : Bool :=
  let provided := bufferFromHex providedHex.data
  let expected := bufferFromHex expectedHex.data
  if provided.length ≠ expected.length then false
  else decide (provided = expected)

/-- The local `canonical` of `verifyTieredAuditRouteSignature`: the string that is signed. -/
def canonicalString (rt : Runtime) (req : Request) (timestampMs : ℚ) (auditTier : String) :
    String :=
  joinWith "\n"
    [toUpperCase (req.method.getD "POST"),
     (req.originalUrl <|> req.url).getD "/",
     rt.numberToString timestampMs,
     auditTier,
     normalizeRawBody rt req]

/-- The object `verifyTieredAuditRouteSignature` returns; `none` is an absent or
`undefined` property. -/
structure Verification where
  ok : Bool
  reason : Option String
  auditTier : Option String := none
  timestampMs : Option ℚ := none
  rawBody : Option String := none
  deriving DecidableEq

/-- Source `verifyTieredAuditRouteSignature`. -/
def verifyTieredAuditRouteSignature (rt : Runtime) (req : Request) : Verification :=
  let timestampRaw := getHeader req.headers "x-sentinel-timestamp"
  let signature := getHeader req.headers "x-sentinel-signature"
  let auditTier := getHeader req.headers "x-audit-tier"
  if !truthy timestampRaw || !truthy signature || !truthy auditTier then
    { ok := false, reason := some "missing_signature_headers" }
  else
    match rt.parseNumber (timestampRaw.getD "") with
    | none => { ok := false, reason := some "invalid_timestamp" }
    | some timestampMs =>
      let clockSkewMs := |(rt.now : ℚ) - timestampMs|
      if clockSkewMs > DEFAULT_MAX_SKEW_MS then
        { ok := false, reason := some "timestamp_out_of_window" }
      else
        let secret := getSecretForTier rt (auditTier.getD "")
        if !truthy secret then { ok := false, reason := some "missing_server_secret" }
        else
          let canonical := canonicalString rt req timestampMs (auditTier.getD "")
          let expected := String.mk (toHex (rt.hmacSha256 (secret.getD "") canonical))
          let valid := isHex (signature.getD "") && safeEqualsHex (signature.getD "") expected
          { ok := valid
            reason := if valid then none else some "signature_mismatch"
            auditTier := auditTier
            timestampMs := some timestampMs
            rawBody := some (normalizeRawBody rt req) }

/-- The request carries the three headers with the given non-empty values, its timestamp
reads as the finite number `timestampMs`, which is within the window of the clock, and the
non-empty `secret` is the one resolved for its tier: the checks that come before the
signature comparison all pass. -/
def PassesChecks (rt : Runtime) (req : Request) (timestampRaw signature auditTier : String)
    (timestampMs : ℚ) (secret : String) : Prop :=
  getHeader req.headers "x-sentinel-timestamp" = some timestampRaw ∧ timestampRaw ≠ "" ∧
  getHeader req.headers "x-sentinel-signature" = some signature ∧ signature ≠ "" ∧
  getHeader req.headers "x-audit-tier" = some auditTier ∧ auditTier ≠ "" ∧
  rt.parseNumber timestampRaw = some timestampMs ∧
  |(rt.now : ℚ) - timestampMs| ≤ 300000 ∧
  getSecretForTier rt auditTier = some secret ∧ secret ≠ ""

/-! ## `services/payloadSanitizer.js` -/

/-- Constant `MAX_BODY_BYTES`. -/
def MAX_BODY_BYTES : Nat := 8 * 1024

/-- Constant `ALLOWED_ACTIONS`. -/
def ALLOWED_ACTIONS : List String := ["book", "cancel", "modify"]

/-- Source `boundedString`, with the options `max` and `min` passed in that order. -/
def boundedString (value : JsValue) (field : String) (max min : Nat) : Except JsError String :=
  match value with
  | .string s =>
    let trimmed := trim s
    if jsLength trimmed < min ∨ jsLength trimmed > max then
      .error (JsError.HttpError 400 (field ++ " length is invalid") "invalid_payload")
    else .ok trimmed
  | _ => .error (JsError.HttpError 400 (field ++ " must be a string") "invalid_payload")

/-- Source `optionalString`; `none` is `undefined`. -/
def optionalString (value : JsValue) (field : String) (max min : Nat) :
    Except JsError (Option String) :=
  match value with
  | .undefined => .ok none
  | .null => .ok none
  | v => (boundedString v field max min).map some

/-- Source `parseIsoDate`. -/
def parseIsoDate (rt : Runtime) (value : JsValue) (field : String) : Except JsError Int :=
  match boundedString value field 64 8 with
  | .error e => .error e
  | .ok text =>
    match rt.parseDate text with
    | none =>
      .error (JsError.HttpError 400 (field ++ " must be a valid ISO datetime") "invalid_payload")
    | some date => .ok date

/-- Source `parseDurationMinutes`. -/
def parseDurationMinutes (rt : Runtime) (value : JsValue) : Except JsError Nat :=
  let failure : Except JsError Nat := .error (JsError.HttpError 400
    "durationMinutes must be an integer between 15 and 240 in 15-minute increments"
    "invalid_payload")
  match toNumber rt (value.orElse (.number 60)) with
  | none => failure
  | some parsed =>
    if parsed.den ≠ 1 ∨ parsed < 15 ∨ parsed > 240 ∨ parsed.num % 15 ≠ 0 then failure
    else .ok parsed.num.toNat

/-- The test `/^[+0-9()\-.\s]+$/.test(text)`. -/
def isPhoneNumber (text : String) : Bool :=
  !text.data.isEmpty && text.data.all (fun c =>
    c = '+' || (decide ('0' ≤ c) && decide (c ≤ '9')) || c = '(' || c = ')' || c = '-' ||
      c = '.' || isWhiteSpace c)

/-- Source `parseClient`. -/
def parseClient (client : JsValue) : Except JsError Person :=
  let go : Except JsError Person :=
    match boundedString
        ((client.get "phoneNumber").orElse ((client.get "phone_number").orElse (.string "")))
        "client.phoneNumber" 20 7 with
    | .error e => .error e
    | .ok phone =>
      if !isPhoneNumber phone then
        .error (JsError.HttpError 400 "client.phoneNumber format is invalid" "invalid_payload")
      else
        match boundedString ((client.get "name").orElse (.string "")) "client.name" 120 1 with
        | .error e => .error e
        | .ok name =>
          match optionalString (client.get "email") "client.email" 200 0 with
          | .error e => .error e
          | .ok email => .ok { name := name, phoneNumber := phone, email := email }
  match client with
  | .object _ => go
  | .array _ => go
  | _ => .error (JsError.HttpError 400 "client is required" "invalid_payload")

/-- Source `normalizeBodySize`. -/
def normalizeBodySize (rt : Runtime) (body : JsValue) : Except JsError Unit :=
  let raw := rt.stringify (body.orElse (.object []))
  if jsLength raw > MAX_BODY_BYTES then
    .error (JsError.HttpError 413 "payload too large" "payload_too_large")
  else .ok ()

/-- The fields of a sanitised command before those of its action are read (the local
`base` of `sanitizeAgentPayload`). -/
structure Base where
  action : String
  agentRequestId : Option String
  auditTier : String
  confirmationWebhookUrl : Option String
  notes : Option String

/-- The part of `sanitizeAgentPayload` that builds `base`. -/
def sanitizeBase (body : JsValue) : Except JsError Base :=
  match (boundedString ((body.get "action").orElse (.string "")) "action" 10 3).map
      toLowerCase with
  | .error e => .error e
  | .ok action =>
    if !ALLOWED_ACTIONS.contains action then
      .error (JsError.HttpError 400 "action must be one of book, cancel, modify"
        "invalid_payload")
    else
      match optionalString (body.get "agentRequestId") "agentRequestId" 120 0 with
      | .error e => .error e
      | .ok agentRequestId =>
        match boundedString ((body.get "auditTier").orElse (.string "tier2"))
            "auditTier" 20 4 with
        | .error e => .error e
        | .ok auditTier =>
          match optionalString (body.get "confirmationWebhookUrl")
              "confirmationWebhookUrl" 500 0 with
          | .error e => .error e
          | .ok confirmationWebhookUrl =>
            match optionalString (body.get "notes") "notes" 500 0 with
            | .error e => .error e
            | .ok notes =>
              .ok { action := action, agentRequestId := agentRequestId
                    auditTier := auditTier
                    confirmationWebhookUrl := confirmationWebhookUrl, notes := notes }

/-- The part of `sanitizeAgentPayload` that reads the fields of the action. A field the
action does not carry is left at a default that its handler never reads. -/
def sanitizeAction (rt : Runtime) (body : JsValue) (base : Base) : Except JsError Payload :=
  let blank : Payload :=
    { action := base.action, agentRequestId := base.agentRequestId
      auditTier := base.auditTier, confirmationWebhookUrl := base.confirmationWebhookUrl
      notes := base.notes, client := { name := "", phoneNumber := "", email := none }
      requestedStart := 0, durationMinutes := 0, appointmentId := "", reason := none }
  if base.action = "book" then
    match parseIsoDate rt ((body.get "requestedTime").orElse (body.get "requestedStart"))
        "requestedTime" with
    | .error e => .error e
    | .ok requestedStart =>
      match parseDurationMinutes rt (body.get "durationMinutes") with
      | .error e => .error e
      | .ok durationMinutes =>
        match parseClient (body.get "client") with
        | .error e => .error e
        | .ok client =>
          .ok { blank with client := client, requestedStart := requestedStart
                           durationMinutes := durationMinutes }
  else if base.action = "cancel" then
    match boundedString ((body.get "appointmentId").orElse (.string "")) "appointmentId"
        60 8 with
    | .error e => .error e
    | .ok appointmentId =>
      match optionalString (body.get "reason") "reason" 300 0 with
      | .error e => .error e
      | .ok reason => .ok { blank with appointmentId := appointmentId, reason := reason }
  else
    match boundedString ((body.get "appointmentId").orElse (.string "")) "appointmentId"
        60 8 with
    | .error e => .error e
    | .ok appointmentId =>
      match parseIsoDate rt ((body.get "requestedTime").orElse (body.get "requestedStart"))
          "requestedTime" with
      | .error e => .error e
      | .ok requestedStart =>
        match parseDurationMinutes rt (body.get "durationMinutes") with
        | .error e => .error e
        | .ok durationMinutes =>
          .ok { blank with appointmentId := appointmentId, requestedStart := requestedStart
                           durationMinutes := durationMinutes }

/-- Source `sanitizeAgentPayload`. The first test passes for an object that is not an
array and for nothing else. -/
def sanitizeAgentPayload (rt : Runtime) (body : JsValue) : Except JsError Payload :=
  match body with
  | .object fields =>
    match normalizeBodySize rt (.object fields) with
    | .error e => .error e
    | .ok _ =>
      match sanitizeBase (.object fields) with
      | .error e => .error e
      | .ok base => sanitizeAction rt (.object fields) base
  | _ =>
    .error (JsError.HttpError 400 "request body must be a JSON object" "invalid_payload")

/-! ## `middleware/sentinelMiddleware.js` -/

/-- Source `parseApprovedFlag`. -/
def parseApprovedFlag (value : JsValue) : Except JsError Bool :=
  let failure : Except JsError Bool :=
    .error (JsError.HttpError 400 "approved must be a boolean" "invalid_payload")
  match value with
  | .bool b => .ok b
  | .string s =>
    let normalized := toLowerCase (trim s)
    if normalized = "true" then .ok true
    else if normalized = "false" then .ok false
    else failure
  | _ => failure

/-- The JSON body of an HTTP response: an error object `{ error, code }` or a result of the
service. -/
inductive ResponseBody where
  | failure (error : String) (code : String)
  | result (r : Response)
  deriving DecidableEq, Repr

/-- What a handler sends: `res.status(status).json(body)`. -/
structure HttpResponse where
  status : Nat
  body : ResponseBody
  deriving DecidableEq, Repr

/-- Source `sendError`: the response it sends, or the error it throws before sending
one. For an error that is not an `HttpError` it first reads `error.message`, for
`console.error` only; on a thrown `null` or `undefined` that read throws a `TypeError`
and neither `res.status` nor `res.json` is called. -/
def sendError (error : JsError) : Except JsError HttpResponse :=
  match error with
  | .HttpError statusCode message code =>
    .ok { status := statusCode, body := ResponseBody.failure message code }
  | .Error _ _ =>
    .ok { status := 500
          body := ResponseBody.failure "System fault. Active recovery initiated."
            "sentinel_fault" }
  | .nullish => .error typeError

/-- The argument object the approve handler builds for `confirmPendingAppointment`;
`expectedVersion` is `Number(...)`, `none` when that is not finite. -/
structure ApprovalArgs where
  appointmentId : String
  expectedVersion : Option ℚ
  approved : Bool
  reviewedBy : String
  deriving DecidableEq

/-- The injected appointment service (`overrides.appointmentService`, or an
`AppointmentService` over the injected collaborators). -/
structure Service where
  handleAgentAction : Payload → World → Except JsError Response × World
  confirmPendingAppointment : ApprovalArgs → World → Except JsError Response × World

/-- A call a handler makes: to the sanitiser or to the service. -/
inductive Call where
  | sanitizeAgentPayload
  | handleAgentAction (payload : Payload)
  | confirmPendingAppointment (args : ApprovalArgs)
  deriving DecidableEq

/-- The response a handler sends (or, when `sendError` throws in its `catch` block, the
error its promise rejects with, no response being sent), the calls it made in order, and
the world it leaves. -/
structure Outcome where
  response : Except JsError HttpResponse
  calls : List Call
  world : World
  deriving DecidableEq

namespace createSentinelHandlers

/-- Source `createSentinelHandlers(...).sentinel`. -/
def sentinel (rt : Runtime) (appointments : Service) (req : Request) (w : World) : Outcome :=
  let verification := verifyTieredAuditRouteSignature rt req
  if !verification.ok then
    { response := sendError (JsError.HttpError 403 "Unauthorized AI Agent request"
        (verification.reason.getD "invalid_signature"))
      calls := [], world := w }
  else
    match sanitizeAgentPayload rt req.body with
    | .error e => { response := sendError e, calls := [Call.sanitizeAgentPayload], world := w }
    | .ok payload =>
      if some payload.auditTier ≠ verification.auditTier then
        { response := sendError (JsError.HttpError 403 "Audit tier mismatch"
            "audit_tier_mismatch")
          calls := [Call.sanitizeAgentPayload], world := w }
      else
        match appointments.handleAgentAction payload w with
        | (.error e, w1) =>
          { response := sendError e
            calls := [Call.sanitizeAgentPayload, Call.handleAgentAction payload], world := w1 }
        | (.ok result, w1) =>
          { response :=
              .ok { status := if result.status = "pending_toney_approval" then 202 else 200
                    body := ResponseBody.result result }
            calls := [Call.sanitizeAgentPayload, Call.handleAgentAction payload], world := w1 }

/-- Source `createSentinelHandlers(...).approve`. -/
def approve (rt : Runtime) (appointments : Service) (req : Request) (w : World) : Outcome :=
  match parseApprovedFlag (req.body.get "approved") with
  | .error e => { response := sendError e, calls := [], world := w }
  | .ok approved =>
    let args : ApprovalArgs :=
      { appointmentId := trim (toStr rt ((req.body.get "appointmentId").orElse (.string "")))
        expectedVersion := toNumber rt (req.body.get "expectedVersion")
        approved := approved
        reviewedBy := String.mk (sliceTo 120
          (toStr rt ((req.body.get "reviewedBy").orElse (.string "toney"))).data) }
    match appointments.confirmPendingAppointment args w with
    | (.error e, w1) =>
      { response := sendError e, calls := [Call.confirmPendingAppointment args], world := w1 }
    | (.ok result, w1) =>
      { response := .ok { status := 200, body := ResponseBody.result result }
        calls := [Call.confirmPendingAppointment args], world := w1 }

end createSentinelHandlers

/-! ## Two bookings in a race

`handleBook` awaits the conflict read, then the transaction (or, on a conflict, the
look-ahead), then the push (or, after an exclusion violation, the look-ahead). Between
two awaits another request may run. Each await is one step on the store: the reads of the
conflict check are taken together, and the transaction is isolated by the store. -/

/-- Where a call of `handleBook` stands between two awaits. -/
inductive BookPhase where
  /-- Nothing awaited yet. -/
  | start
  /-- The conflict read has resolved with `conflict`. -/
  | checked (conflict : Option Appointment)
  /-- The transaction has committed and returned `row`. -/
  | committed (row : Appointment)
  /-- An error with code `23P01` has been caught. -/
  | raced
  /-- The call has settled. -/
  | done (result : Except JsError Response)
  deriving DecidableEq

/-- The next await of a call of `handleBook` and what follows it up to the await after. -/
def bookAdvance (env : Env) (payload : Payload) : BookPhase → World → BookPhase × World
  | .start, w =>
    match findConflict env payload.requestedStart
        (addMinutes payload.requestedStart payload.durationMinutes) none w with
    | (.error e, w1) => (.done (.error e), w1)
    | (.ok conflict, w1) => (.checked conflict, w1)
  | .checked (some _), w =>
    let r := buildConflictResponse env payload payload.requestedStart payload.durationMinutes
      none w
    (.done r.1, r.2)
  | .checked none, w =>
    match withTransaction env (bookTransaction env payload) w with
    | (.error e, w1) => if e.code = some "23P01" then (.raced, w1) else (.done (.error e), w1)
    | (.ok row, w1) => (.committed row, w1)
  | .committed row, w =>
    match notifyPending env PendingAction.book row true w with
    | (.error e, w1) => if e.code = some "23P01" then (.raced, w1) else (.done (.error e), w1)
    | (.ok r, w1) => (.done (.ok r), w1)
  | .raced, w =>
    let r := buildConflictResponse env payload payload.requestedStart payload.durationMinutes
      none w
    (.done r.1, r.2)
  | .done r, w => (.done r, w)

/-- A call of `handleBook` advanced `n` times with no other request in between. -/
def bookRun (env : Env) (payload : Payload) : Nat → BookPhase × World → BookPhase × World
  | 0, s => s
  | n + 1, s => bookRun env payload n (bookAdvance env payload s.1 s.2)

/-- An upper bound on the awaits a call has left when no collaborator fails. -/
def BookPhase.remaining : BookPhase → Nat
  | .start => 3
  | .checked _ => 2
  | .committed _ => 1
  | .raced => 1
  | .done _ => 0

/-- Two calls of `handleBook` in flight over one store. -/
structure Race where
  first : BookPhase
  second : BookPhase
  world : World
  deriving DecidableEq

/-- One step of the race: the first call advances when `turn` is true, the second
otherwise. -/
def raceStep (env1 : Env) (payload1 : Payload) (env2 : Env) (payload2 : Payload) (turn : Bool)
    (s : Race) : Race :=
  if turn then
    { s with first := (bookAdvance env1 payload1 s.first s.world).1
             world := (bookAdvance env1 payload1 s.first s.world).2 }
  else
    { s with second := (bookAdvance env2 payload2 s.second s.world).1
             world := (bookAdvance env2 payload2 s.second s.world).2 }

/-- The race run under a schedule, the list of turns. -/
def race (env1 : Env) (payload1 : Payload) (env2 : Env) (payload2 : Payload) :
    List Bool → Race → Race
  | [], s => s
  | turn :: rest, s => race env1 payload1 env2 payload2 rest
      (raceStep env1 payload1 env2 payload2 turn s)

/-- No collaborator of the call fails for good: one of the three conflict reads succeeds,
the store raises no fault of its own during the transaction, the push gateway accepts, and
the availability service answers. -/
def Dependable (env : Env) : Prop :=
  (∃ n, 1 ≤ n ∧ n ≤ 3 ∧ env.queryFault n = none) ∧ env.txFault = none ∧
  env.pushFault = none ∧
  ∀ rows start minutes exclude, ∃ t, env.getNextAvailable rows start minutes exclude = .ok t

/-- The keys the store generates for the two calls are new and distinct. -/
def FreshKeys (env1 env2 : Env) (db : Db) : Prop :=
  env1.newAppointmentId ≠ env2.newAppointmentId ∧ env1.newClientId ≠ env2.newClientId ∧
  (∀ r ∈ db.appointments, r.id ≠ env1.newAppointmentId ∧ r.id ≠ env2.newAppointmentId) ∧
  (∀ c ∈ db.clients, c.id ≠ env1.newClientId ∧ c.id ≠ env2.newClientId)

/-- The call has not written and has seen no conflict. -/
def BookPhase.Early (p : BookPhase) : Prop :=
  p = .start ∨ p = .checked none

/-- The call has committed its reservation, and if it has settled, it has resolved with
`pending_toney_approval`. -/
def BookPhase.Won (p : BookPhase) : Prop :=
  (∃ row, p = .committed row) ∨ ∃ r, p = .done (.ok r) ∧ r.status = "pending_toney_approval"

/-- The call has committed nothing, and if it has settled, it has resolved with `conflict`. -/
def BookPhase.Lost (p : BookPhase) : Prop :=
  p = .start ∨ (∃ c, p = .checked c) ∨ p = .raced ∨
    ∃ r, p = .done (.ok r) ∧ r.status = "conflict"

/-- The store `db` is the store `db0` after the booking transaction of the call. -/
def TakenBy (env : Env) (payload : Payload) (db0 db : Db) : Prop :=
  ∃ clientId, bookTransaction env payload db0 = .ok (bookRow env payload clientId, db)

/-- What holds at every point of a race that started on the store `db0`: either nothing
is written and neither call has seen a conflict, or one call has committed and the other
has not. -/
def RaceInv (env1 : Env) (payload1 : Payload) (env2 : Env) (payload2 : Payload) (db0 : Db)
    (s : Race) : Prop :=
  (s.world.db = db0 ∧ s.first.Early ∧ s.second.Early) ∨
  (TakenBy env1 payload1 db0 s.world.db ∧ s.first.Won ∧ s.second.Lost) ∨
  (TakenBy env2 payload2 db0 s.world.db ∧ s.second.Won ∧ s.first.Lost)

/-! ## Sample data -/

/-- An environment in which nothing fails and no alternative slot is proposed. -/
def calmEnv : Env :=
  { now := 1000
    newAppointmentId := "appt-new"
    newClientId := "client-new"
    queryFault := fun _ => none
    txFault := none
    getNextAvailable := fun _ _ _ _ => .ok none
    pushFault := none
    webhookFault := fun _ => none }

/-- A sample row with the given key, range, status, pending action and version. -/
def sampleRow (id : String) (start stop : Int) (status : Status)
    (pending : Option PendingAction) (version : Int) : Appointment :=
  { id := id
    client_id := "client-1"
    start_time := start
    end_time := stop
    status := status
    pending_action := pending
    pending_payload := none
    version := version
    requested_by_channel := some "ai_agent"
    agent_request_id := none
    audit_tier := "tier2"
    approval_requested_at := none
    approved_at := none
    cancelled_at := none
    confirmed_by := none
    confirmation_webhook_url := none
    notes := none
    created_at := 0 }

/-- A sample command with the given action, target, start and duration. -/
def sampleCommand (action appointmentId : String) (start : Int) (minutes : Nat) : Payload :=
  { action := action
    agentRequestId := none
    auditTier := "tier2"
    confirmationWebhookUrl := none
    notes := none
    client := { name := "Jordan", phoneNumber := "+15551234567", email := none }
    requestedStart := start
    durationMinutes := minutes
    appointmentId := appointmentId
    reason := none }

/-- A world holding the given appointments, no clients and an empty trace. -/
def sampleWorld (rows : List Appointment) : World :=
  { db := { appointments := rows, clients := [] }, trace := [] }

/-- The environment of the unit test "triggers look-ahead availability query when a slot
is already taken": the availability service proposes 2026-03-02T09:30:00.000Z. -/
def lookAheadEnv : Env :=
  { calmEnv with getNextAvailable := fun _ _ _ _ => .ok (some 1772443800000) }

/-- An environment in which the store aborts the transaction with the given error. -/
def txFaultEnv (e : JsError) : Env :=
  { calmEnv with txFault := some e }

/-- An environment in which the conflict read rejects twice with `timeout`, then succeeds. -/
def flakyReadEnv : Env :=
  { calmEnv with
    queryFault := fun n => if n ≤ 2 then some (JsError.Error "timeout" none) else none }

/-- An environment in which every conflict read rejects with `timeout` (the unit test
"retries transient database failures before surfacing the error"). -/
def deadReadEnv : Env :=
  { calmEnv with queryFault := fun _ => some (JsError.Error "timeout" none) }

/-- An environment in which the webhook endpoint rejects the first two deliveries. -/
def flakyWebhookEnv : Env :=
  { calmEnv with
    webhookFault := fun n =>
      if n ≤ 2 then some (JsError.Error "Webhook failed (503): " none) else none }

/-- An environment in which the push gateway rejects. -/
def pushDownEnv : Env :=
  { calmEnv with pushFault := some (JsError.Error "push gateway unavailable" none) }

/-- A booking awaiting approval at version 3 that carries a confirmation webhook url. -/
def hookRow : Appointment :=
  { sampleRow "appt-0001" 0 3600000 Status.pending_approval (some PendingAction.book) 3 with
    confirmation_webhook_url := some "https://agent.example/hook" }

/-- The approval of `hookRow` at its current version. -/
def hookApproval : Approval :=
  { appointmentId := "appt-0001", expectedVersion := 3, approved := true }

/-- Overrides that close the 29 days after 2026-03-01. -/
def monthClosure : List OverrideRow :=
  (List.range 29).map (fun i =>
    { override_date := 1772323200000 + ((i : Int) + 1) * 86400000
      is_blocked := true
      custom_start_time := none
      custom_end_time := none })

/-- Three confirmed reservations on 2026-03-31: 09:30 to 13:30, 13:30 to 17:00 and
17:30 to 18:00. -/
def lastDayBookings : List Appointment :=
  [sampleRow "appt-0001" 1774949400000 1774963800000 Status.confirmed none 2,
   sampleRow "appt-0002" 1774963800000 1774976400000 Status.confirmed none 2,
   sampleRow "appt-0003" 1774978200000 1774980000000 Status.confirmed none 2]

/-- An empty override table. -/
def noOverrides : Int → Option OverrideRow :=
  fun _ => none

/-- The one busy interval of the look-ahead scenario: 2026-03-01 from 13:00 to 14:00. -/
def scenarioBusy : List Busy :=
  [{ id := "existing-appt", start := 1772370000000, stop := 1772373600000 }]

/-- An environment whose availability service is `AvailabilityService.getNextAvailable` itself,
over the given constants and override table; the handlers call it without `horizonDays`. -/
def scannerEnv (cfg : Config) (overrides : List OverrideRow) : Env :=
  { calmEnv with
    getNextAvailable := fun appointments requestedStart durationMinutes excludeAppointmentId =>
      .ok (AvailabilityService.getNextAvailable cfg appointments overrides requestedStart
        durationMinutes excludeAppointmentId none) }

/-- The store of the look-ahead scenario: one confirmed reservation on 2026-03-01 from
13:00 to 14:00. -/
def scenarioWorld : World :=
  sampleWorld [sampleRow "existing-appt" 1772370000000 1772373600000 Status.confirmed none 2]

/-- The value of a string of decimal digits read from the left, starting from `acc`. -/
def digitsValue : List Char → Nat → Option Nat
  | [], acc => some acc
  | c :: rest, acc =>
    if '0' ≤ c ∧ c ≤ '9' then digitsValue rest (10 * acc + (c.toNat - 48)) else none

/-- The decimal digits of `n`, at most `fuel` of them. -/
def natDigits : Nat → Nat → List Char
  | 0, _ => []
  | fuel + 1, n =>
    if n < 10 then [hexDigit n] else natDigits fuel (n / 10) ++ [hexDigit (n % 10)]

mutual
/-- A serialiser for the sample runtime: `JSON.stringify` on values that hold no
`undefined`, whose numbers are natural numbers and whose strings need no escape. -/
def sampleStringify : JsValue → String
  | .undefined => "null"
  | .null => "null"
  | .bool true => "true"
  | .bool false => "false"
  | .number x => String.mk (natDigits 25 x.num.toNat)
  | .string s => "\"" ++ s ++ "\""
  | .array items => "[" ++ sampleStringifyItems items ++ "]"
  | .object fields => "\x7b" ++ sampleStringifyFields fields ++ "\x7d"
/-- The items of an array, separated by commas. -/
def sampleStringifyItems : List JsValue → String
  | [] => ""
  | [v] => sampleStringify v
  | v :: rest => sampleStringify v ++ "," ++ sampleStringifyItems rest
/-- The fields of an object, separated by commas. -/
def sampleStringifyFields : List (String × JsValue) → String
  | [] => ""
  | [(k, v)] => "\"" ++ k ++ "\":" ++ sampleStringify v
  | (k, v) :: rest => "\"" ++ k ++ "\":" ++ sampleStringify v ++ "," ++ sampleStringifyFields rest
end

/-- A stand-in for HMAC-SHA256 in the sample runtime: four bytes computed from the secret
and the message. It is not a MAC; the theorems are proved for every digest function. -/
def sampleDigest (secret message : String) : List (Fin 256) :=
  let codes := (secret ++ "|" ++ message).data.map Char.toNat
  [Fin.ofNat codes.length, Fin.ofNat codes.sum, Fin.ofNat (codes.sum / 256), Fin.ofNat 165]

/-- The number of days from 1970-01-01 to the given date of the Gregorian calendar. -/
def daysFromCivil (year month day : Nat) : Int :=
  let y := if month ≤ 2 then year - 1 else year
  let era := y / 400
  let yoe := y - era * 400
  let mp := (month + 9) % 12
  let doy := (153 * mp + 2) / 5 + day - 1
  let doe := yoe * 365 + yoe / 4 - yoe / 100 + doy
  ((era * 146097 + doe : Nat) : Int) - 719468

/-- The number of days of a month of the Gregorian calendar. -/
def daysInMonth (year month : Nat) : Nat :=
  if month = 2 then
    (if year % 4 = 0 ∧ (year % 100 ≠ 0 ∨ year % 400 = 0) then 29 else 28)
  else if month = 4 ∨ month = 6 ∨ month = 9 ∨ month = 11 then 30
  else 31

/-- A date parser for the sample runtime: the format `YYYY-MM-DDTHH:MM:SS.sssZ` that
`toISOString` writes, with month, day, hour, minute and second in range. -/
def sampleParseDate (text : String) : Option Int :=
  match text.data with
  | [y1, y2, y3, y4, '-', m1, m2, '-', d1, d2, 'T', h1, h2, ':', n1, n2, ':', s1, s2, '.',
      f1, f2, f3, 'Z'] =>
    match digitsValue [y1, y2, y3, y4] 0, digitsValue [m1, m2] 0, digitsValue [d1, d2] 0,
      digitsValue [h1, h2] 0, digitsValue [n1, n2] 0, digitsValue [s1, s2] 0,
      digitsValue [f1, f2, f3] 0 with
    | some year, some month, some day, some hour, some minute, some second, some ms =>
      if 1 ≤ year ∧ 1 ≤ month ∧ month ≤ 12 ∧ 1 ≤ day ∧ day ≤ daysInMonth year month ∧
          hour < 24 ∧ minute < 60 ∧ second < 60 then
        some (daysFromCivil year month day * 86400000 +
          ((hour * 3600000 + minute * 60000 + second * 1000 + ms : Nat) : Int))
      else none
    | _, _, _, _, _, _, _ => none
  | _ => none

/-- A runtime for the samples: the clock reads 2026-03-01T13:00:00Z, the environment holds
the tier-2 secret of the unit tests, numbers are read and written as natural numbers in
decimal digits (white space around them ignored, the empty string read as 0). -/
def sampleRuntime : Runtime :=
  { now := 1772370000000
    env := fun key => if key = "NSTYLE_AGENT_TOKEN_TIER2" then some "test-tier2-secret" else none
    parseNumber := fun text => (digitsValue (trim text).data 0).map (fun n => (n : ℚ))
    numberToString := fun x => String.mk (natDigits 25 x.num.toNat)
    objectToString := fun _ => "[object Object]"
    stringify := sampleStringify
    hmacSha256 := sampleDigest
    parseDate := sampleParseDate }

/-- The helper `signReq` of the unit tests, with method `POST`, url `/sentinel/agent` and
tier `tier2`: the request that carries `body`, signed with `secret` at the time of the
clock. -/
def signReq (rt : Runtime) (body : JsValue) (secret : String) : Request :=
  let rawBody := rt.stringify body
  let canonical := joinWith "\n"
    ["POST", "/sentinel/agent", rt.numberToString (rt.now : ℚ), "tier2", rawBody]
  { method := some "POST"
    originalUrl := some "/sentinel/agent"
    url := some "/sentinel/agent"
    headers :=
      [("x-sentinel-timestamp", rt.numberToString (rt.now : ℚ)),
       ("x-sentinel-signature", String.mk (toHex (rt.hmacSha256 secret canonical))),
       ("x-audit-tier", "tier2")]
    rawBody := some rawBody
    body := body }

/-- A cancel command for the reservation `appt-0001`. -/
def cancelBody : JsValue :=
  .object [("action", .string "cancel"), ("auditTier", .string "tier2"),
    ("appointmentId", .string "appt-0001")]

/-- The body `baseBookBody()` of the unit tests. -/
def baseBookBody : JsValue :=
  .object [("action", .string "book"), ("auditTier", .string "tier2"),
    ("agentRequestId", .string "req-123"),
    ("client", .object [("name", .string "Jordan"), ("phoneNumber", .string "+15551234567")]),
    ("requestedTime", .string "2026-03-01T13:00:00.000Z"),
    ("durationMinutes", .number 60)]

/-- A request with the given header list in place of its own. -/
def withHeaders (req : Request) (headers : List (String × String)) : Request :=
  { req with headers := headers }

/-- The appointment service over the handlers of `appointmentService.js` for agent
commands; approval decisions are answered by the given function. -/
def agentService (env : Env)
    (confirm : ApprovalArgs → World → Except JsError Response × World) : Service :=
  { handleAgentAction := handleAgentAction env, confirmPendingAppointment := confirm }

/-- A service whose two methods reject with the given error (a mocked service of the unit
tests). -/
def failingService (e : JsError) : Service :=
  { handleAgentAction := fun _ w => (.error e, w)
    confirmPendingAppointment := fun _ w => (.error e, w) }

/-- A service whose two methods resolve with the given result (a mocked service of the
unit tests). -/
def resolvingService (r : Response) : Service :=
  { handleAgentAction := fun _ w => (.ok r, w)
    confirmPendingAppointment := fun _ w => (.ok r, w) }

/-- The cancel command signed by `signReq` at the sample clock with the tier-2 secret. -/
def signedCancel : Request :=
  signReq sampleRuntime cancelBody "test-tier2-secret"

/-- The value of the signature header of `signedCancel`. -/
def sampleSignature : String :=
  String.mk (toHex (sampleDigest "test-tier2-secret"
    (joinWith "\n" ["POST", "/sentinel/agent", "1772370000000", "tier2",
      sampleStringify cancelBody])))

/-- The request `signedCancel` with one more hexadecimal digit at the end of its signature. -/
def overlongRequest : Request :=
  withHeaders signedCancel
    [("x-sentinel-timestamp", "1772370000000"),
     ("x-sentinel-signature", sampleSignature ++ "0"),
     ("x-audit-tier", "tier2")]

/-- The request `signedCancel` with the signature `deadbeef` (the unit test "rejects invalid
tiered audit-route signatures"). -/
def forgedRequest : Request :=
  withHeaders signedCancel
    [("x-sentinel-timestamp", "1772370000000"),
     ("x-sentinel-signature", "deadbeef"),
     ("x-audit-tier", "tier2")]

/-- The request `signedCancel` with the given timestamp in place of its own. -/
def stampedRequest (timestamp : String) : Request :=
  withHeaders signedCancel
    [("x-sentinel-timestamp", timestamp),
     ("x-sentinel-signature", sampleSignature),
     ("x-audit-tier", "tier2")]

/-- The request `signedCancel` with its header names capitalised as the interface
description writes them. -/
def mixedCaseRequest : Request :=
  withHeaders signedCancel
    [("X-Sentinel-Timestamp", "1772370000000"),
     ("X-Sentinel-Signature", sampleSignature),
     ("X-Audit-Tier", "tier2")]

/-- The request `signedCancel` with its header names in capitals. -/
def upperCaseRequest : Request :=
  withHeaders signedCancel
    [("X-SENTINEL-TIMESTAMP", "1772370000000"),
     ("X-SENTINEL-SIGNATURE", sampleSignature),
     ("X-AUDIT-TIER", "tier2")]

/-- A request that carries no raw body, only the parsed cancel command, and a timestamp
written with a leading zero; its signature is the digest of the string the verifier
builds for it. -/
def parsedOnlyRequest : Request :=
  { method := some "post"
    originalUrl := none
    url := some "/sentinel/agent"
    headers :=
      [("x-sentinel-timestamp", "01772370000000"),
       ("x-sentinel-signature", sampleSignature),
       ("x-audit-tier", "tier2")]
    rawBody := none
    body := cancelBody }

/-- The command that the sanitiser makes of `baseBookBody` under the sample runtime. -/
def baseBookCommand : Payload :=
  { action := "book"
    agentRequestId := some "req-123"
    auditTier := "tier2"
    confirmationWebhookUrl := none
    notes := none
    client := { name := "Jordan", phoneNumber := "+15551234567", email := none }
    requestedStart := 1772370000000
    durationMinutes := 60
    appointmentId := ""
    reason := none }

/-- The fields of `baseBookBody` with a `notes` field of 9500 characters (the unit test
"rejects poisoned oversized payloads with safe client error"). -/
def poisonedFields : List (String × JsValue) :=
  [("action", .string "book"), ("auditTier", .string "tier2"),
   ("agentRequestId", .string "req-123"),
   ("client", .object [("name", .string "Jordan"), ("phoneNumber", .string "+15551234567")]),
   ("requestedTime", .string "2026-03-01T13:00:00.000Z"),
   ("durationMinutes", .number 60),
   ("notes", .string (String.mk (List.replicate 9500 'x')))]

/-- The body with the fields `poisonedFields`. -/
def poisonedBody : JsValue :=
  .object poisonedFields

/-- The request of the unit test "parses string boolean approval flags correctly for the
Toney approval route": an approval decision whose flag is the string `false`. -/
def approvalRequest : Request :=
  { method := none
    originalUrl := none
    url := none
    headers := []
    rawBody := none
    body := .object [("appointmentId", .string "appt-1"), ("expectedVersion", .number 3),
      ("approved", .string "false"), ("reviewedBy", .string "toney")] }

/-- The cancel command with one more field, 3000 euro signs: 9000 bytes of UTF-8 in 3000
UTF-16 code units. -/
def paddedBody : JsValue :=
  .object [("action", .string "cancel"), ("auditTier", .string "tier2"),
    ("appointmentId", .string "appt-0001"),
    ("padding", .string (String.mk (List.replicate 3000 '€')))]

/-- The environment of one of two racing calls: nothing fails, and the keys the store
generates for it carry the given tag. -/
def racerEnv (tag : String) : Env :=
  { calmEnv with newAppointmentId := "appt-" ++ tag, newClientId := "client-" ++ tag }

/-- A request whose path holds a newline, with raw body `b`. -/
def newlinePathRequest : Request :=
  { method := some "POST", originalUrl := some "/a\n1", url := none, headers := []
    rawBody := some "b", body := .null }

/-- A request with path `/a` whose raw body holds a newline. -/
def plainPathRequest : Request :=
  { method := some "POST", originalUrl := some "/a", url := none, headers := []
    rawBody := some "t\nb", body := .null }

/-- US Eastern time around the end of daylight saving time on 2026-11-01: the offset is
-4 hours before 2026-11-01T06:00Z and -5 hours from then on (exact from 2026-03-08 to
2027-03-14). A local time from 01:00 to 02:00 of that day occurs twice and is read with
the offset before the change, as ECMAScript prescribes. -/
def easternZone : Zone :=
  { toLocal := fun t => if t < 1793512800000 then t - 14400000 else t - 18000000
    fromLocal := fun t => if t < 1793498400000 then t + 14400000 else t + 18000000 }

/-- The default constants in a process whose time zone is US Eastern time. -/
def easternConfig : Config :=
  { defaultConfig with zone := easternZone }

/-- The responses that report a committed change: the pending response of book, cancel and
modify, and the approval response. -/
def reportsCommit : Except JsError Response → Bool
  | .ok (Response.pending_toney_approval ..) => true
  | .ok (Response.approval_resolved ..) => true
  | _ => false

/-! ## Lemmas on ranges and the store primitives -/

theorem rangesOverlap_iff (a1 a2 b1 b2 : Int) :
    rangesOverlap a1 a2 b1 b2 = true ↔ ∃ t : Int, a1 ≤ t ∧ t < a2 ∧ b1 ≤ t ∧ t < b2 := by
  unfold rangesOverlap
  simp only [Bool.and_eq_true, decide_eq_true_eq]
  constructor
  · rintro ⟨⟨⟨h1, h2⟩, h3⟩, h4⟩
    exact ⟨max a1 b1, le_max_left _ _, by omega, le_max_right _ _, by omega⟩
  · rintro ⟨t, h1, h2, h3, h4⟩
    omega

theorem rangesOverlap_comm (a1 a2 b1 b2 : Int) :
    rangesOverlap a1 a2 b1 b2 = rangesOverlap b1 b2 a1 a2 := by
  unfold rangesOverlap
  by_cases h1 : a1 < a2 <;> by_cases h2 : b1 < b2 <;> by_cases h3 : a1 < b2 <;>
    by_cases h4 : b1 < a2 <;> simp [h1, h2, h3, h4]

theorem conflicting_comm (a b : Appointment) : conflicting a b = conflicting b a := by
  unfold conflicting
  rw [rangesOverlap_comm a.start_time a.end_time b.start_time b.end_time]
  cases a.active <;> cases b.active <;> simp

theorem active_iff (r : Appointment) :
    r.active = true ↔ (r.status = Status.pending_approval ∨ r.status = Status.confirmed) := by
  simp [Appointment.active]

/-- The invariant in the words of the data model is the one the store checks. -/
theorem nonOverlapping_iff (rows : List Appointment) : NonOverlapping rows ↔ NoOverlap rows := by
  unfold NonOverlapping NoOverlap
  have hrel : ∀ a b : Appointment,
      (¬((a.status = Status.pending_approval ∨ a.status = Status.confirmed) ∧
        (b.status = Status.pending_approval ∨ b.status = Status.confirmed) ∧
        Intersect a.start_time a.end_time b.start_time b.end_time)) ↔
      conflicting a b = false := by
    intro a b
    unfold conflicting Intersect
    rw [← active_iff a, ← active_iff b, ← rangesOverlap_iff]
    cases a.active <;> cases b.active <;>
      cases rangesOverlap a.start_time a.end_time b.start_time b.end_time <;> simp
  constructor
  · intro h; exact h.imp (fun {a b} hab => (hrel a b).mp hab)
  · intro h; exact h.imp (fun {a b} hab => (hrel a b).mpr hab)

theorem exclusionViolation_eq_false {r : Appointment} {others : List Appointment}
    (h : exclusionViolation r others = false) : ∀ x ∈ others, conflicting x r = false := by
  intro x hx
  unfold exclusionViolation at h
  unfold conflicting
  by_cases hr : r.active = true
  · simp only [hr, Bool.true_and, List.any_eq_false, Bool.and_eq_true, not_and,
      Bool.not_eq_true] at h
    by_cases hxa : x.active = true
    · simp [hxa, hr, h x hx hxa]
    · simp [hxa]
  · simp [hr]

theorem insertAppointment_noOverlap {rows rows1 : List Appointment} {r : Appointment}
    (h : NoOverlap rows) (hi : insertAppointment rows r = .ok rows1) : NoOverlap rows1 := by
  unfold insertAppointment at hi
  split at hi
  · cases hi
  · split at hi
    · cases hi
    · rename_i _ hex
      injection hi with hi
      subst hi
      unfold NoOverlap at *
      rw [List.pairwise_append]
      refine ⟨h, List.pairwise_singleton _ _, ?_⟩
      intro a ha b hb
      rw [List.mem_singleton] at hb
      subst hb
      exact exclusionViolation_eq_false (by simpa using hex) a ha

theorem updateAppointment_noOverlap {rows rows1 ret : List Appointment} {id : String}
    {guard : Appointment → Bool} {set : Appointment → Appointment}
    (h : NoOverlap rows) (huniq : (rows.filter (fun r => r.id = id)).length ≤ 1)
    (hu : updateAppointment rows id guard set = .ok (rows1, ret)) : NoOverlap rows1 := by
  unfold updateAppointment at hu
  simp only at hu
  split at hu
  · cases hu
  · rename_i hcheck
    injection hu with hu
    injection hu with hu1 hu2
    subst hu1
    have hcheck1 : ∀ a ∈ rows, (decide (a.id = id) && guard a) = true →
        ∀ b ∈ rows, (decide (b.id = id) && guard b) = false →
          conflicting b (set a) = false := by
      intro a ha hita b hb hitb
      have hc := hcheck
      simp only [Bool.not_eq_true, List.any_eq_false, List.mem_map, List.mem_filter,
        forall_exists_index, and_imp] at hc
      have hv := hc (set a) a ha hita rfl
      exact exclusionViolation_eq_false hv b
        (List.mem_filter.mpr ⟨hb, by rw [hitb]; rfl⟩)
    unfold NoOverlap at *
    rw [List.pairwise_map]
    rw [List.pairwise_iff_forall_sublist] at h ⊢
    intro a b hab
    have ha : a ∈ rows := hab.subset (by simp)
    have hb : b ∈ rows := hab.subset (by simp)
    by_cases hita : (decide (a.id = id) && guard a) = true
    · by_cases hitb : (decide (b.id = id) && guard b) = true
      · exfalso
        have hida : a.id = id := by simp at hita; exact hita.1
        have hidb : b.id = id := by simp at hitb; exact hitb.1
        have hsub := (hab.filter (fun r => decide (r.id = id))).length_le
        simp [List.filter, hida, hidb] at hsub
        omega
      · simp only [hita, hitb, if_true]
        rw [conflicting_comm]
        exact hcheck1 a ha hita b hb (by simpa using hitb)
    · by_cases hitb : (decide (b.id = id) && guard b) = true
      · simp only [hita, hitb, if_true]
        exact hcheck1 b hb hitb a ha (by simpa using hita)
      · simp only [hita, hitb]
        exact h hab

theorem getAppointmentForUpdate_ok {db : Db} {id : String} {row : Appointment}
    (h : getAppointmentForUpdate db id = .ok row) :
    db.appointments.filter (fun r => r.id = id) = [row] := by
  unfold getAppointmentForUpdate at h
  split at h
  · rename_i r hr
    injection h with h
    subst h
    exact hr
  · cases h

theorem getAppointmentForUpdate_of_filter {db : Db} {id : String} {row : Appointment}
    (h : db.appointments.filter (fun r => r.id = id) = [row]) :
    getAppointmentForUpdate db id = .ok row := by
  unfold getAppointmentForUpdate
  rw [h]

/-! ## What each operation can do to the store -/

theorem findConflict_db (env : Env) (start stop : Int) (x : Option String) (w : World) :
    (findConflict env start stop x w).2.db = w.db := rfl

theorem buildConflictResponse_db (env : Env) (payload : Payload) (start : Int) (d : Nat)
    (x : Option String) (w : World) :
    (buildConflictResponse env payload start d x w).2.db = w.db := by
  unfold buildConflictResponse
  split <;> rfl

theorem notifyPending_db (env : Env) (action : PendingAction) (row : Appointment) (t : Bool)
    (w : World) : (notifyPending env action row t w).2.db = w.db := by
  unfold notifyPending
  split <;> rfl

theorem deliverWebhook_db (env : Env) (url : Option String) (w : World) :
    (deliverWebhook env url w).2.db = w.db := by
  unfold deliverWebhook
  split <;> rfl

/-- A transaction leaves the store as it was, or as its callback returned it. -/
theorem withTransaction_db {α : Type} (env : Env) (cb : Db → Except JsError (α × Db))
    (w : World) :
    (withTransaction env cb w).2.db = w.db ∨
      ∃ a db, cb w.db = .ok (a, db) ∧ withTransaction env cb w =
        (.ok a, { db := db, trace := w.trace ++ [Event.transaction true] }) := by
  unfold withTransaction
  split
  · exact Or.inl rfl
  · split
    · rename_i a db hcb
      exact Or.inr ⟨a, db, hcb, rfl⟩
    · exact Or.inl rfl

theorem handleBook_db (env : Env) (payload : Payload) (w : World) (P : Db → Prop)
    (h0 : P w.db)
    (h1 : ∀ a db, bookTransaction env payload w.db = .ok (a, db) → P db) :
    P (handleBook env payload w).2.db := by
  unfold handleBook
  simp only
  rcases hfc : findConflict env payload.requestedStart
    (addMinutes payload.requestedStart payload.durationMinutes) none w with ⟨r, w1⟩
  have hw1 : w1.db = w.db := by
    have := findConflict_db env payload.requestedStart
      (addMinutes payload.requestedStart payload.durationMinutes) none w
    rw [hfc] at this; exact this
  rcases r with e | c
  · simp only; rw [hw1]; exact h0
  · cases c with
    | some c => simp only; rw [buildConflictResponse_db, hw1]; exact h0
    | none =>
      simp only
      rcases htx : withTransaction env (bookTransaction env payload) w1 with ⟨r2, w2⟩
      have hw2 : P w2.db := by
        rcases withTransaction_db env (bookTransaction env payload) w1 with ht | ⟨a, db, hcb, ht⟩
        · rw [htx] at ht; simp only at ht; rw [ht, hw1]; exact h0
        · rw [htx] at ht; cases ht; rw [hw1] at hcb; exact h1 a db hcb
      rcases r2 with e | row
      · simp only
        split
        · rw [buildConflictResponse_db]; exact hw2
        · exact hw2
      · simp only
        rcases hn : notifyPending env PendingAction.book row true w2 with ⟨r3, w3⟩
        have hw3 : w3.db = w2.db := by
          have := notifyPending_db env PendingAction.book row true w2
          rw [hn] at this; exact this
        rcases r3 with e | r
        · simp only
          split
          · rw [buildConflictResponse_db, hw3]; exact hw2
          · simp only; rw [hw3]; exact hw2
        · simp only; rw [hw3]; exact hw2

theorem handleCancel_db (env : Env) (payload : Payload) (w : World) (P : Db → Prop)
    (h0 : P w.db)
    (h1 : ∀ a db, cancelTransaction env payload w.db = .ok (a, db) → P db) :
    P (handleCancel env payload w).2.db := by
  unfold handleCancel
  rcases htx : withTransaction env (cancelTransaction env payload) w with ⟨r, w1⟩
  have hw1 : P w1.db := by
    rcases withTransaction_db env (cancelTransaction env payload) w with ht | ⟨a, db, hcb, ht⟩
    · rw [htx] at ht; simp only at ht; rw [ht]; exact h0
    · rw [htx] at ht; cases ht; exact h1 a db hcb
  rcases r with e | ⟨b, row⟩
  · exact hw1
  · cases row with
    | none => cases b <;> exact hw1
    | some row =>
      cases b
      · simp only; rw [notifyPending_db]; exact hw1
      · exact hw1

theorem handleModify_db (env : Env) (payload : Payload) (w : World) (P : Db → Prop)
    (h0 : P w.db)
    (h1 : ∀ a db, modifyTransaction env payload w.db = .ok (a, db) → P db) :
    P (handleModify env payload w).2.db := by
  unfold handleModify
  simp only
  rcases hfc : findConflict env payload.requestedStart
    (addMinutes payload.requestedStart payload.durationMinutes) (some payload.appointmentId) w
    with ⟨r, w1⟩
  have hw1 : w1.db = w.db := by
    have := findConflict_db env payload.requestedStart
      (addMinutes payload.requestedStart payload.durationMinutes) (some payload.appointmentId) w
    rw [hfc] at this; exact this
  rcases r with e | c
  · simp only; rw [hw1]; exact h0
  · cases c with
    | some c => simp only; rw [buildConflictResponse_db, hw1]; exact h0
    | none =>
      simp only
      rcases htx : withTransaction env (modifyTransaction env payload) w1 with ⟨r2, w2⟩
      have hw2 : P w2.db := by
        rcases withTransaction_db env (modifyTransaction env payload) w1 with
          ht | ⟨a, db, hcb, ht⟩
        · rw [htx] at ht; simp only at ht; rw [ht, hw1]; exact h0
        · rw [htx] at ht; cases ht; rw [hw1] at hcb; exact h1 a db hcb
      rcases r2 with e | row
      · simp only
        split
        · rw [buildConflictResponse_db]; exact hw2
        · exact hw2
      · cases row with
        | none =>
          simp only
          split
          · rw [buildConflictResponse_db]; exact hw2
          · exact hw2
        | some row =>
          simp only
          rcases hn : notifyPending env PendingAction.modify row true w2 with ⟨r3, w3⟩
          have hw3 : w3.db = w2.db := by
            have := notifyPending_db env PendingAction.modify row true w2
            rw [hn] at this; exact this
          rcases r3 with e | r
          · simp only
            split
            · rw [buildConflictResponse_db, hw3]; exact hw2
            · simp only; rw [hw3]; exact hw2
          · simp only; rw [hw3]; exact hw2

theorem confirmPendingAppointment_db (env : Env) (a : Approval) (w : World) (P : Db → Prop)
    (h0 : P w.db)
    (h1 : ∀ row db, approveTransaction env a w.db = .ok (row, db) → P db) :
    P (confirmPendingAppointment env a w).2.db := by
  unfold confirmPendingAppointment
  rcases htx : withTransaction env (approveTransaction env a) w with ⟨r, w1⟩
  have hw1 : P w1.db := by
    rcases withTransaction_db env (approveTransaction env a) w with ht | ⟨x, db, hcb, ht⟩
    · rw [htx] at ht; simp only at ht; rw [ht]; exact h0
    · rw [htx] at ht; cases ht; exact h1 x db hcb
  rcases r with e | row
  · exact hw1
  · simp only; rw [deliverWebhook_db]; exact hw1

theorem handleAgentAction_db (env : Env) (payload : Payload) (w : World) (P : Db → Prop)
    (h0 : P w.db)
    (hb : ∀ a db, bookTransaction env payload w.db = .ok (a, db) → P db)
    (hc : ∀ a db, cancelTransaction env payload w.db = .ok (a, db) → P db)
    (hm : ∀ a db, modifyTransaction env payload w.db = .ok (a, db) → P db) :
    P (handleAgentAction env payload w).2.db := by
  unfold handleAgentAction
  split
  · exact handleBook_db env payload w P h0 hb
  · split
    · exact handleCancel_db env payload w P h0 hc
    · split
      · exact handleModify_db env payload w P h0 hm
      · exact h0

/-! ### The transactions keep the invariant -/

theorem bookTransaction_noOverlap {env : Env} {payload : Payload} {db db1 : Db}
    {a : Appointment} (h : NoOverlap db.appointments)
    (ht : bookTransaction env payload db = .ok (a, db1)) : NoOverlap db1.appointments := by
  unfold bookTransaction at ht
  split at ht
  · cases ht
  · simp only at ht
    split at ht
    · cases ht
    · rename_i rows hins
      injection ht with ht
      injection ht with _ ht
      subst ht
      exact insertAppointment_noOverlap h hins

theorem filter_id_length_le {db : Db} {id : String} {row : Appointment}
    (h : getAppointmentForUpdate db id = .ok row) :
    (db.appointments.filter (fun r => r.id = id)).length ≤ 1 := by
  rw [getAppointmentForUpdate_ok h]; simp

theorem cancelTransaction_noOverlap {env : Env} {payload : Payload} {db db1 : Db}
    {a : Bool × Option Appointment} (h : NoOverlap db.appointments)
    (ht : cancelTransaction env payload db = .ok (a, db1)) : NoOverlap db1.appointments := by
  unfold cancelTransaction at ht
  split at ht
  · cases ht
  · rename_i existing hget
    split at ht
    · injection ht with ht
      injection ht with _ ht
      subst ht
      exact h
    · split at ht
      · cases ht
      · rename_i rows returned hup
        injection ht with ht
        injection ht with _ ht
        subst ht
        exact updateAppointment_noOverlap h (filter_id_length_le hget) hup

theorem modifyTransaction_noOverlap {env : Env} {payload : Payload} {db db1 : Db}
    {a : Option Appointment} (h : NoOverlap db.appointments)
    (ht : modifyTransaction env payload db = .ok (a, db1)) : NoOverlap db1.appointments := by
  unfold modifyTransaction at ht
  split at ht
  · cases ht
  · rename_i existing hget
    split at ht
    · cases ht
    · split at ht
      · cases ht
      · rename_i rows returned hup
        injection ht with ht
        injection ht with _ ht
        subst ht
        exact updateAppointment_noOverlap h (filter_id_length_le hget) hup

theorem approveTransaction_noOverlap {env : Env} {a : Approval} {db db1 : Db}
    {row : Appointment} (h : NoOverlap db.appointments)
    (ht : approveTransaction env a db = .ok (row, db1)) : NoOverlap db1.appointments := by
  unfold approveTransaction at ht
  split at ht
  · cases ht
  · rename_i existing hget
    split at ht
    · cases ht
    · simp only at ht
      split at ht
      · cases ht
      · rename_i rows r hup
        injection ht with ht
        injection ht with _ ht
        subst ht
        exact updateAppointment_noOverlap h (filter_id_length_le hget) hup
      · cases ht

/-! ### The conflict read -/

theorem findConflict_ok (env : Env) (start stop : Int) (x : Option String) (w : World)
    (hq : ∃ n, 1 ≤ n ∧ n ≤ 3 ∧ env.queryFault n = none) :
    ∃ k, 1 ≤ k ∧ k ≤ 3 ∧ findConflict env start stop x w =
      (.ok (overlapRangeQuery w.db.appointments start stop x).head?,
        { w with trace := w.trace ++ List.replicate k Event.query }) := by
  obtain ⟨n, hn1, hn3, hn⟩ := hq
  unfold findConflict
  cases h1 : env.queryFault 1 with
  | none => exact ⟨1, by omega, by omega, by simp [pRetry, h1]⟩
  | some e1 =>
    cases h2 : env.queryFault 2 with
    | none => exact ⟨2, by omega, by omega, by simp [pRetry, h1, h2]⟩
    | some e2 =>
      cases h3 : env.queryFault 3 with
      | none => exact ⟨3, by omega, by omega, by simp [pRetry, h1, h2, h3]⟩
      | some e3 =>
        exfalso
        have : n = 1 ∨ n = 2 ∨ n = 3 := by omega
        rcases this with rfl | rfl | rfl
        · rw [h1] at hn; cases hn
        · rw [h2] at hn; cases hn
        · rw [h3] at hn; cases hn

theorem overlapRangeQuery_none (rows : List Appointment) (start stop : Int)
    (h : ∀ r ∈ rows, r.active = true →
      rangesOverlap r.start_time r.end_time start stop = false) (x : Option String) :
    (overlapRangeQuery rows start stop x).head? = none := by
  unfold overlapRangeQuery
  have hf : rows.filter (fun r =>
      r.active && rangesOverlap r.start_time r.end_time start stop &&
        (if truthy x then decide (some r.id ≠ x) else true)) = [] := by
    rw [List.filter_eq_nil_iff]
    intro r hr
    by_cases ha : r.active = true
    · simp [ha, h r hr ha]
    · simp [ha]
  simp only [hf]
  rfl

theorem overlapRangeQuery_some (rows : List Appointment) (start stop : Int)
    (h : ∃ r ∈ rows, r.active = true ∧
      rangesOverlap r.start_time r.end_time start stop = true) :
    ∃ c, (overlapRangeQuery rows start stop none).head? = some c := by
  obtain ⟨r, hr, ha, ho⟩ := h
  unfold overlapRangeQuery
  simp only [truthy, Bool.false_eq_true, if_false, Bool.and_true]
  have hlen : 0 < ((rows.filter (fun r =>
      r.active && rangesOverlap r.start_time r.end_time start stop)).insertionSort
        (fun a b => a.start_time ≤ b.start_time)).length := by
    rw [List.length_insertionSort]
    exact List.length_pos_of_mem (List.mem_filter.mpr ⟨hr, by simp [ha, ho]⟩)
  obtain ⟨c, rest, hs⟩ := List.exists_cons_of_length_pos hlen
  exact ⟨c, by rw [hs]; rfl⟩

/-- When the conflict read comes back empty, no active row other than the excluded one
overlaps the requested range. -/
theorem overlapRangeQuery_head_none {rows : List Appointment} {start stop : Int}
    {x : Option String} (h : (overlapRangeQuery rows start stop x).head? = none) :
    ∀ r ∈ rows, r.active = true → (truthy x = true → some r.id ≠ x) →
      rangesOverlap r.start_time r.end_time start stop = false := by
  intro r hr ha hx
  by_contra ho
  have ho1 : rangesOverlap r.start_time r.end_time start stop = true := by
    simpa using ho
  have hmem : r ∈ rows.filter (fun r =>
      r.active && rangesOverlap r.start_time r.end_time start stop &&
        (if truthy x then decide (some r.id ≠ x) else true)) := by
    rw [List.mem_filter]
    refine ⟨hr, ?_⟩
    by_cases ht : truthy x = true
    · simp [ha, ho1, ht, hx ht]
    · simp [ha, ho1, ht]
  have hlen : 0 < ((rows.filter (fun r =>
      r.active && rangesOverlap r.start_time r.end_time start stop &&
        (if truthy x then decide (some r.id ≠ x) else true))).insertionSort
        (fun a b => a.start_time ≤ b.start_time)).length := by
    rw [List.length_insertionSort]
    exact List.length_pos_of_mem hmem
  obtain ⟨c, rest, hs⟩ := List.exists_cons_of_length_pos hlen
  unfold overlapRangeQuery at h
  simp only [hs] at h
  cases h

/-- After an empty conflict read the insert of `handleBook` cannot violate the exclusion
guarantee: in `handleBook` only a fault can raise `23P01`. -/
theorem bookRow_not_excluded (env : Env) (payload : Payload) (clientId : String)
    (rows : List Appointment)
    (h : (overlapRangeQuery rows payload.requestedStart
      (addMinutes payload.requestedStart payload.durationMinutes) none).head? = none) :
    exclusionViolation (bookRow env payload clientId) rows = false := by
  have hn := overlapRangeQuery_head_none h
  unfold exclusionViolation
  simp only [Bool.and_eq_false_imp, List.any_eq_false, Bool.and_eq_true, not_and,
    Bool.not_eq_true]
  intro _ r hr ha
  exact hn r hr ha (by simp [truthy])

/-- After an empty conflict read the update of `handleModify` cannot violate the exclusion
guarantee against the rows it leaves alone. -/
theorem modifySet_not_excluded (env : Env) (payload : Payload) (existing r : Appointment)
    (rows : List Appointment)
    (h : (overlapRangeQuery rows payload.requestedStart
      (addMinutes payload.requestedStart payload.durationMinutes)
      (some payload.appointmentId)).head? = none) :
    exclusionViolation (modifySet env payload existing r)
      (rows.filter (fun x => !(decide (x.id = payload.appointmentId) && true))) = false := by
  have hn := overlapRangeQuery_head_none h
  unfold exclusionViolation
  simp only [Bool.and_eq_false_imp, List.any_eq_false, Bool.and_eq_true, not_and,
    Bool.not_eq_true]
  intro _ x hx ha
  rw [List.mem_filter] at hx
  have hne : x.id ≠ payload.appointmentId := by
    intro he; simp [he] at hx
  exact hn x hx.1 ha (fun _ => by simpa using hne)

/-! ### Updating the one row that carries an id -/

theorem filter_hit_of_unique {rows : List Appointment} {id : String} {r : Appointment}
    (guard : Appointment → Bool) (hf : rows.filter (fun x => x.id = id) = [r]) :
    rows.filter (fun x => decide (x.id = id) && guard x) = if guard r then [r] else [] := by
  have h1 : rows.filter (fun x => decide (x.id = id) && guard x) =
      (rows.filter (fun x => x.id = id)).filter guard := by
    rw [List.filter_filter]
    congr 1
    funext x
    exact Bool.and_comm _ _
  rw [h1, hf]
  by_cases hg : guard r = true <;> simp [List.filter, hg]

theorem mem_of_filter_id {rows : List Appointment} {id : String} {r : Appointment}
    (hf : rows.filter (fun x => x.id = id) = [r]) : r ∈ rows ∧ r.id = id := by
  have : r ∈ rows.filter (fun x => x.id = id) := by rw [hf]; simp
  rw [List.mem_filter] at this
  exact ⟨this.1, by simpa using this.2⟩

theorem eq_of_filter_id {rows : List Appointment} {id : String} {r x : Appointment}
    (hf : rows.filter (fun x => x.id = id) = [r]) (hx : x ∈ rows) (hid : x.id = id) :
    x = r := by
  have : x ∈ rows.filter (fun x => x.id = id) := List.mem_filter.mpr ⟨hx, by simpa using hid⟩
  rw [hf] at this
  simpa using this

/-- The update writes nothing and returns no row when the guard rejects the one row
carrying the id. -/
theorem updateAppointment_miss {rows : List Appointment} {id : String} {r : Appointment}
    (guard : Appointment → Bool) (set : Appointment → Appointment)
    (hf : rows.filter (fun x => x.id = id) = [r]) (hg : guard r = false) :
    updateAppointment rows id guard set = .ok (rows, []) := by
  unfold updateAppointment
  simp only [filter_hit_of_unique guard hf, hg, Bool.false_eq_true, if_false, List.map_nil,
    List.any_nil]
  have hmap : rows.map (fun x => if (decide (x.id = id) && guard x) = true then set x else x)
      = rows := by
    conv_rhs => rw [← List.map_id rows]
    apply List.map_congr_left
    intro x hx
    by_cases hid : x.id = id
    · have := eq_of_filter_id hf hx hid
      subst this
      simp [hg]
    · simp [hid]
  rw [hmap]

/-- The update rewrites the one row carrying the id when the guard accepts it and the new
row version conflicts with no other row. -/
theorem updateAppointment_hit {rows : List Appointment} {id : String} {r : Appointment}
    (guard : Appointment → Bool) (set : Appointment → Appointment)
    (hf : rows.filter (fun x => x.id = id) = [r]) (hg : guard r = true)
    (hx : ∀ x ∈ rows, x.id ≠ id → conflicting x (set r) = false) :
    updateAppointment rows id guard set =
      .ok (rows.map (fun x => if (decide (x.id = id) && guard x) = true then set x else x),
        [set r]) := by
  unfold updateAppointment
  simp only [filter_hit_of_unique guard hf, hg, if_true, List.map_cons, List.map_nil,
    List.any_cons, List.any_nil, Bool.or_false]
  have hv : exclusionViolation (set r)
      (rows.filter (fun x => !(decide (x.id = id) && guard x))) = false := by
    unfold exclusionViolation
    by_cases hact : (set r).active = true
    · simp only [hact, Bool.true_and, List.any_eq_false, Bool.and_eq_true, not_and,
        Bool.not_eq_true]
      intro x hxm hxa
      rw [List.mem_filter] at hxm
      have hne : x.id ≠ id := by
        intro hid
        have := eq_of_filter_id hf hxm.1 hid
        subst this
        simp [hid, hg] at hxm
      have := hx x hxm.1 hne
      unfold conflicting at this
      simpa [hxa, hact] using this
    · simp [hact]
  rw [hv]
  simp

/-- The rows carrying the id after an update that keeps ids. -/
theorem filter_id_map_set {rows : List Appointment} {id : String} {r : Appointment}
    (guard : Appointment → Bool) (set : Appointment → Appointment)
    (hf : rows.filter (fun x => x.id = id) = [r]) (hg : guard r = true)
    (hid : ∀ x, (set x).id = x.id) :
    (rows.map (fun x => if (decide (x.id = id) && guard x) = true then set x else x)).filter
      (fun x => x.id = id) = [set r] := by
  rw [List.filter_map]
  have hcomp : ((fun x : Appointment => decide (x.id = id)) ∘
      (fun x => if (decide (x.id = id) && guard x) = true then set x else x)) =
      (fun x => decide (x.id = id)) := by
    funext x
    simp only [Function.comp]
    split
    · rw [hid]
    · rfl
  rw [hcomp, hf]
  have := (mem_of_filter_id hf).2
  simp [this, hg]

/-! ### The approval transaction -/

theorem approveTransaction_invalid_state (env : Env) (a : Approval) (db : Db)
    (r : Appointment) (hf : db.appointments.filter (fun x => x.id = a.appointmentId) = [r])
    (hs : r.status ≠ Status.pending_approval ∨ r.pending_action = none) :
    approveTransaction env a db =
      .error (JsError.HttpError 409 "Appointment is not awaiting approval" "invalid_state") := by
  unfold approveTransaction
  rw [getAppointmentForUpdate_of_filter hf]
  simp only [hs, if_true]

theorem approveTransaction_stale (env : Env) (a : Approval) (db : Db)
    (r : Appointment) (hf : db.appointments.filter (fun x => x.id = a.appointmentId) = [r])
    (hs : r.status = Status.pending_approval) (hp : r.pending_action ≠ none)
    (hv : a.expectedVersion ≠ r.version) :
    approveTransaction env a db =
      .error (JsError.HttpError 409 "Approval version conflict" "optimistic_lock_conflict") := by
  unfold approveTransaction
  rw [getAppointmentForUpdate_of_filter hf]
  have hc : ¬(r.status ≠ Status.pending_approval ∨ r.pending_action = none) := by
    simp [hs, hp]
  simp only [hc, if_false]
  rw [updateAppointment_miss _ _ hf (by simpa using fun h => hv h.symm)]

theorem approveTransaction_ok (env : Env) (a : Approval) (db : Db)
    (r : Appointment) (hno : NoOverlap db.appointments)
    (hf : db.appointments.filter (fun x => x.id = a.appointmentId) = [r])
    (hs : r.status = Status.pending_approval) (hp : r.pending_action ≠ none)
    (hv : a.expectedVersion = r.version) :
    approveTransaction env a db =
      .ok (approveSet env a (resolveApprovalTransition r a.approved) r,
        { db with appointments := db.appointments.map (fun x =>
            if (decide (x.id = a.appointmentId) && decide (x.version = a.expectedVersion)) = true
            then approveSet env a (resolveApprovalTransition r a.approved) x else x) }) := by
  unfold approveTransaction
  rw [getAppointmentForUpdate_of_filter hf]
  have hc : ¬(r.status ≠ Status.pending_approval ∨ r.pending_action = none) := by
    simp [hs, hp]
  simp only [hc, if_false]
  have hmem := mem_of_filter_id hf
  have hract : r.active = true := by simp [Appointment.active, hs]
  rw [updateAppointment_hit (fun x => decide (x.version = a.expectedVersion)) _ hf
    (by simpa using hv.symm)]
  intro x hx hne
  have hxr : x ≠ r := by
    intro h; subst h; exact hne hmem.2
  have hsym : Symmetric (fun a b : Appointment => conflicting a b = false) := by
    intro u v huv; rw [conflicting_comm]; exact huv
  have hxc : conflicting x r = false := List.Pairwise.forall hsym hno hx hmem.1 hxr
  unfold conflicting at hxc ⊢
  simp only [hract, Bool.and_true] at hxc
  by_cases hxa : x.active = true
  · simp only [hxa, Bool.true_and] at hxc
    simp [approveSet, hxc]
  · simp [hxa]

/-! ### Which rows a transaction rewrites -/

theorem updateAppointment_rows {rows rows1 ret : List Appointment} {id : String}
    {guard : Appointment → Bool} {set : Appointment → Appointment}
    (hu : updateAppointment rows id guard set = .ok (rows1, ret)) :
    rows1 = rows.map (fun x => if (decide (x.id = id) && guard x) = true then set x else x) := by
  unfold updateAppointment at hu
  simp only at hu
  split at hu
  · cases hu
  · injection hu with hu
    injection hu with hu1 hu2
    exact hu1.symm

theorem bookTransaction_rows {env : Env} {payload : Payload} {db db1 : Db} {a : Appointment}
    (ht : bookTransaction env payload db = .ok (a, db1)) :
    db1.appointments = db.appointments ++ [a] := by
  unfold bookTransaction at ht
  split at ht
  · cases ht
  · simp only at ht
    split at ht
    · cases ht
    · rename_i rows hins
      injection ht with ht
      injection ht with h1 h2
      subst h1 h2
      unfold insertAppointment at hins
      split at hins
      · cases hins
      · split at hins
        · cases hins
        · injection hins with hins
          exact hins.symm

/-- A committed cancel rewrites rows by a map that keeps ids and fixes every cancelled row. -/
theorem cancelTransaction_rows {env : Env} {payload : Payload} {db db1 : Db}
    {a : Bool × Option Appointment}
    (ht : cancelTransaction env payload db = .ok (a, db1)) :
    ∃ g : Appointment → Appointment, db1.appointments = db.appointments.map g ∧
      (∀ x, (g x).id = x.id) ∧
      (∀ x ∈ db.appointments, x.status = Status.cancelled → g x = x) := by
  unfold cancelTransaction at ht
  split at ht
  · cases ht
  · rename_i existing hget
    split at ht
    · injection ht with ht
      injection ht with _ ht
      subst ht
      exact ⟨id, by simp, fun _ => rfl, fun _ _ _ => rfl⟩
    · rename_i hnc
      split at ht
      · cases ht
      · rename_i rows returned hup
        injection ht with ht
        injection ht with _ ht
        subst ht
        refine ⟨_, updateAppointment_rows hup, ?_, ?_⟩
        · intro x; split <;> rfl
        · intro x hx hs
          have hf := getAppointmentForUpdate_ok hget
          by_cases hid : x.id = payload.appointmentId
          · have := eq_of_filter_id hf hx hid
            subst this
            exact absurd hs hnc
          · simp [hid]

/-- A committed modify rewrites rows by a map that keeps ids and fixes every cancelled row. -/
theorem modifyTransaction_rows {env : Env} {payload : Payload} {db db1 : Db}
    {a : Option Appointment}
    (ht : modifyTransaction env payload db = .ok (a, db1)) :
    ∃ g : Appointment → Appointment, db1.appointments = db.appointments.map g ∧
      (∀ x, (g x).id = x.id) ∧
      (∀ x ∈ db.appointments, x.status = Status.cancelled → g x = x) := by
  unfold modifyTransaction at ht
  split at ht
  · cases ht
  · rename_i existing hget
    split at ht
    · cases ht
    · rename_i hnc
      split at ht
      · cases ht
      · rename_i rows returned hup
        injection ht with ht
        injection ht with _ ht
        subst ht
        refine ⟨_, updateAppointment_rows hup, ?_, ?_⟩
        · intro x; split <;> rfl
        · intro x hx hs
          have hf := getAppointmentForUpdate_ok hget
          by_cases hid : x.id = payload.appointmentId
          · have := eq_of_filter_id hf hx hid
            subst this
            exact absurd hs hnc
          · simp [hid]

/-- A committed approval rewrites rows by a map that keeps ids and fixes every row that is
not pending approval. -/
theorem approveTransaction_rows {env : Env} {a : Approval} {db db1 : Db} {row : Appointment}
    (ht : approveTransaction env a db = .ok (row, db1)) :
    ∃ g : Appointment → Appointment, db1.appointments = db.appointments.map g ∧
      (∀ x, (g x).id = x.id) ∧
      (∀ x ∈ db.appointments, x.status ≠ Status.pending_approval → g x = x) := by
  unfold approveTransaction at ht
  split at ht
  · cases ht
  · rename_i existing hget
    split at ht
    · cases ht
    · rename_i hpend
      simp only at ht
      split at ht
      · cases ht
      · rename_i rows r hup
        injection ht with ht
        injection ht with _ ht
        subst ht
        refine ⟨_, updateAppointment_rows hup, ?_, ?_⟩
        · intro x; split <;> rfl
        · intro x hx hs
          have hf := getAppointmentForUpdate_ok hget
          by_cases hid : x.id = a.appointmentId
          · have := eq_of_filter_id hf hx hid
            subst this
            exact absurd (Or.inl hs) hpend
          · simp [hid]
      · cases ht

/-- A matching approval of a reservation awaiting approval commits: the response and the
stored row. -/
theorem confirmPendingAppointment_ok (env : Env) (a : Approval) (w : World) (r : Appointment)
    (htx : env.txFault = none) (hno : NoOverlap w.db.appointments)
    (hf : w.db.appointments.filter (fun x => x.id = a.appointmentId) = [r])
    (hs : r.status = Status.pending_approval) (hp : r.pending_action ≠ none)
    (hv : a.expectedVersion = r.version) :
    ∃ delivered r1,
      (confirmPendingAppointment env a w).1 =
        .ok (Response.approval_resolved a.appointmentId
          (resolveApprovalTransition r a.approved) (r.version + 1) delivered) ∧
      (confirmPendingAppointment env a w).2.db.appointments.filter
        (fun x => x.id = a.appointmentId) = [r1] ∧
      r1.version = r.version + 1 ∧ r1.pending_action = none ∧ r1.pending_payload = none ∧
      r1.status = resolveApprovalTransition r a.approved := by
  have hok := approveTransaction_ok env a w.db r hno hf hs hp hv
  have hid := (mem_of_filter_id hf).2
  have hnew := filter_id_map_set (fun x => decide (x.version = a.expectedVersion))
    (approveSet env a (resolveApprovalTransition r a.approved)) hf
    (by simpa using hv.symm) (fun _ => rfl)
  unfold confirmPendingAppointment withTransaction
  rw [htx]
  simp only [hok, deliverWebhook_db]
  have h1 : (approveSet env a (resolveApprovalTransition r a.approved) r).id =
      a.appointmentId := hid
  rw [h1]
  exact ⟨_, _, rfl, hnew, rfl, rfl, rfl, rfl⟩

/-- A cancel of an active reservation commits: the response and the resulting world. -/
theorem handleCancel_commits (env : Env) (payload : Payload) (w : World) (r : Appointment)
    (htx : env.txFault = none) (hpush : env.pushFault = none)
    (hno : NoOverlap w.db.appointments)
    (hf : w.db.appointments.filter (fun x => x.id = payload.appointmentId) = [r])
    (hact : r.active = true) :
    handleCancel env payload w =
      (.ok (Response.pending_toney_approval PendingAction.cancel payload.appointmentId
          (r.version + 1) none none),
        { db := { w.db with appointments := w.db.appointments.map (fun x =>
            if (decide (x.id = payload.appointmentId) && true) = true
            then cancelSet env payload r x else x) },
          trace := w.trace ++ [Event.transaction true] ++
            [Event.sendPendingApproval payload.appointmentId PendingAction.cancel] }) := by
  have hmem := mem_of_filter_id hf
  have hnc : r.status ≠ Status.cancelled := by
    intro h; simp [Appointment.active, h] at hact
  have hup := updateAppointment_hit (fun _ => true) (cancelSet env payload r) hf rfl (by
    intro x hx hne
    have hxr : x ≠ r := by
      intro h; subst h; exact hne hmem.2
    have hsym : Symmetric (fun a b : Appointment => conflicting a b = false) := by
      intro u v huv; rw [conflicting_comm]; exact huv
    have hxc : conflicting x r = false := List.Pairwise.forall hsym hno hx hmem.1 hxr
    unfold conflicting at hxc ⊢
    simp only [hact, Bool.and_true] at hxc
    by_cases hxa : x.active = true
    · simp only [hxa, Bool.true_and] at hxc
      simp [cancelSet, hxc]
    · simp [hxa])
  have hct : cancelTransaction env payload w.db =
      .ok ((false, some (cancelSet env payload r r)),
        { w.db with appointments := w.db.appointments.map (fun x =>
            if (decide (x.id = payload.appointmentId) && true) = true
            then cancelSet env payload r x else x) }) := by
    unfold cancelTransaction
    rw [getAppointmentForUpdate_of_filter hf]
    simp only [hnc, if_false, hup]
    rfl
  unfold handleCancel withTransaction
  rw [htx]
  simp only [hct, notifyPending, hpush]
  have h1 : (cancelSet env payload r r).id = payload.appointmentId := hmem.2
  rw [h1]
  rfl

/-! ## The claims -/

theorem step_noOverlap (env : Env) (op : Operation) (w : World)
    (h : NoOverlap w.db.appointments) : NoOverlap (step env op w).2.db.appointments := by
  cases op with
  | agent payload =>
    exact handleAgentAction_db env payload w (fun db => NoOverlap db.appointments) h
      (fun _ _ ht => bookTransaction_noOverlap h ht)
      (fun _ _ ht => cancelTransaction_noOverlap h ht)
      (fun _ _ ht => modifyTransaction_noOverlap h ht)
  | approve a =>
    exact confirmPendingAppointment_db env a w (fun db => NoOverlap db.appointments) h
      (fun _ _ ht => approveTransaction_noOverlap h ht)

/-- C1. Non-overlap invariant: from a store in which no two active reservations have
intersecting half-open ranges, after any sequence of book, cancel, modify and approve
operations run one at a time, in whatever environment (each may succeed, answer
conflict or fail), the store still holds no two active reservations with intersecting
ranges. -/
theorem nonOverlap_invariant (ops : List (Env × Operation)) (w : World)
    (h : NonOverlapping w.db.appointments) : NonOverlapping (run ops w).db.appointments := by
  rw [nonOverlapping_iff] at h ⊢
  induction ops generalizing w with
  | nil => exact h
  | cons head rest ih =>
    obtain ⟨env, op⟩ := head
    exact ih (step env op w).2 (step_noOverlap env op w h)

theorem nonOverlap_invariant_witness :
    NonOverlapping (sampleWorld [sampleRow "appt-0001" 0 3600000 Status.confirmed none 2,
      sampleRow "appt-0002" 0 3600000 Status.rejected none 2]).db.appointments ∧
    NonOverlapping (run
      [(calmEnv, Operation.agent (sampleCommand "book" "" 1800000 60)),
       (calmEnv, Operation.agent (sampleCommand "cancel" "appt-0002" 0 0)),
       (calmEnv, Operation.agent (sampleCommand "modify" "appt-0001" 7200000 30)),
       (calmEnv, Operation.approve { appointmentId := "appt-0001", expectedVersion := 3,
                                     approved := true }),
       (calmEnv, Operation.agent (sampleCommand "book" "" 0 60))]
      (sampleWorld [sampleRow "appt-0001" 0 3600000 Status.confirmed none 2,
        sampleRow "appt-0002" 0 3600000 Status.rejected none 2])).db.appointments :=
  ⟨(nonOverlapping_iff _).mpr (by decide),
    nonOverlap_invariant _ _ ((nonOverlapping_iff _).mpr (by decide))⟩

/-- C2, as amended. For every reservation that is awaiting approval (status
pending_approval, pending action set) and every expectedVersion different from its
current version, approve fails with optimistic_lock_conflict (HTTP 409) and leaves the
store as it was (the transaction is rolled back), provided the store raises no fault. -/
theorem approve_stale_version_conflict (env : Env) (a : Approval) (w : World)
    (r : Appointment) (htx : env.txFault = none)
    (hf : w.db.appointments.filter (fun x => x.id = a.appointmentId) = [r])
    (hs : r.status = Status.pending_approval) (hp : r.pending_action ≠ none)
    (hv : a.expectedVersion ≠ r.version) :
    confirmPendingAppointment env a w =
      (.error (JsError.HttpError 409 "Approval version conflict" "optimistic_lock_conflict"),
        { w with trace := w.trace ++ [Event.transaction false] }) := by
  unfold confirmPendingAppointment withTransaction
  rw [htx]
  simp only [approveTransaction_stale env a w.db r hf hs hp hv]

theorem approve_stale_version_conflict_witness :
    confirmPendingAppointment calmEnv
      { appointmentId := "appt-0001", expectedVersion := 2, approved := true }
      (sampleWorld [sampleRow "appt-0001" 0 3600000 Status.pending_approval
        (some PendingAction.book) 3]) =
      (.error (JsError.HttpError 409 "Approval version conflict" "optimistic_lock_conflict"),
        { sampleWorld [sampleRow "appt-0001" 0 3600000 Status.pending_approval
            (some PendingAction.book) 3] with trace := [] ++ [Event.transaction false] }) :=
  approve_stale_version_conflict calmEnv
    { appointmentId := "appt-0001", expectedVersion := 2, approved := true }
    (sampleWorld [sampleRow "appt-0001" 0 3600000 Status.pending_approval
      (some PendingAction.book) 3])
    (sampleRow "appt-0001" 0 3600000 Status.pending_approval (some PendingAction.book) 3)
    rfl (by decide) rfl (by decide) (by decide)

/-- C2, counterexample. A confirmed reservation at version 2 approved with expectedVersion 1:
the versions differ, yet approve fails with invalid_state, not optimistic_lock_conflict. -/
theorem approve_stale_version_on_confirmed :
    (1 : Int) ≠ (sampleRow "appt-0001" 0 3600000 Status.confirmed none 2).version ∧
    (confirmPendingAppointment calmEnv
      { appointmentId := "appt-0001", expectedVersion := 1, approved := true }
      (sampleWorld [sampleRow "appt-0001" 0 3600000 Status.confirmed none 2])).1 =
      .error (JsError.HttpError 409 "Appointment is not awaiting approval" "invalid_state") ∧
    (confirmPendingAppointment calmEnv
      { appointmentId := "appt-0001", expectedVersion := 1, approved := true }
      (sampleWorld [sampleRow "appt-0001" 0 3600000 Status.confirmed none 2])).1 ≠
      .error (JsError.HttpError 409 "Approval version conflict" "optimistic_lock_conflict") := by
  decide

/-- C3. For every reservation with status pending_approval and a pending action set, in a
store that satisfies its exclusion guarantee and raises no fault, approve with
expectedVersion equal to the current version resolves with status approval_resolved;
the returned and the stored version are the previous version plus 1, and the stored
row has pending_action and pending_payload cleared and carries the resolved status. -/
theorem approve_matching_version (env : Env) (a : Approval) (w : World) (r : Appointment)
    (htx : env.txFault = none) (hno : NonOverlapping w.db.appointments)
    (hf : w.db.appointments.filter (fun x => x.id = a.appointmentId) = [r])
    (hs : r.status = Status.pending_approval) (hp : r.pending_action ≠ none)
    (hv : a.expectedVersion = r.version) :
    ∃ delivered r1,
      (confirmPendingAppointment env a w).1 =
        .ok (Response.approval_resolved a.appointmentId
          (resolveApprovalTransition r a.approved) (r.version + 1) delivered) ∧
      (confirmPendingAppointment env a w).2.db.appointments.filter
        (fun x => x.id = a.appointmentId) = [r1] ∧
      r1.version = r.version + 1 ∧ r1.pending_action = none ∧ r1.pending_payload = none ∧
      r1.status = resolveApprovalTransition r a.approved :=
  confirmPendingAppointment_ok env a w r htx ((nonOverlapping_iff _).mp hno) hf hs hp hv

theorem approve_matching_version_witness :
    ∃ delivered r1,
      (confirmPendingAppointment calmEnv
        { appointmentId := "appt-0001", expectedVersion := 3, approved := false }
        (sampleWorld [sampleRow "appt-0001" 0 3600000 Status.pending_approval
          (some PendingAction.book) 3])).1 =
        .ok (Response.approval_resolved "appt-0001" Status.rejected 4 delivered) ∧
      (confirmPendingAppointment calmEnv
        { appointmentId := "appt-0001", expectedVersion := 3, approved := false }
        (sampleWorld [sampleRow "appt-0001" 0 3600000 Status.pending_approval
          (some PendingAction.book) 3])).2.db.appointments.filter
        (fun x => x.id = "appt-0001") = [r1] ∧
      r1.version = 4 ∧ r1.pending_action = none ∧ r1.pending_payload = none ∧
      r1.status = Status.rejected :=
  approve_matching_version calmEnv
    { appointmentId := "appt-0001", expectedVersion := 3, approved := false }
    (sampleWorld [sampleRow "appt-0001" 0 3600000 Status.pending_approval
      (some PendingAction.book) 3])
    (sampleRow "appt-0001" 0 3600000 Status.pending_approval (some PendingAction.book) 3)
    rfl ((nonOverlapping_iff _).mpr (by decide)) (by decide) rfl (by decide) rfl

/-- C4. The status an approval decision resolves to, for every pending action and every
decision: (book, true) confirmed; (book, false) rejected; (cancel, true) cancelled;
(cancel, false) confirmed; (modify, true) confirmed; (modify, false) confirmed. -/
theorem resolveApprovalTransition_table (r : Appointment) :
    resolveApprovalTransition { r with pending_action := some PendingAction.book } true =
      Status.confirmed ∧
    resolveApprovalTransition { r with pending_action := some PendingAction.book } false =
      Status.rejected ∧
    resolveApprovalTransition { r with pending_action := some PendingAction.cancel } true =
      Status.cancelled ∧
    resolveApprovalTransition { r with pending_action := some PendingAction.cancel } false =
      Status.confirmed ∧
    resolveApprovalTransition { r with pending_action := some PendingAction.modify } true =
      Status.confirmed ∧
    resolveApprovalTransition { r with pending_action := some PendingAction.modify } false =
      Status.confirmed := by
  simp [resolveApprovalTransition]

/-- C5. For every existing reservation whose status is not pending_approval or whose
pending action is not set, approve fails with invalid_state (HTTP 409), whatever
expectedVersion and approved are, and leaves the store unchanged (provided the store
raises no fault). -/
theorem approve_not_pending_invalid_state (env : Env) (a : Approval) (w : World)
    (r : Appointment) (htx : env.txFault = none)
    (hf : w.db.appointments.filter (fun x => x.id = a.appointmentId) = [r])
    (hs : r.status ≠ Status.pending_approval ∨ r.pending_action = none) :
    confirmPendingAppointment env a w =
      (.error (JsError.HttpError 409 "Appointment is not awaiting approval" "invalid_state"),
        { w with trace := w.trace ++ [Event.transaction false] }) := by
  unfold confirmPendingAppointment withTransaction
  rw [htx]
  simp only [approveTransaction_invalid_state env a w.db r hf hs]

theorem approve_not_pending_invalid_state_witness :
    confirmPendingAppointment calmEnv
      { appointmentId := "appt-0001", expectedVersion := 2, approved := true }
      (sampleWorld [sampleRow "appt-0001" 0 3600000 Status.confirmed none 2]) =
      (.error (JsError.HttpError 409 "Appointment is not awaiting approval" "invalid_state"),
        { sampleWorld [sampleRow "appt-0001" 0 3600000 Status.confirmed none 2] with
          trace := [] ++ [Event.transaction false] }) :=
  approve_not_pending_invalid_state calmEnv
    { appointmentId := "appt-0001", expectedVersion := 2, approved := true }
    (sampleWorld [sampleRow "appt-0001" 0 3600000 Status.confirmed none 2])
    (sampleRow "appt-0001" 0 3600000 Status.confirmed none 2)
    rfl (by decide) (by decide)

/-- C6, as amended. Rejecting the cancel of a confirmed reservation restores its status: for
every reservation with status confirmed, in a store that satisfies its exclusion
guarantee, when nothing fails, cancel returns the pending response at the previous
version plus 1, and approve with approved = false at that version leaves the reservation
with status confirmed, its status before the cancel. -/
theorem reject_cancel_restores_confirmed (env env2 : Env) (payload : Payload) (w : World)
    (r : Appointment) (reviewedBy : String)
    (htx : env.txFault = none) (hpush : env.pushFault = none) (htx2 : env2.txFault = none)
    (hnon : NonOverlapping w.db.appointments)
    (hf : w.db.appointments.filter (fun x => x.id = payload.appointmentId) = [r])
    (hs : r.status = Status.confirmed) :
    (handleCancel env payload w).1 =
      .ok (Response.pending_toney_approval PendingAction.cancel payload.appointmentId
        (r.version + 1) none none) ∧
    ∃ delivered r1,
      (confirmPendingAppointment env2
        { appointmentId := payload.appointmentId, expectedVersion := r.version + 1,
          approved := false, reviewedBy := reviewedBy } (handleCancel env payload w).2).1 =
        .ok (Response.approval_resolved payload.appointmentId r.status (r.version + 1 + 1)
          delivered) ∧
      (confirmPendingAppointment env2
        { appointmentId := payload.appointmentId, expectedVersion := r.version + 1,
          approved := false, reviewedBy := reviewedBy }
        (handleCancel env payload w).2).2.db.appointments.filter
          (fun x => x.id = payload.appointmentId) = [r1] ∧
      r1.status = r.status := by
  have hno : NoOverlap w.db.appointments := (nonOverlapping_iff _).mp hnon
  have hact : r.active = true := by simp [Appointment.active, hs]
  have hno2 : NoOverlap (handleCancel env payload w).2.db.appointments :=
    handleCancel_db env payload w (fun db => NoOverlap db.appointments) hno
      (fun _ _ ht => cancelTransaction_noOverlap hno ht)
  have hc := handleCancel_commits env payload w r htx hpush hno hf hact
  rw [hc] at hno2 ⊢
  refine ⟨rfl, ?_⟩
  have hf2 := filter_id_map_set (fun _ => true) (cancelSet env payload r) hf rfl (fun _ => rfl)
  obtain ⟨d, r1, h1, h2, _, _, _, h6⟩ := confirmPendingAppointment_ok env2
    { appointmentId := payload.appointmentId, expectedVersion := r.version + 1,
      approved := false, reviewedBy := reviewedBy } _ (cancelSet env payload r r)
    htx2 hno2 hf2 rfl (by simp [cancelSet]) rfl
  have hres : resolveApprovalTransition (cancelSet env payload r r) false = r.status := by
    rw [hs]; simp [resolveApprovalTransition, cancelSet]
  exact ⟨d, r1, by rw [h1, hres]; rfl, h2, by rw [h6, hres]⟩

theorem reject_cancel_restores_confirmed_witness :
    (handleCancel calmEnv (sampleCommand "cancel" "appt-0001" 0 0)
      (sampleWorld [sampleRow "appt-0001" 0 3600000 Status.confirmed none 2])).1 =
      .ok (Response.pending_toney_approval PendingAction.cancel "appt-0001" (2 + 1) none none) ∧
    ∃ delivered r1,
      (confirmPendingAppointment calmEnv
        { appointmentId := "appt-0001", expectedVersion := 2 + 1, approved := false,
          reviewedBy := "toney" }
        (handleCancel calmEnv (sampleCommand "cancel" "appt-0001" 0 0)
          (sampleWorld [sampleRow "appt-0001" 0 3600000 Status.confirmed none 2])).2).1 =
        .ok (Response.approval_resolved "appt-0001" Status.confirmed (2 + 1 + 1) delivered) ∧
      (confirmPendingAppointment calmEnv
        { appointmentId := "appt-0001", expectedVersion := 2 + 1, approved := false,
          reviewedBy := "toney" }
        (handleCancel calmEnv (sampleCommand "cancel" "appt-0001" 0 0)
          (sampleWorld [sampleRow "appt-0001" 0 3600000 Status.confirmed none
            2])).2).2.db.appointments.filter (fun x => x.id = "appt-0001") = [r1] ∧
      r1.status = Status.confirmed :=
  reject_cancel_restores_confirmed calmEnv calmEnv (sampleCommand "cancel" "appt-0001" 0 0)
    (sampleWorld [sampleRow "appt-0001" 0 3600000 Status.confirmed none 2])
    (sampleRow "appt-0001" 0 3600000 Status.confirmed none 2) "toney"
    rfl rfl rfl ((nonOverlapping_iff _).mpr (by decide)) (by decide) rfl

/-- C6, counterexample. A rejected reservation at version 2 is cancelled: the cancel commits
at version 3 and stashes previousStatus = rejected. Rejecting that cancel at version 3
leaves the reservation confirmed, not rejected. -/
theorem cancel_then_reject_confirms_rejected :
    (sampleWorld [sampleRow "appt-0001" 0 3600000 Status.rejected none 2]).db.appointments.map
      (fun r => r.status) = [Status.rejected] ∧
    (handleCancel calmEnv (sampleCommand "cancel" "appt-0001" 0 0)
      (sampleWorld [sampleRow "appt-0001" 0 3600000 Status.rejected none 2])).1 =
      .ok (Response.pending_toney_approval PendingAction.cancel "appt-0001" 3 none none) ∧
    (handleCancel calmEnv (sampleCommand "cancel" "appt-0001" 0 0)
      (sampleWorld [sampleRow "appt-0001" 0 3600000 Status.rejected none 2])).2.db.appointments.map
      (fun r => r.pending_payload.bind (fun q => q.previousStatus)) = [some Status.rejected] ∧
    (confirmPendingAppointment calmEnv
      { appointmentId := "appt-0001", expectedVersion := 3, approved := false }
      (handleCancel calmEnv (sampleCommand "cancel" "appt-0001" 0 0)
        (sampleWorld [sampleRow "appt-0001" 0 3600000 Status.rejected none 2])).2).1 =
      .ok (Response.approval_resolved "appt-0001" Status.confirmed 4 false) ∧
    (confirmPendingAppointment calmEnv
      { appointmentId := "appt-0001", expectedVersion := 3, approved := false }
      (handleCancel calmEnv (sampleCommand "cancel" "appt-0001" 0 0)
        (sampleWorld [sampleRow "appt-0001" 0 3600000 Status.rejected none 2])).2).2.db.appointments.map
      (fun r => r.status) = [Status.confirmed] := by
  decide

theorem step_keeps_ids (env : Env) (op : Operation) (w : World) (r : Appointment)
    (hr : r ∈ w.db.appointments) : ∃ r1 ∈ (step env op w).2.db.appointments, r1.id = r.id := by
  have hmap : ∀ (g : Appointment → Appointment) (db1 : Db),
      db1.appointments = w.db.appointments.map g → (∀ x, (g x).id = x.id) →
      ∃ r1 ∈ db1.appointments, r1.id = r.id := by
    intro g db1 h1 h2
    exact ⟨g r, by rw [h1]; exact List.mem_map_of_mem g hr, h2 r⟩
  cases op with
  | agent payload =>
    refine handleAgentAction_db env payload w
      (fun db => ∃ r1 ∈ db.appointments, r1.id = r.id) ⟨r, hr, rfl⟩ ?_ ?_ ?_
    · intro a db ht
      exact ⟨r, by rw [bookTransaction_rows ht]; exact List.mem_append_left _ hr, rfl⟩
    · intro a db ht
      obtain ⟨g, h1, h2, _⟩ := cancelTransaction_rows ht
      exact hmap g db h1 h2
    · intro a db ht
      obtain ⟨g, h1, h2, _⟩ := modifyTransaction_rows ht
      exact hmap g db h1 h2
  | approve a =>
    refine confirmPendingAppointment_db env a w
      (fun db => ∃ r1 ∈ db.appointments, r1.id = r.id) ⟨r, hr, rfl⟩ ?_
    intro row db ht
    obtain ⟨g, h1, h2, _⟩ := approveTransaction_rows ht
    exact hmap g db h1 h2

theorem step_keeps_cancelled (env : Env) (op : Operation) (w : World) (r : Appointment)
    (hr : r ∈ w.db.appointments) (hs : r.status = Status.cancelled) :
    r ∈ (step env op w).2.db.appointments := by
  have hmap : ∀ (g : Appointment → Appointment) (db1 : Db),
      db1.appointments = w.db.appointments.map g → g r = r → r ∈ db1.appointments := by
    intro g db1 h1 h2
    rw [h1, List.mem_map]
    exact ⟨r, hr, h2⟩
  cases op with
  | agent payload =>
    refine handleAgentAction_db env payload w (fun db => r ∈ db.appointments) hr ?_ ?_ ?_
    · intro a db ht
      rw [bookTransaction_rows ht]; exact List.mem_append_left _ hr
    · intro a db ht
      obtain ⟨g, h1, _, h3⟩ := cancelTransaction_rows ht
      exact hmap g db h1 (h3 r hr hs)
    · intro a db ht
      obtain ⟨g, h1, _, h3⟩ := modifyTransaction_rows ht
      exact hmap g db h1 (h3 r hr hs)
  | approve a =>
    refine confirmPendingAppointment_db env a w (fun db => r ∈ db.appointments) hr ?_
    intro row db ht
    obtain ⟨g, h1, _, h3⟩ := approveTransaction_rows ht
    exact hmap g db h1 (h3 r hr (by rw [hs]; decide))

/-- C7, as amended. Cancelled is terminal and nothing is ever removed: for every
reservation of the store and every environment, (1) after any book, cancel, modify or
approve operation the store still holds a reservation with its id; (2) if its status is
cancelled, no operation changes it at all; (3) if its status is rejected, no book and
no approve operation changes it. -/
theorem terminal_statuses (env : Env) (w : World) (r : Appointment)
    (hr : r ∈ w.db.appointments) :
    (∀ op, ∃ r1 ∈ (step env op w).2.db.appointments, r1.id = r.id) ∧
    (r.status = Status.cancelled → ∀ op, r ∈ (step env op w).2.db.appointments) ∧
    (r.status = Status.rejected →
      (∀ payload, r ∈ (handleBook env payload w).2.db.appointments) ∧
      (∀ a, r ∈ (confirmPendingAppointment env a w).2.db.appointments)) := by
  refine ⟨fun op => step_keeps_ids env op w r hr,
    fun hs op => step_keeps_cancelled env op w r hr hs, fun hs => ⟨?_, ?_⟩⟩
  · intro payload
    refine handleBook_db env payload w (fun db => r ∈ db.appointments) hr ?_
    intro a db ht
    rw [bookTransaction_rows ht]; exact List.mem_append_left _ hr
  · intro a
    refine confirmPendingAppointment_db env a w (fun db => r ∈ db.appointments) hr ?_
    intro row db ht
    obtain ⟨g, h1, _, h3⟩ := approveTransaction_rows ht
    rw [h1, List.mem_map]
    exact ⟨r, hr, h3 r hr (by rw [hs]; decide)⟩

theorem terminal_statuses_witness :
    sampleRow "appt-0001" 0 3600000 Status.cancelled none 4 ∈
      (sampleWorld [sampleRow "appt-0001" 0 3600000 Status.cancelled none 4]).db.appointments ∧
    ((sampleRow "appt-0001" 0 3600000 Status.cancelled none 4).status = Status.cancelled →
      ∀ op, sampleRow "appt-0001" 0 3600000 Status.cancelled none 4 ∈
        (step calmEnv op
          (sampleWorld [sampleRow "appt-0001" 0 3600000 Status.cancelled none 4])).2.db.appointments) :=
  ⟨by decide,
    (terminal_statuses calmEnv
      (sampleWorld [sampleRow "appt-0001" 0 3600000 Status.cancelled none 4])
      (sampleRow "appt-0001" 0 3600000 Status.cancelled none 4) (by decide)).2.1⟩

/-- C7, counterexample. A rejected reservation is not terminal: a cancel command moves it
to pending_approval. -/
theorem cancel_reopens_rejected :
    (sampleWorld [sampleRow "appt-0001" 0 3600000 Status.rejected none 2]).db.appointments.map
      (fun r => r.status) = [Status.rejected] ∧
    (step calmEnv (Operation.agent (sampleCommand "cancel" "appt-0001" 0 0))
      (sampleWorld [sampleRow "appt-0001" 0 3600000 Status.rejected none 2])).2.db.appointments.map
      (fun r => r.status) = [Status.pending_approval] := by
  decide

theorem cancelTransaction_cancelled (env : Env) (payload : Payload) (db : Db)
    (r : Appointment)
    (hf : db.appointments.filter (fun x => x.id = payload.appointmentId) = [r])
    (hs : r.status = Status.cancelled) :
    cancelTransaction env payload db = .ok ((true, some r), db) := by
  unfold cancelTransaction
  rw [getAppointmentForUpdate_of_filter hf]
  simp only [hs, if_true]

theorem handleCancel_cancelled (env : Env) (payload : Payload) (w : World) (r : Appointment)
    (htx : env.txFault = none)
    (hf : w.db.appointments.filter (fun x => x.id = payload.appointmentId) = [r])
    (hs : r.status = Status.cancelled) :
    handleCancel env payload w =
      (.ok (Response.already_cancelled payload.appointmentId),
        { db := w.db, trace := w.trace ++ [Event.transaction true] }) := by
  unfold handleCancel withTransaction
  rw [htx]
  simp only [cancelTransaction_cancelled env payload w.db r hf hs]
  rw [(mem_of_filter_id hf).2]

/-- C8. Cancel is idempotent on a cancelled reservation: for every reservation whose status
is cancelled, a cancel call returns already_cancelled with its id and leaves the whole
store, so every field of the reservation and its version, unchanged; a second cancel call
on the resulting store returns already_cancelled again and again changes nothing
(provided the store raises no fault). -/
theorem cancel_idempotent (env env2 : Env) (payload payload2 : Payload) (w : World)
    (r : Appointment) (htx : env.txFault = none) (htx2 : env2.txFault = none)
    (hsame : payload2.appointmentId = payload.appointmentId)
    (hf : w.db.appointments.filter (fun x => x.id = payload.appointmentId) = [r])
    (hs : r.status = Status.cancelled) :
    (handleCancel env payload w).1 = .ok (Response.already_cancelled payload.appointmentId) ∧
    (handleCancel env payload w).2.db = w.db ∧
    (handleCancel env2 payload2 (handleCancel env payload w).2).1 =
      .ok (Response.already_cancelled payload.appointmentId) ∧
    (handleCancel env2 payload2 (handleCancel env payload w).2).2.db = w.db := by
  have h1 := handleCancel_cancelled env payload w r htx hf hs
  have h2 := handleCancel_cancelled env2 payload2
    { db := w.db, trace := w.trace ++ [Event.transaction true] } r htx2
    (by rw [hsame]; exact hf) hs
  rw [h1]
  simp only [h2, hsame, and_self]

theorem cancel_idempotent_witness :
    (handleCancel calmEnv (sampleCommand "cancel" "appt-0001" 0 0)
      (sampleWorld [sampleRow "appt-0001" 0 3600000 Status.cancelled none 4])).1 =
      .ok (Response.already_cancelled "appt-0001") ∧
    (handleCancel calmEnv (sampleCommand "cancel" "appt-0001" 0 0)
      (sampleWorld [sampleRow "appt-0001" 0 3600000 Status.cancelled none 4])).2.db =
      (sampleWorld [sampleRow "appt-0001" 0 3600000 Status.cancelled none 4]).db ∧
    (handleCancel calmEnv (sampleCommand "cancel" "appt-0001" 0 0)
      (handleCancel calmEnv (sampleCommand "cancel" "appt-0001" 0 0)
        (sampleWorld [sampleRow "appt-0001" 0 3600000 Status.cancelled none 4])).2).1 =
      .ok (Response.already_cancelled "appt-0001") ∧
    (handleCancel calmEnv (sampleCommand "cancel" "appt-0001" 0 0)
      (handleCancel calmEnv (sampleCommand "cancel" "appt-0001" 0 0)
        (sampleWorld [sampleRow "appt-0001" 0 3600000 Status.cancelled none 4])).2).2.db =
      (sampleWorld [sampleRow "appt-0001" 0 3600000 Status.cancelled none 4]).db :=
  cancel_idempotent calmEnv calmEnv (sampleCommand "cancel" "appt-0001" 0 0)
    (sampleCommand "cancel" "appt-0001" 0 0)
    (sampleWorld [sampleRow "appt-0001" 0 3600000 Status.cancelled none 4])
    (sampleRow "appt-0001" 0 3600000 Status.cancelled none 4) rfl rfl rfl (by decide) rfl

/-- C9, as amended. For every modify command that targets a cancelled reservation and whose
requested range intersects no active reservation, modify fails with invalid_state
(HTTP 409) and leaves the store unchanged (provided the conflict read succeeds within
its three attempts and the store raises no fault). -/
theorem modify_cancelled_invalid_state (env : Env) (payload : Payload) (w : World)
    (r : Appointment) (hq : ∃ n, 1 ≤ n ∧ n ≤ 3 ∧ env.queryFault n = none)
    (htx : env.txFault = none)
    (hf : w.db.appointments.filter (fun x => x.id = payload.appointmentId) = [r])
    (hs : r.status = Status.cancelled)
    (hfree : ∀ x ∈ w.db.appointments,
      (x.status = Status.pending_approval ∨ x.status = Status.confirmed) →
      ¬Intersect x.start_time x.end_time payload.requestedStart
        (addMinutes payload.requestedStart payload.durationMinutes)) :
    (handleModify env payload w).1 =
      .error (JsError.HttpError 409 "Cannot modify a cancelled appointment" "invalid_state") ∧
    (handleModify env payload w).2.db = w.db := by
  obtain ⟨k, _, _, hfc⟩ := findConflict_ok env payload.requestedStart
    (addMinutes payload.requestedStart payload.durationMinutes) (some payload.appointmentId) w hq
  have hnone := overlapRangeQuery_none w.db.appointments payload.requestedStart
    (addMinutes payload.requestedStart payload.durationMinutes)
    (fun x hx ha => by
      have := hfree x hx ((active_iff x).mp ha)
      unfold Intersect at this
      rw [← rangesOverlap_iff] at this
      simpa using this) (some payload.appointmentId)
  have hmt : modifyTransaction env payload w.db =
      .error (JsError.HttpError 409 "Cannot modify a cancelled appointment" "invalid_state") := by
    unfold modifyTransaction
    rw [getAppointmentForUpdate_of_filter hf]
    simp only [hs, if_true]
  unfold handleModify
  simp only [hfc, hnone, withTransaction, htx, hmt]
  constructor <;> rfl

theorem modify_cancelled_invalid_state_witness :
    (handleModify calmEnv (sampleCommand "modify" "appt-0001" 7200000 60)
      (sampleWorld [sampleRow "appt-0001" 0 3600000 Status.cancelled none 4])).1 =
      .error (JsError.HttpError 409 "Cannot modify a cancelled appointment" "invalid_state") ∧
    (handleModify calmEnv (sampleCommand "modify" "appt-0001" 7200000 60)
      (sampleWorld [sampleRow "appt-0001" 0 3600000 Status.cancelled none 4])).2.db =
      (sampleWorld [sampleRow "appt-0001" 0 3600000 Status.cancelled none 4]).db :=
  modify_cancelled_invalid_state calmEnv (sampleCommand "modify" "appt-0001" 7200000 60)
    (sampleWorld [sampleRow "appt-0001" 0 3600000 Status.cancelled none 4])
    (sampleRow "appt-0001" 0 3600000 Status.cancelled none 4)
    ⟨1, by decide, by decide, rfl⟩ rfl (by decide) rfl (by
      intro x hx hact
      rw [show x = sampleRow "appt-0001" 0 3600000 Status.cancelled none 4 by
        simpa [sampleWorld] using hx] at hact
      simp [sampleRow] at hact)

/-- C9, counterexample. A modify command targets the cancelled reservation appt-0001 and asks
for the hour held by the confirmed reservation appt-0002: modify does not fail with
invalid_state, it returns the conflict response. -/
theorem modify_cancelled_conflict :
    (sampleWorld [sampleRow "appt-0001" 0 3600000 Status.cancelled none 4,
      sampleRow "appt-0002" 7200000 10800000 Status.confirmed none 2]).db.appointments.filter
      (fun x => x.id = "appt-0001") = [sampleRow "appt-0001" 0 3600000 Status.cancelled none 4] ∧
    (handleModify calmEnv (sampleCommand "modify" "appt-0001" 7200000 60)
      (sampleWorld [sampleRow "appt-0001" 0 3600000 Status.cancelled none 4,
        sampleRow "appt-0002" 7200000 10800000 Status.confirmed none 2])).1 =
      .ok (Response.conflict "modify" 7200000 none) := by
  decide

/-- C10. For every book command whose range [requestedStart, requestedStart +
durationMinutes) intersects an active reservation, when the conflict read succeeds within
its three attempts and getNextAvailable returns t (an instant or null), handleBook returns
the conflict response with action book, requestedTime requestedStart and proposedTime t;
the store is unchanged and the only external calls are the conflict read attempts and
the availability lookup, so no transaction is opened. -/
theorem book_conflict_response (env : Env) (payload : Payload) (w : World) (t : Option Int)
    (hq : ∃ n, 1 ≤ n ∧ n ≤ 3 ∧ env.queryFault n = none)
    (hp : payload.action = "book")
    (hnext : env.getNextAvailable w.db.appointments payload.requestedStart
      payload.durationMinutes none = .ok t)
    (hbusy : ∃ x ∈ w.db.appointments,
      (x.status = Status.pending_approval ∨ x.status = Status.confirmed) ∧
      Intersect x.start_time x.end_time payload.requestedStart
        (addMinutes payload.requestedStart payload.durationMinutes)) :
    ∃ k, 1 ≤ k ∧ k ≤ 3 ∧ handleBook env payload w =
      (.ok (Response.conflict "book" payload.requestedStart t),
        { db := w.db,
          trace := w.trace ++ List.replicate k Event.query ++ [Event.getNextAvailable] }) := by
  obtain ⟨k, hk1, hk3, hfc⟩ := findConflict_ok env payload.requestedStart
    (addMinutes payload.requestedStart payload.durationMinutes) none w hq
  obtain ⟨c, hc⟩ := overlapRangeQuery_some w.db.appointments payload.requestedStart
    (addMinutes payload.requestedStart payload.durationMinutes) (by
      obtain ⟨x, hx, ha, hi⟩ := hbusy
      exact ⟨x, hx, (active_iff x).mpr ha, (rangesOverlap_iff _ _ _ _).mpr hi⟩)
  refine ⟨k, hk1, hk3, ?_⟩
  unfold handleBook
  simp only [hfc, hc, buildConflictResponse, hnext, hp]

theorem book_conflict_response_witness :
    ∃ k, 1 ≤ k ∧ k ≤ 3 ∧
      handleBook lookAheadEnv (sampleCommand "book" "" 1772370000000 60)
        (sampleWorld [sampleRow "existing-appt" 1772370000000 1772373600000
          Status.confirmed none 2]) =
      (.ok (Response.conflict "book" 1772370000000 (some 1772443800000)),
        { db := (sampleWorld [sampleRow "existing-appt" 1772370000000 1772373600000
            Status.confirmed none 2]).db,
          trace := [] ++ List.replicate k Event.query ++ [Event.getNextAvailable] }) :=
  book_conflict_response lookAheadEnv (sampleCommand "book" "" 1772370000000 60)
    (sampleWorld [sampleRow "existing-appt" 1772370000000 1772373600000
      Status.confirmed none 2]) (some 1772443800000)
    ⟨1, by decide, by decide, rfl⟩ rfl rfl
    ⟨sampleRow "existing-appt" 1772370000000 1772373600000 Status.confirmed none 2,
      by decide, Or.inr rfl, 1772370000000, by decide, by decide, by decide, by decide⟩

/-! ### Faults around the booking transaction -/

theorem buildConflictResponse_response (env : Env) (payload : Payload) (start : Int) (d : Nat)
    (x : Option String) (w w1 : World) (h : w1.db = w.db) :
    (buildConflictResponse env payload start d x w1).1 =
      (buildConflictResponse env payload start d x w).1 := by
  unfold buildConflictResponse
  rw [h]
  split <;> rfl

/-- C11. When the pre-write check finds no conflict and the booking transaction then fails
with error e (raised by the store while it runs, or by one of its statements): if e
carries code 23P01, handleBook answers what the pre-write conflict path answers on the
same store, the conflict response with the time getNextAvailable proposes; for any other
e, handleBook fails with e itself. In both cases the store is left unchanged. -/
theorem book_transaction_failure (env : Env) (payload : Payload) (w : World) (e : JsError)
    (hq : ∃ n, 1 ≤ n ∧ n ≤ 3 ∧ env.queryFault n = none)
    (hfree : ∀ x ∈ w.db.appointments,
      (x.status = Status.pending_approval ∨ x.status = Status.confirmed) →
      ¬Intersect x.start_time x.end_time payload.requestedStart
        (addMinutes payload.requestedStart payload.durationMinutes))
    (htx : env.txFault = some e ∨
      (env.txFault = none ∧ bookTransaction env payload w.db = .error e)) :
    (e.code = some "23P01" →
      (handleBook env payload w).1 =
        (buildConflictResponse env payload payload.requestedStart payload.durationMinutes
          none w).1 ∧
      ∀ t, env.getNextAvailable w.db.appointments payload.requestedStart
          payload.durationMinutes none = .ok t →
        (handleBook env payload w).1 =
          .ok (Response.conflict payload.action payload.requestedStart t)) ∧
    (e.code ≠ some "23P01" → (handleBook env payload w).1 = .error e) ∧
    (handleBook env payload w).2.db = w.db := by
  obtain ⟨k, _, _, hfc⟩ := findConflict_ok env payload.requestedStart
    (addMinutes payload.requestedStart payload.durationMinutes) none w hq
  have hnone := overlapRangeQuery_none w.db.appointments payload.requestedStart
    (addMinutes payload.requestedStart payload.durationMinutes)
    (fun x hx ha => by
      have := hfree x hx ((active_iff x).mp ha)
      unfold Intersect at this
      rw [← rangesOverlap_iff] at this
      simpa using this) none
  have hwt : ∃ w2, w2.db = w.db ∧
      withTransaction env (bookTransaction env payload)
        { w with trace := w.trace ++ List.replicate k Event.query } = (.error e, w2) := by
    refine ⟨{ db := w.db, trace := w.trace ++ List.replicate k Event.query ++
      [Event.transaction false] }, rfl, ?_⟩
    rcases htx with h | ⟨h1, h2⟩
    · simp [withTransaction, h]
    · simp [withTransaction, h1, h2]
  obtain ⟨w2, hw2, hwt⟩ := hwt
  have hb : handleBook env payload w =
      if e.code = some "23P01" then
        buildConflictResponse env payload payload.requestedStart payload.durationMinutes none w2
      else (.error e, w2) := by
    unfold handleBook
    simp only [hfc, hnone, hwt]
  rw [hb]
  refine ⟨fun hc => ?_, fun hc => ?_, ?_⟩
  · rw [if_pos hc]
    refine ⟨buildConflictResponse_response env payload _ _ none w w2 hw2, fun t ht => ?_⟩
    unfold buildConflictResponse
    rw [hw2, ht]
  · rw [if_neg hc]
  · split
    · rw [buildConflictResponse_db, hw2]
    · exact hw2

theorem book_transaction_failure_witness :
    (handleBook (txFaultEnv (pgError "23P01")) (sampleCommand "book" "" 0 60)
      (sampleWorld [])).1 = .ok (Response.conflict "book" 0 none) ∧
    (handleBook (txFaultEnv (pgError "23P01")) (sampleCommand "book" "" 0 60)
      (sampleWorld [])).2.db = (sampleWorld []).db :=
  ⟨((book_transaction_failure (txFaultEnv (pgError "23P01")) (sampleCommand "book" "" 0 60)
      (sampleWorld []) (pgError "23P01") ⟨1, by decide, by decide, rfl⟩
      (fun x hx => by simp [sampleWorld] at hx) (Or.inl rfl)).1 rfl).2 none rfl,
   (book_transaction_failure (txFaultEnv (pgError "23P01")) (sampleCommand "book" "" 0 60)
      (sampleWorld []) (pgError "23P01") ⟨1, by decide, by decide, rfl⟩
      (fun x hx => by simp [sampleWorld] at hx) (Or.inl rfl)).2.2⟩

/-! ### Bounded retry -/

/-- What `pRetry` with two retries does, by the outcome of the first three attempts. -/
theorem pRetry_two {α : Type} (attempt : Nat → Except JsError α) :
    pRetry attempt 2 1 =
      match attempt 1 with
      | .ok a => (.ok a, 1)
      | .error _ =>
        match attempt 2 with
        | .ok a => (.ok a, 2)
        | .error _ => (attempt 3, 3) := by
  unfold pRetry
  cases attempt 1 with
  | ok a => rfl
  | error e =>
    unfold pRetry
    cases attempt 2 <;> rfl

/-- C12. Bounded retry of the conflict read. (1) findConflict makes between one and three
query calls and nothing else. (2) If attempt n (n ≤ 3) is the first that does not reject,
findConflict returns that attempt's row (or null) after exactly n calls. (3) If all three
attempts reject, findConflict rejects with the error of the third attempt, as it was
raised, after exactly three calls. (4) A read that rejects twice and then succeeds lets
the booking complete: when no active reservation intersects the request, the transaction
commits and the push is delivered, handleBook returns the pending response. -/
theorem findConflict_bounded_retry (env : Env) (start stop : Int) (x : Option String)
    (w : World) :
    (∃ k, 1 ≤ k ∧ k ≤ 3 ∧ (findConflict env start stop x w).2 =
      { w with trace := w.trace ++ List.replicate k Event.query }) ∧
    (∀ n, 1 ≤ n → n ≤ 3 → env.queryFault n = none →
      (∀ m, 1 ≤ m → m < n → env.queryFault m ≠ none) →
      findConflict env start stop x w =
        (.ok (overlapRangeQuery w.db.appointments start stop x).head?,
          { w with trace := w.trace ++ List.replicate n Event.query })) ∧
    (∀ e1 e2 e3, env.queryFault 1 = some e1 → env.queryFault 2 = some e2 →
      env.queryFault 3 = some e3 →
      findConflict env start stop x w =
        (.error e3, { w with trace := w.trace ++ List.replicate 3 Event.query })) ∧
    (∀ (payload : Payload) e1 e2 row db1,
      env.queryFault 1 = some e1 → env.queryFault 2 = some e2 → env.queryFault 3 = none →
      (∀ r ∈ w.db.appointments,
        (r.status = Status.pending_approval ∨ r.status = Status.confirmed) →
        ¬Intersect r.start_time r.end_time payload.requestedStart
          (addMinutes payload.requestedStart payload.durationMinutes)) →
      env.txFault = none → bookTransaction env payload w.db = .ok (row, db1) →
      env.pushFault = none →
      handleBook env payload w =
        (.ok (Response.pending_toney_approval PendingAction.book row.id row.version
            (some row.start_time) (some row.end_time)),
          { db := db1,
            trace := w.trace ++ [Event.query, Event.query, Event.query] ++
              [Event.transaction true] ++
              [Event.sendPendingApproval row.id PendingAction.book] })) := by
  refine ⟨?_, ?_, ?_, ?_⟩
  · unfold findConflict
    rw [pRetry_two]
    cases env.queryFault 1 with
    | none => exact ⟨1, by omega, by omega, rfl⟩
    | some e1 =>
      cases env.queryFault 2 with
      | none => exact ⟨2, by omega, by omega, rfl⟩
      | some e2 => exact ⟨3, by omega, by omega, rfl⟩
  · intro n h1 h3 hn hfirst
    unfold findConflict
    rw [pRetry_two]
    have hcases : n = 1 ∨ n = 2 ∨ n = 3 := by omega
    rcases hcases with rfl | rfl | rfl
    · simp only [hn]
    · have hq1 := hfirst 1 (by omega) (by omega)
      cases h : env.queryFault 1 with
      | none => exact absurd h hq1
      | some e1 => simp only [hn]
    · have hq1 := hfirst 1 (by omega) (by omega)
      have hq2 := hfirst 2 (by omega) (by omega)
      cases h : env.queryFault 1 with
      | none => exact absurd h hq1
      | some e1 =>
        cases h2 : env.queryFault 2 with
        | none => exact absurd h2 hq2
        | some e2 => simp only [hn]
  · intro e1 e2 e3 h1 h2 h3
    unfold findConflict
    rw [pRetry_two]
    simp only [h1, h2, h3]
  · intro payload e1 e2 row db1 h1 h2 h3 hfree htx hcb hpush
    have hnone := overlapRangeQuery_none w.db.appointments payload.requestedStart
      (addMinutes payload.requestedStart payload.durationMinutes)
      (fun r hr ha => by
        have := hfree r hr ((active_iff r).mp ha)
        unfold Intersect at this
        rw [← rangesOverlap_iff] at this
        simpa using this) none
    have hfc : findConflict env payload.requestedStart
        (addMinutes payload.requestedStart payload.durationMinutes) none w =
        (.ok none, { w with trace := w.trace ++ List.replicate 3 Event.query }) := by
      unfold findConflict
      rw [pRetry_two]
      simp only [h1, h2, h3, hnone]
    unfold handleBook
    simp only [hfc, withTransaction, htx, hcb, notifyPending, hpush]
    rfl

theorem findConflict_bounded_retry_witness :
    findConflict deadReadEnv 0 3600000 none (sampleWorld []) =
      (.error (JsError.Error "timeout" none),
        { sampleWorld [] with
          trace := (sampleWorld []).trace ++ List.replicate 3 Event.query }) ∧
    findConflict flakyReadEnv 0 3600000 none (sampleWorld []) =
      (.ok (overlapRangeQuery (sampleWorld []).db.appointments 0 3600000 none).head?,
        { sampleWorld [] with
          trace := (sampleWorld []).trace ++ List.replicate 3 Event.query }) :=
  ⟨(findConflict_bounded_retry deadReadEnv 0 3600000 none (sampleWorld [])).2.2.1
      _ _ _ rfl rfl rfl,
   (findConflict_bounded_retry flakyReadEnv 0 3600000 none (sampleWorld [])).2.1
      3 (by decide) (by decide) rfl (fun m h1 h2 => by
        have : m = 1 ∨ m = 2 := by omega
        rcases this with rfl | rfl <;> decide)⟩

/-! ### Webhook delivery -/

/-- The outcome of the webhook step: the flag, the store and the calls made. -/
theorem deliverWebhook_spec (env : Env) (url : Option String) (w : World) :
    ((deliverWebhook env url w).1 = true ↔
      (truthy url = true ∧ ∃ n, 1 ≤ n ∧ n ≤ 3 ∧ env.webhookFault n = none)) ∧
    ∃ k, k ≤ 3 ∧ (deliverWebhook env url w).2 =
      { w with trace := w.trace ++ List.replicate k (Event.postConfirmation (url.getD "")) } := by
  unfold deliverWebhook
  by_cases ht : truthy url = true
  · simp only [ht, if_true, true_and]
    rw [pRetry_two]
    cases h1 : env.webhookFault 1 with
    | none => exact ⟨⟨fun _ => ⟨1, by omega, by omega, h1⟩, fun _ => rfl⟩, 1, by omega, rfl⟩
    | some e1 =>
      cases h2 : env.webhookFault 2 with
      | none => exact ⟨⟨fun _ => ⟨2, by omega, by omega, h2⟩, fun _ => rfl⟩, 2, by omega, rfl⟩
      | some e2 =>
        cases h3 : env.webhookFault 3 with
        | none =>
          exact ⟨⟨fun _ => ⟨3, by omega, by omega, h3⟩, fun _ => rfl⟩, 3, by omega, rfl⟩
        | some e3 =>
          refine ⟨⟨fun h => by simp at h, ?_⟩, 3, by omega, rfl⟩
          rintro ⟨n, hn1, hn3, hn⟩
          have : n = 1 ∨ n = 2 ∨ n = 3 := by omega
          rcases this with rfl | rfl | rfl
          · rw [h1] at hn; cases hn
          · rw [h2] at hn; cases hn
          · rw [h3] at hn; cases hn
  · simp only [ht, Bool.false_eq_true, if_false, false_and, iff_false, not_false_eq_true,
      true_and]
    exact ⟨0, by omega, by simp⟩

/-- The row an approval transaction returns is a row of the store it commits. -/
theorem approveTransaction_row_mem {env : Env} {a : Approval} {db db1 : Db}
    {row : Appointment} (ht : approveTransaction env a db = .ok (row, db1)) :
    row ∈ db1.appointments := by
  unfold approveTransaction at ht
  split at ht
  · cases ht
  · split at ht
    · cases ht
    · simp only at ht
      split at ht
      · cases ht
      · rename_i rows r hup
        injection ht with ht
        injection ht with h1 h2
        subst h1 h2
        unfold updateAppointment at hup
        simp only at hup
        split at hup
        · cases hup
        · injection hup with hup
          injection hup with hu1 hu2
          subst hu1
          have hm : r ∈ [r] := List.mem_singleton.mpr rfl
          rw [← hu2, List.mem_map] at hm
          obtain ⟨x, hx, hxr⟩ := hm
          rw [List.mem_filter] at hx
          rw [List.mem_map]
          exact ⟨x, hx.1, by simp only [hx.2, if_true]; exact hxr⟩
      · cases ht

/-- C13. Webhook delivery never affects the approval outcome. For every approval whose
transaction commits with row `row`, whatever the delivery attempts do:
confirmPendingAppointment returns approval_resolved with the id, status and version of
the committed row, which is in the store; the store is the committed one; at most three
deliveries are attempted and nothing else happens; and webhookDelivered is true exactly
when the row has a webhook url and one of the three attempts does not reject. -/
theorem webhook_never_affects_outcome (env : Env) (a : Approval) (w : World)
    (row : Appointment) (db1 : Db) (htx : env.txFault = none)
    (hcommit : approveTransaction env a w.db = .ok (row, db1)) :
    ∃ delivered k,
      confirmPendingAppointment env a w =
        (.ok (Response.approval_resolved row.id row.status row.version delivered),
          { db := db1,
            trace := w.trace ++ [Event.transaction true] ++
              List.replicate k (Event.postConfirmation (row.confirmation_webhook_url.getD "")) }) ∧
      k ≤ 3 ∧ row ∈ db1.appointments ∧
      (delivered = true ↔
        (truthy row.confirmation_webhook_url = true ∧
          ∃ n, 1 ≤ n ∧ n ≤ 3 ∧ env.webhookFault n = none)) := by
  obtain ⟨hflag, k, hk, hw⟩ := deliverWebhook_spec env row.confirmation_webhook_url
    { db := db1, trace := w.trace ++ [Event.transaction true] }
  refine ⟨_, k, ?_, hk, approveTransaction_row_mem hcommit, hflag⟩
  unfold confirmPendingAppointment withTransaction
  rw [htx]
  simp only [hcommit]
  rw [hw]

theorem webhook_never_affects_outcome_witness :
    ∃ delivered k,
      confirmPendingAppointment flakyWebhookEnv hookApproval (sampleWorld [hookRow]) =
        (.ok (Response.approval_resolved
            (approveSet flakyWebhookEnv hookApproval Status.confirmed hookRow).id
            (approveSet flakyWebhookEnv hookApproval Status.confirmed hookRow).status
            (approveSet flakyWebhookEnv hookApproval Status.confirmed hookRow).version delivered),
          { db := { appointments :=
                      [approveSet flakyWebhookEnv hookApproval Status.confirmed hookRow],
                    clients := [] },
            trace := (sampleWorld [hookRow]).trace ++ [Event.transaction true] ++
              List.replicate k (Event.postConfirmation
                ((approveSet flakyWebhookEnv hookApproval Status.confirmed
                  hookRow).confirmation_webhook_url.getD "")) }) ∧
      k ≤ 3 ∧
      approveSet flakyWebhookEnv hookApproval Status.confirmed hookRow ∈
        [approveSet flakyWebhookEnv hookApproval Status.confirmed hookRow] ∧
      (delivered = true ↔
        (truthy (approveSet flakyWebhookEnv hookApproval Status.confirmed
            hookRow).confirmation_webhook_url = true ∧
          ∃ n, 1 ≤ n ∧ n ≤ 3 ∧ flakyWebhookEnv.webhookFault n = none)) :=
  webhook_never_affects_outcome flakyWebhookEnv hookApproval (sampleWorld [hookRow])
    (approveSet flakyWebhookEnv hookApproval Status.confirmed hookRow)
    { appointments := [approveSet flakyWebhookEnv hookApproval Status.confirmed hookRow],
      clients := [] }
    rfl (by decide)

/-! ### The approval-channel push -/

/-- C14, the code at the failing input. With a push gateway that rejects: a book command for
a free hour commits a new reservation at version 1, yet handleBook rejects with the push
error; a cancel command on a confirmed reservation commits (pending_approval, version 3),
yet handleCancel rejects with the push error; a modify command likewise. -/
theorem push_failure_fails_committed_operation :
    (handleBook pushDownEnv (sampleCommand "book" "" 0 60) (sampleWorld [])).1 =
      .error (JsError.Error "push gateway unavailable" none) ∧
    (handleBook pushDownEnv (sampleCommand "book" "" 0 60)
      (sampleWorld [])).2.db.appointments.map (fun r => (r.id, r.status, r.version)) =
      [("appt-new", Status.pending_approval, 1)] ∧
    (handleCancel pushDownEnv (sampleCommand "cancel" "appt-0001" 0 0)
      (sampleWorld [sampleRow "appt-0001" 0 3600000 Status.confirmed none 2])).1 =
      .error (JsError.Error "push gateway unavailable" none) ∧
    (handleCancel pushDownEnv (sampleCommand "cancel" "appt-0001" 0 0)
      (sampleWorld [sampleRow "appt-0001" 0 3600000 Status.confirmed none
        2])).2.db.appointments.map (fun r => (r.id, r.status, r.version)) =
      [("appt-0001", Status.pending_approval, 3)] ∧
    (handleModify pushDownEnv (sampleCommand "modify" "appt-0001" 7200000 60)
      (sampleWorld [sampleRow "appt-0001" 0 3600000 Status.confirmed none 2])).1 =
      .error (JsError.Error "push gateway unavailable" none) ∧
    (handleModify pushDownEnv (sampleCommand "modify" "appt-0001" 7200000 60)
      (sampleWorld [sampleRow "appt-0001" 0 3600000 Status.confirmed none
        2])).2.db.appointments.map (fun r => (r.id, r.status, r.version, r.start_time)) =
      [("appt-0001", Status.pending_approval, 3, 7200000)] := by
  decide

/-! ### Version discipline -/

/-- A committed cancel rewrites rows by a map that keeps ids and, on each row of the table,
either changes nothing or adds one to the version. -/
theorem cancelTransaction_versions {env : Env} {payload : Payload} {db db1 : Db}
    {a : Bool × Option Appointment}
    (ht : cancelTransaction env payload db = .ok (a, db1)) :
    ∃ g : Appointment → Appointment, db1.appointments = db.appointments.map g ∧
      (∀ x, (g x).id = x.id) ∧
      (∀ x ∈ db.appointments, g x = x ∨ (g x).version = x.version + 1) := by
  unfold cancelTransaction at ht
  split at ht
  · cases ht
  · rename_i existing hget
    split at ht
    · injection ht with ht
      injection ht with _ ht
      subst ht
      exact ⟨id, by simp, fun _ => rfl, fun _ _ => Or.inl rfl⟩
    · split at ht
      · cases ht
      · rename_i rows returned hup
        injection ht with ht
        injection ht with _ ht
        subst ht
        refine ⟨_, updateAppointment_rows hup, ?_, ?_⟩
        · intro x; split <;> rfl
        · intro x hx
          have hf := getAppointmentForUpdate_ok hget
          by_cases hid : x.id = payload.appointmentId
          · have := eq_of_filter_id hf hx hid
            subst this
            right
            simp [hid, cancelSet]
          · left; simp [hid]

/-- A committed modify rewrites rows in the same way. -/
theorem modifyTransaction_versions {env : Env} {payload : Payload} {db db1 : Db}
    {a : Option Appointment}
    (ht : modifyTransaction env payload db = .ok (a, db1)) :
    ∃ g : Appointment → Appointment, db1.appointments = db.appointments.map g ∧
      (∀ x, (g x).id = x.id) ∧
      (∀ x ∈ db.appointments, g x = x ∨ (g x).version = x.version + 1) := by
  unfold modifyTransaction at ht
  split at ht
  · cases ht
  · rename_i existing hget
    split at ht
    · cases ht
    · split at ht
      · cases ht
      · rename_i rows returned hup
        injection ht with ht
        injection ht with _ ht
        subst ht
        refine ⟨_, updateAppointment_rows hup, ?_, ?_⟩
        · intro x; split <;> rfl
        · intro x hx
          have hf := getAppointmentForUpdate_ok hget
          by_cases hid : x.id = payload.appointmentId
          · have := eq_of_filter_id hf hx hid
            subst this
            right
            simp [hid, modifySet]
          · left; simp [hid]

/-- A committed approval rewrites rows in the same way. -/
theorem approveTransaction_versions {env : Env} {a : Approval} {db db1 : Db}
    {row : Appointment} (ht : approveTransaction env a db = .ok (row, db1)) :
    ∃ g : Appointment → Appointment, db1.appointments = db.appointments.map g ∧
      (∀ x, (g x).id = x.id) ∧
      (∀ x ∈ db.appointments, g x = x ∨ (g x).version = x.version + 1) := by
  unfold approveTransaction at ht
  split at ht
  · cases ht
  · rename_i existing hget
    split at ht
    · cases ht
    · simp only at ht
      split at ht
      · cases ht
      · rename_i rows r hup
        injection ht with ht
        injection ht with _ ht
        subst ht
        refine ⟨_, updateAppointment_rows hup, ?_, ?_⟩
        · intro x; split <;> rfl
        · intro x _
          split
          · right; rfl
          · left; rfl
      · cases ht

/-- A committed booking appends one row whose id was not in the table. -/
theorem bookTransaction_fresh {env : Env} {payload : Payload} {db db1 : Db} {a : Appointment}
    (ht : bookTransaction env payload db = .ok (a, db1)) :
    ∀ x ∈ db.appointments, x.id ≠ a.id := by
  unfold bookTransaction at ht
  split at ht
  · cases ht
  · simp only at ht
    split at ht
    · cases ht
    · rename_i rows hins
      injection ht with ht
      injection ht with h1 h2
      subst h1
      unfold insertAppointment at hins
      split at hins
      · cases hins
      · rename_i hany
        intro x hx hid
        apply hany
        rw [List.any_eq_true]
        exact ⟨x, hx, by simpa using hid⟩

/-- The row carrying an id after a rewrite that keeps ids. -/
theorem filter_id_map {rows : List Appointment} {id : String} {r : Appointment}
    (g : Appointment → Appointment) (hf : rows.filter (fun x => x.id = id) = [r])
    (hid : ∀ x, (g x).id = x.id) :
    (rows.map g).filter (fun x => x.id = id) = [g r] := by
  rw [List.filter_map]
  have hcomp : ((fun x : Appointment => decide (x.id = id)) ∘ g) =
      (fun x => decide (x.id = id)) := by
    funext x
    simp only [Function.comp, hid]
  rw [hcomp, hf]
  rfl

/-- One operation keeps the row that carries an id unique, and either leaves it as it was
or adds one to its version. -/
theorem step_version (env : Env) (op : Operation) (w : World) (r : Appointment)
    (hf : w.db.appointments.filter (fun x => x.id = r.id) = [r]) :
    ∃ r1, (step env op w).2.db.appointments.filter (fun x => x.id = r.id) = [r1] ∧
      (r1 = r ∨ r1.version = r.version + 1) := by
  have hmem := (mem_of_filter_id hf).1
  have hmap : ∀ (g : Appointment → Appointment) (db1 : Db),
      db1.appointments = w.db.appointments.map g → (∀ x, (g x).id = x.id) →
      (∀ x ∈ w.db.appointments, g x = x ∨ (g x).version = x.version + 1) →
      ∃ r1, db1.appointments.filter (fun x => x.id = r.id) = [r1] ∧
        (r1 = r ∨ r1.version = r.version + 1) := by
    intro g db1 h1 h2 h3
    exact ⟨g r, by rw [h1]; exact filter_id_map g hf h2, h3 r hmem⟩
  have hbook : ∀ (payload : Payload) (a : Appointment) (db1 : Db),
      bookTransaction env payload w.db = .ok (a, db1) →
      ∃ r1, db1.appointments.filter (fun x => x.id = r.id) = [r1] ∧
        (r1 = r ∨ r1.version = r.version + 1) := by
    intro payload a db1 ht
    refine ⟨r, ?_, Or.inl rfl⟩
    rw [bookTransaction_rows ht, List.filter_append, hf]
    have hne : a.id ≠ r.id := fun h => bookTransaction_fresh ht r hmem h.symm
    simp [List.filter, hne]
  cases op with
  | agent payload =>
    refine handleAgentAction_db env payload w
      (fun db => ∃ r1, db.appointments.filter (fun x => x.id = r.id) = [r1] ∧
        (r1 = r ∨ r1.version = r.version + 1)) ⟨r, hf, Or.inl rfl⟩ ?_ ?_ ?_
    · intro a db ht
      exact hbook payload a db ht
    · intro a db ht
      obtain ⟨g, h1, h2, h3⟩ := cancelTransaction_versions ht
      exact hmap g db h1 h2 h3
    · intro a db ht
      obtain ⟨g, h1, h2, h3⟩ := modifyTransaction_versions ht
      exact hmap g db h1 h2 h3
  | approve a =>
    refine confirmPendingAppointment_db env a w
      (fun db => ∃ r1, db.appointments.filter (fun x => x.id = r.id) = [r1] ∧
        (r1 = r ∨ r1.version = r.version + 1)) ⟨r, hf, Or.inl rfl⟩ ?_
    intro row db ht
    obtain ⟨g, h1, h2, h3⟩ := approveTransaction_versions ht
    exact hmap g db h1 h2 h3

/-- Along any sequence of operations the version of a reservation does not decrease. -/
theorem run_version_le (ops : List (Env × Operation)) (w : World) (r : Appointment)
    (hf : w.db.appointments.filter (fun x => x.id = r.id) = [r]) :
    ∃ r1, (run ops w).db.appointments.filter (fun x => x.id = r.id) = [r1] ∧
      r.version ≤ r1.version := by
  induction ops generalizing w r with
  | nil => exact ⟨r, hf, le_refl _⟩
  | cons head rest ih =>
    obtain ⟨env, op⟩ := head
    obtain ⟨r1, hf1, hv⟩ := step_version env op w r hf
    have hid : r1.id = r.id := (mem_of_filter_id hf1).2
    obtain ⟨r2, hf2, hle⟩ := ih (step env op w).2 r1 (by rw [hid]; exact hf1)
    refine ⟨r2, by rw [← hid]; exact hf2, ?_⟩
    rcases hv with rfl | hv
    · exact hle
    · omega

/-- A transaction that rejects leaves the store as it was. -/
theorem withTransaction_error_db {α : Type} {env : Env} {cb : Db → Except JsError (α × Db)}
    {w w2 : World} {e : JsError} (h : withTransaction env cb w = (.error e, w2)) :
    w2.db = w.db := by
  unfold withTransaction at h
  split at h
  · injection h with _ h2; rw [← h2]
  · split at h
    · injection h with h1 _; cases h1
    · injection h with _ h2; rw [← h2]

/-- A transaction that resolves has run its callback on the store and committed its result. -/
theorem withTransaction_ok_inv {α : Type} {env : Env} {cb : Db → Except JsError (α × Db)}
    {w w2 : World} {a : α} (h : withTransaction env cb w = (.ok a, w2)) :
    env.txFault = none ∧ cb w.db = .ok (a, w2.db) := by
  unfold withTransaction at h
  split at h
  · injection h with h1 _; cases h1
  · rename_i htx
    split at h
    · rename_i a1 db1 hcb
      injection h with h1 h2
      injection h1 with h1
      subst h1 h2
      exact ⟨htx, hcb⟩
    · injection h with h1 _; cases h1

theorem buildConflictResponse_reportsCommit (env : Env) (payload : Payload) (start : Int)
    (d : Nat) (x : Option String) (w : World) :
    reportsCommit (buildConflictResponse env payload start d x w).1 = false := by
  unfold buildConflictResponse
  split <;> rfl

/-- When the push does not fail, book either reports a commit or leaves the store as it was. -/
theorem handleBook_unchanged_or_commit (env : Env) (payload : Payload) (w : World)
    (hpush : env.pushFault = none) :
    (handleBook env payload w).2.db = w.db ∨
      reportsCommit (handleBook env payload w).1 = true := by
  unfold handleBook
  simp only
  rcases hfc : findConflict env payload.requestedStart
    (addMinutes payload.requestedStart payload.durationMinutes) none w with ⟨r, w1⟩
  have hw1 : w1.db = w.db := by
    have := findConflict_db env payload.requestedStart
      (addMinutes payload.requestedStart payload.durationMinutes) none w
    rw [hfc] at this; exact this
  rcases r with e | c
  · left; exact hw1
  · cases c with
    | some c => left; simp only; rw [buildConflictResponse_db]; exact hw1
    | none =>
      simp only
      rcases htx : withTransaction env (bookTransaction env payload) w1 with ⟨r2, w2⟩
      rcases r2 with e | row
      · left
        have hw2 : w2.db = w.db := by rw [withTransaction_error_db htx, hw1]
        simp only
        split
        · rw [buildConflictResponse_db]; exact hw2
        · exact hw2
      · right
        simp only [notifyPending, hpush]
        rfl

/-- When the push does not fail, cancel either reports a commit or leaves the store as it
was. -/
theorem handleCancel_unchanged_or_commit (env : Env) (payload : Payload) (w : World)
    (hpush : env.pushFault = none) :
    (handleCancel env payload w).2.db = w.db ∨
      reportsCommit (handleCancel env payload w).1 = true := by
  unfold handleCancel
  rcases htx : withTransaction env (cancelTransaction env payload) w with ⟨r, w1⟩
  rcases r with e | ⟨b, row⟩
  · left; exact withTransaction_error_db htx
  · have hinv := (withTransaction_ok_inv htx).2
    cases row with
    | none =>
      exfalso
      unfold cancelTransaction at hinv
      split at hinv
      · cases hinv
      · split at hinv
        · cases hinv
        · split at hinv
          · cases hinv
          · rename_i existing hget _ _ rows returned hup
            injection hinv with hinv
            injection hinv with h1 _
            injection h1 with _ h1
            have hf := getAppointmentForUpdate_ok hget
            unfold updateAppointment at hup
            simp only at hup
            split at hup
            · cases hup
            · injection hup with hup
              injection hup with _ hu2
              rw [filter_hit_of_unique (fun _ => true) hf] at hu2
              simp only [if_true, List.map_cons, List.map_nil] at hu2
              rw [← hu2] at h1
              cases h1
    | some row =>
      cases b
      · right
        simp only [notifyPending, hpush]
        rfl
      · left
        simp only
        unfold cancelTransaction at hinv
        split at hinv
        · cases hinv
        · split at hinv
          · injection hinv with hinv
            injection hinv with _ h2
            exact h2.symm
          · split at hinv
            · cases hinv
            · injection hinv with hinv
              injection hinv with h1 _
              injection h1 with h1 _
              cases h1

/-- A committed modify transaction returns the rewritten row. -/
theorem modifyTransaction_commit_inv {env : Env} {payload : Payload} {db db1 : Db}
    {orow : Option Appointment}
    (ht : modifyTransaction env payload db = .ok (orow, db1)) :
    ∃ existing, db.appointments.filter (fun x => x.id = payload.appointmentId) = [existing] ∧
      orow = some (modifySet env payload existing existing) ∧
      db1.appointments.filter (fun x => x.id = payload.appointmentId) =
        [modifySet env payload existing existing] := by
  unfold modifyTransaction at ht
  split at ht
  · cases ht
  · rename_i existing hget
    have hf := getAppointmentForUpdate_ok hget
    split at ht
    · cases ht
    · split at ht
      · cases ht
      · rename_i rows returned hup
        injection ht with ht
        injection ht with h1 h2
        subst h2
        have hrows := updateAppointment_rows hup
        unfold updateAppointment at hup
        simp only at hup
        split at hup
        · cases hup
        · injection hup with hup
          injection hup with _ hu2
          rw [filter_hit_of_unique (fun _ => true) hf] at hu2
          simp only [if_true, List.map_cons, List.map_nil] at hu2
          refine ⟨existing, hf, ?_, ?_⟩
          · rw [← h1, ← hu2]; rfl
          · simp only
            rw [hrows]
            exact filter_id_map_set (fun _ => true) _ hf rfl (fun _ => rfl)

/-- A committed cancel transaction that was not a no-op returns the rewritten row. -/
theorem cancelTransaction_commit_inv {env : Env} {payload : Payload} {db db1 : Db}
    {orow : Option Appointment}
    (ht : cancelTransaction env payload db = .ok ((false, orow), db1)) :
    ∃ existing, db.appointments.filter (fun x => x.id = payload.appointmentId) = [existing] ∧
      orow = some (cancelSet env payload existing existing) ∧
      db1.appointments.filter (fun x => x.id = payload.appointmentId) =
        [cancelSet env payload existing existing] := by
  unfold cancelTransaction at ht
  split at ht
  · cases ht
  · rename_i existing hget
    have hf := getAppointmentForUpdate_ok hget
    split at ht
    · injection ht with ht
      injection ht with h1 _
      injection h1 with h1 _
      cases h1
    · split at ht
      · cases ht
      · rename_i rows returned hup
        injection ht with ht
        injection ht with h1 h2
        injection h1 with _ h1
        subst h2
        have hrows := updateAppointment_rows hup
        unfold updateAppointment at hup
        simp only at hup
        split at hup
        · cases hup
        · injection hup with hup
          injection hup with _ hu2
          rw [filter_hit_of_unique (fun _ => true) hf] at hu2
          simp only [if_true, List.map_cons, List.map_nil] at hu2
          refine ⟨existing, hf, ?_, ?_⟩
          · rw [← h1, ← hu2]; rfl
          · simp only
            rw [hrows]
            exact filter_id_map_set (fun _ => true) _ hf rfl (fun _ => rfl)

/-- A committed approval transaction returns the rewritten row. -/
theorem approveTransaction_commit_inv {env : Env} {a : Approval} {db db1 : Db}
    {row : Appointment} (ht : approveTransaction env a db = .ok (row, db1)) :
    ∃ existing, db.appointments.filter (fun x => x.id = a.appointmentId) = [existing] ∧
      row = approveSet env a (resolveApprovalTransition existing a.approved) existing ∧
      db1.appointments.filter (fun x => x.id = a.appointmentId) = [row] := by
  unfold approveTransaction at ht
  split at ht
  · cases ht
  · rename_i existing hget
    have hf := getAppointmentForUpdate_ok hget
    split at ht
    · cases ht
    · simp only at ht
      split at ht
      · cases ht
      · rename_i rows r hup
        injection ht with ht
        injection ht with h1 h2
        subst h1 h2
        have hrows := updateAppointment_rows hup
        unfold updateAppointment at hup
        simp only at hup
        split at hup
        · cases hup
        · injection hup with hup
          injection hup with _ hu2
          rw [filter_hit_of_unique (fun x => decide (x.version = a.expectedVersion)) hf] at hu2
          by_cases hg : decide (existing.version = a.expectedVersion) = true
          · simp only [hg, if_true, List.map_cons, List.map_nil] at hu2
            injection hu2 with hu2 _
            refine ⟨existing, hf, hu2.symm, ?_⟩
            simp only
            rw [hrows, ← hu2]
            exact filter_id_map_set (fun x => decide (x.version = a.expectedVersion)) _ hf hg
              (fun _ => rfl)
          · simp only [hg, if_false, List.map_nil] at hu2
            cases hu2
      · cases ht

/-- When the push does not fail, modify either reports a commit or leaves the store as it
was. -/
theorem handleModify_unchanged_or_commit (env : Env) (payload : Payload) (w : World)
    (hpush : env.pushFault = none) :
    (handleModify env payload w).2.db = w.db ∨
      reportsCommit (handleModify env payload w).1 = true := by
  unfold handleModify
  simp only
  rcases hfc : findConflict env payload.requestedStart
    (addMinutes payload.requestedStart payload.durationMinutes) (some payload.appointmentId) w
    with ⟨r, w1⟩
  have hw1 : w1.db = w.db := by
    have := findConflict_db env payload.requestedStart
      (addMinutes payload.requestedStart payload.durationMinutes) (some payload.appointmentId) w
    rw [hfc] at this; exact this
  rcases r with e | c
  · left; exact hw1
  · cases c with
    | some c => left; simp only; rw [buildConflictResponse_db]; exact hw1
    | none =>
      simp only
      rcases htx : withTransaction env (modifyTransaction env payload) w1 with ⟨r2, w2⟩
      rcases r2 with e | row
      · left
        have hw2 : w2.db = w.db := by rw [withTransaction_error_db htx, hw1]
        simp only
        split
        · rw [buildConflictResponse_db]; exact hw2
        · exact hw2
      · cases row with
        | none =>
          exfalso
          obtain ⟨_, _, h, _⟩ := modifyTransaction_commit_inv (withTransaction_ok_inv htx).2
          cases h
        | some row =>
          right
          simp only [notifyPending, hpush]
          rfl

/-- Approve either reports a commit or leaves the store as it was. -/
theorem confirmPendingAppointment_unchanged_or_commit (env : Env) (a : Approval) (w : World) :
    (confirmPendingAppointment env a w).2.db = w.db ∨
      reportsCommit (confirmPendingAppointment env a w).1 = true := by
  unfold confirmPendingAppointment
  rcases htx : withTransaction env (approveTransaction env a) w with ⟨r, w1⟩
  rcases r with e | row
  · left; exact withTransaction_error_db htx
  · right; rfl

/-- When the push does not fail, an operation that does not report a commit leaves the
store as it was. -/
theorem step_unchanged (env : Env) (op : Operation) (w : World)
    (hpush : env.pushFault = none) (h : reportsCommit (step env op w).1 = false) :
    (step env op w).2.db = w.db := by
  have key : ∀ x : Except JsError Response × World,
      (x.2.db = w.db ∨ reportsCommit x.1 = true) → reportsCommit x.1 = false →
      x.2.db = w.db := by
    intro x hx hr
    rcases hx with hx | hx
    · exact hx
    · rw [hx] at hr; cases hr
  cases op with
  | agent payload =>
    simp only [step] at h ⊢
    unfold handleAgentAction at h ⊢
    split
    · rename_i hb; rw [if_pos hb] at h
      exact key _ (handleBook_unchanged_or_commit env payload w hpush) h
    · rename_i hb; rw [if_neg hb] at h
      split
      · rename_i hc; rw [if_pos hc] at h
        exact key _ (handleCancel_unchanged_or_commit env payload w hpush) h
      · rename_i hc; rw [if_neg hc] at h
        split
        · rename_i hm; rw [if_pos hm] at h
          exact key _ (handleModify_unchanged_or_commit env payload w hpush) h
        · rfl
  | approve a =>
    exact key _ (confirmPendingAppointment_unchanged_or_commit env a w) h

/-- A cancel that returns the pending response for reservation `r` has stored it at the
previous version plus 1, the version it returns. -/
theorem handleCancel_commit_version (env : Env) (payload : Payload) (w : World)
    (r : Appointment) (a : PendingAction) (v : Int) (s e : Option Int)
    (hf : w.db.appointments.filter (fun x => x.id = r.id) = [r])
    (h : (handleCancel env payload w).1 = .ok (Response.pending_toney_approval a r.id v s e)) :
    ∃ r1, (handleCancel env payload w).2.db.appointments.filter (fun x => x.id = r.id) = [r1] ∧
      r1.version = r.version + 1 ∧ v = r.version + 1 := by
  unfold handleCancel at h ⊢
  rcases htx : withTransaction env (cancelTransaction env payload) w with ⟨res, w1⟩
  rw [htx] at h
  rcases res with err | ⟨b, orow⟩
  · cases h
  · cases orow with
    | none => cases b <;> cases h
    | some row =>
      cases b
      · obtain ⟨existing, hf1, hrow, hnew⟩ :=
          cancelTransaction_commit_inv (withTransaction_ok_inv htx).2
        injection hrow with hrow
        simp only [notifyPending] at h ⊢
        cases hp : env.pushFault with
        | some pe => rw [hp] at h; cases h
        | none =>
          rw [hp] at h
          simp only at h ⊢
          injection h with h
          injection h with _ hid hv _ _
          have hex : existing.id = payload.appointmentId := (mem_of_filter_id hf1).2
          have hrid : r.id = payload.appointmentId := by
            rw [← hid, hrow]; exact hex
          rw [← hrid] at hf1 hnew
          have her : existing = r := by
            rw [hf] at hf1; injection hf1 with h1 _; exact h1.symm
          subst her
          exact ⟨_, hnew, rfl, by rw [← hv, hrow]; rfl⟩
      · cases h

/-- A modify that returns the pending response for reservation `r` has stored it at the
previous version plus 1, the version it returns. -/
theorem handleModify_commit_version (env : Env) (payload : Payload) (w : World)
    (r : Appointment) (a : PendingAction) (v : Int) (s e : Option Int)
    (hf : w.db.appointments.filter (fun x => x.id = r.id) = [r])
    (h : (handleModify env payload w).1 = .ok (Response.pending_toney_approval a r.id v s e)) :
    ∃ r1, (handleModify env payload w).2.db.appointments.filter (fun x => x.id = r.id) = [r1] ∧
      r1.version = r.version + 1 ∧ v = r.version + 1 := by
  have hnc : ∀ (x : Option String) (w0 : World),
      (buildConflictResponse env payload payload.requestedStart payload.durationMinutes x
        w0).1 ≠ .ok (Response.pending_toney_approval a r.id v s e) := by
    intro x w0 hc
    have := buildConflictResponse_reportsCommit env payload payload.requestedStart
      payload.durationMinutes x w0
    rw [hc] at this
    cases this
  unfold handleModify at h ⊢
  simp only at h ⊢
  rcases hfc : findConflict env payload.requestedStart
    (addMinutes payload.requestedStart payload.durationMinutes) (some payload.appointmentId) w
    with ⟨res, w1⟩
  have hw1 : w1.db = w.db := by
    have := findConflict_db env payload.requestedStart
      (addMinutes payload.requestedStart payload.durationMinutes) (some payload.appointmentId) w
    rw [hfc] at this; exact this
  rw [hfc] at h
  rcases res with err | c
  · cases h
  · cases c with
    | some c => exact absurd h (hnc _ _)
    | none =>
      simp only at h ⊢
      rcases htx : withTransaction env (modifyTransaction env payload) w1 with ⟨r2, w2⟩
      rw [htx] at h
      rcases r2 with err | orow
      · simp only at h
        split at h
        · exact absurd h (hnc _ _)
        · cases h
      · have hinv := (withTransaction_ok_inv htx).2
        rw [hw1] at hinv
        obtain ⟨existing, hf1, hrow, hnew⟩ := modifyTransaction_commit_inv hinv
        subst hrow
        simp only [notifyPending] at h ⊢
        cases hp : env.pushFault with
        | some pe =>
          rw [hp] at h
          simp only at h
          split at h
          · exact absurd h (hnc _ _)
          · cases h
        | none =>
          rw [hp] at h
          simp only at h ⊢
          injection h with h
          injection h with _ hid hv _ _
          have hex : existing.id = payload.appointmentId := (mem_of_filter_id hf1).2
          have hrid : r.id = payload.appointmentId := by
            rw [← hid]; exact hex
          rw [← hrid] at hf1 hnew
          have her : existing = r := by
            rw [hf] at hf1; injection hf1 with h1 _; exact h1.symm
          subst her
          exact ⟨_, hnew, rfl, by rw [← hv]; rfl⟩

/-- An approval that returns approval_resolved for reservation `r` has stored it at the
previous version plus 1, the version it returns. -/
theorem confirmPendingAppointment_commit_version (env : Env) (a : Approval) (w : World)
    (r : Appointment) (st : Status) (v : Int) (d : Bool)
    (hf : w.db.appointments.filter (fun x => x.id = r.id) = [r])
    (h : (confirmPendingAppointment env a w).1 = .ok (Response.approval_resolved r.id st v d)) :
    ∃ r1, (confirmPendingAppointment env a w).2.db.appointments.filter
        (fun x => x.id = r.id) = [r1] ∧
      r1.version = r.version + 1 ∧ v = r.version + 1 := by
  unfold confirmPendingAppointment at h ⊢
  rcases htx : withTransaction env (approveTransaction env a) w with ⟨res, w1⟩
  rw [htx] at h
  rcases res with err | row
  · cases h
  · obtain ⟨existing, hf1, hrow, hnew⟩ :=
      approveTransaction_commit_inv (withTransaction_ok_inv htx).2
    simp only at h ⊢
    injection h with h
    injection h with hid _ hv _
    have hex : existing.id = a.appointmentId := (mem_of_filter_id hf1).2
    have hrid : r.id = a.appointmentId := by
      rw [← hid, hrow]; exact hex
    rw [← hrid] at hf1 hnew
    have her : existing = r := by
      rw [hf] at hf1; injection hf1 with h1 _; exact h1.symm
    subst her
    rw [deliverWebhook_db]
    exact ⟨row, hnew, by rw [hrow]; rfl, by rw [← hv, hrow]; rfl⟩

/-- C15. Version discipline, for every reservation r of the store (the one row with its id)
and every environment. (1)-(3) A cancel, a modify or an approve that reports its commit
for r has stored r at exactly its previous version plus 1, the version it returns.
(4) When the push notification does not fail, every operation that does not report a
commit (it returns conflict or already_cancelled, or fails with not_found, invalid_state,
optimistic_lock_conflict or anything else) leaves the store, so every version,
unchanged. (5) Any single operation leaves r untouched or at its previous version plus 1.
(6) Along any sequence of operations the version of r never decreases. -/
theorem version_discipline (env : Env) (w : World) (r : Appointment)
    (hf : w.db.appointments.filter (fun x => x.id = r.id) = [r]) :
    (∀ payload a v s e,
      (handleCancel env payload w).1 = .ok (Response.pending_toney_approval a r.id v s e) →
      ∃ r1, (handleCancel env payload w).2.db.appointments.filter
          (fun x => x.id = r.id) = [r1] ∧
        r1.version = r.version + 1 ∧ v = r.version + 1) ∧
    (∀ payload a v s e,
      (handleModify env payload w).1 = .ok (Response.pending_toney_approval a r.id v s e) →
      ∃ r1, (handleModify env payload w).2.db.appointments.filter
          (fun x => x.id = r.id) = [r1] ∧
        r1.version = r.version + 1 ∧ v = r.version + 1) ∧
    (∀ a st v d,
      (confirmPendingAppointment env a w).1 = .ok (Response.approval_resolved r.id st v d) →
      ∃ r1, (confirmPendingAppointment env a w).2.db.appointments.filter
          (fun x => x.id = r.id) = [r1] ∧
        r1.version = r.version + 1 ∧ v = r.version + 1) ∧
    (env.pushFault = none → ∀ op, reportsCommit (step env op w).1 = false →
      (step env op w).2.db = w.db) ∧
    (∀ op, ∃ r1, (step env op w).2.db.appointments.filter (fun x => x.id = r.id) = [r1] ∧
      (r1 = r ∨ r1.version = r.version + 1)) ∧
    (∀ ops, ∃ r1, (run ops w).db.appointments.filter (fun x => x.id = r.id) = [r1] ∧
      r.version ≤ r1.version) :=
  ⟨fun payload a v s e h => handleCancel_commit_version env payload w r a v s e hf h,
   fun payload a v s e h => handleModify_commit_version env payload w r a v s e hf h,
   fun a st v d h => confirmPendingAppointment_commit_version env a w r st v d hf h,
   fun hpush op h => step_unchanged env op w hpush h,
   fun op => step_version env op w r hf,
   fun ops => run_version_le ops w r hf⟩

theorem version_discipline_witness :
    ∃ r1, (run
        [(calmEnv, Operation.agent (sampleCommand "cancel" "appt-0001" 0 0)),
         (calmEnv, Operation.approve { appointmentId := "appt-0001", expectedVersion := 2,
                                       approved := true }),
         (calmEnv, Operation.approve { appointmentId := "appt-0001", expectedVersion := 3,
                                       approved := false }),
         (calmEnv, Operation.agent (sampleCommand "modify" "appt-0001" 7200000 30))]
        (sampleWorld [sampleRow "appt-0001" 0 3600000 Status.confirmed none
          2])).db.appointments.filter
          (fun x => x.id = (sampleRow "appt-0001" 0 3600000 Status.confirmed none 2).id) =
        [r1] ∧
      (sampleRow "appt-0001" 0 3600000 Status.confirmed none 2).version ≤ r1.version :=
  (version_discipline calmEnv
    (sampleWorld [sampleRow "appt-0001" 0 3600000 Status.confirmed none 2])
    (sampleRow "appt-0001" 0 3600000 Status.confirmed none 2) (by decide)).2.2.2.2.2 _

/-! ## The availability scanner -/

open AvailabilityService

/-- The test `isFree` is the overlap test of the source against every busy interval. -/
theorem isFree_iff (start stop : Int) (busyRows : List Busy) :
    isFree start stop busyRows = true ↔
      ∀ b ∈ busyRows, overlaps start stop b.start b.stop = false := by
  induction busyRows with
  | nil => simp [isFree]
  | cons busy rest ih =>
    unfold isFree
    simp only [List.mem_cons, forall_eq_or_imp]
    by_cases h1 : busy.stop ≤ start
    · rw [if_pos h1, ih]
      have : overlaps start stop busy.start busy.stop = false := by
        unfold overlaps
        have : ¬ start < busy.stop := by omega
        simp [this]
      simp [this]
    · rw [if_neg h1]
      by_cases h2 : busy.start ≥ stop
      · rw [if_pos h2, ih]
        have : overlaps start stop busy.start busy.stop = false := by
          unfold overlaps
          have : ¬ stop > busy.start := by omega
          simp [this]
        simp [this]
      · rw [if_neg h2]
        have : overlaps start stop busy.start busy.stop = true := by
          unfold overlaps
          have h3 : start < busy.stop := by omega
          have h4 : stop > busy.start := by omega
          simp [h3, h4]
        simp [this]

/-- Two ranges that pass the overlap test of the source share no instant. -/
theorem not_intersect_of_overlaps_false {a1 a2 b1 b2 : Int}
    (h : overlaps a1 a2 b1 b2 = false) : ¬Intersect a1 a2 b1 b2 := by
  rintro ⟨t, h1, h2, h3, h4⟩
  unfold overlaps at h
  have h5 : a1 < b2 := by omega
  have h6 : a2 > b1 := by omega
  simp [h5, h6] at h

/-- The loop returns the first cursor of the grid that passes both tests. -/
theorem walkGrid_some {slotMs durationMs windowEnd : Int} {busyRows : List Busy} :
    ∀ (steps : Nat) (cursor t : Int),
      walkGrid slotMs durationMs windowEnd busyRows steps cursor = some t →
      ∃ i : Nat, i < steps ∧ t = cursor + i * slotMs ∧ t + durationMs ≤ windowEnd ∧
        isFree t (t + durationMs) busyRows = true ∧
        ∀ j : Nat, j < i →
          isFree (cursor + j * slotMs) (cursor + j * slotMs + durationMs) busyRows = false := by
  intro steps
  induction steps with
  | zero => intro cursor t h; simp [walkGrid] at h
  | succ n ih =>
    intro cursor t h
    unfold walkGrid at h
    split at h
    · rename_i hfit
      split at h
      · rename_i hfree
        injection h with h
        subst h
        exact ⟨0, by omega, by simp, hfit, hfree, fun j hj => by omega⟩
      · rename_i hbusy
        obtain ⟨i, hi, ht, hfit1, hfree1, hprev⟩ := ih _ _ h
        refine ⟨i + 1, by omega, ?_, hfit1, hfree1, ?_⟩
        · rw [ht]; push_cast; ring
        · intro j hj
          cases j with
          | zero => simpa using hbusy
          | succ j =>
            have := hprev j (by omega)
            have e : cursor + ((j + 1 : Nat) : Int) * slotMs = cursor + slotMs + j * slotMs := by
              push_cast; ring
            rw [e]; exact this
    · cases h

/-- When the loop ends without a result, no cursor it could test passes both tests. -/
theorem walkGrid_none {slotMs durationMs windowEnd : Int} {busyRows : List Busy}
    (hs : 0 ≤ slotMs) :
    ∀ (steps : Nat) (cursor : Int),
      walkGrid slotMs durationMs windowEnd busyRows steps cursor = none →
      ∀ j : Nat, j < steps → cursor + j * slotMs + durationMs ≤ windowEnd →
        isFree (cursor + j * slotMs) (cursor + j * slotMs + durationMs) busyRows = false := by
  intro steps
  induction steps with
  | zero => intro cursor _ j hj; omega
  | succ n ih =>
    intro cursor h j hj hfit
    unfold walkGrid at h
    split at h
    · split at h
      · cases h
      · rename_i hbusy
        cases j with
        | zero => simpa using hbusy
        | succ j =>
          have e : cursor + ((j + 1 : Nat) : Int) * slotMs = cursor + slotMs + j * slotMs := by
            push_cast; ring
          rw [e] at hfit ⊢
          exact ih _ h j (by omega) hfit
    · rename_i hnofit
      exfalso
      have : (0 : Int) ≤ j * slotMs := mul_nonneg (by omega) hs
      omega

/-- Past `gridSteps` cursors the condition of the loop fails. -/
theorem gridSteps_bound {slotMs durationMs windowEnd cursor : Int} (hs : 0 < slotMs)
    (j : Nat) (hj : gridSteps slotMs durationMs windowEnd cursor ≤ j) :
    ¬(cursor + j * slotMs + durationMs ≤ windowEnd) := by
  intro hfit
  unfold gridSteps at hj
  have h1 : (j : Int) * slotMs ≤ windowEnd - durationMs - cursor := by omega
  have h2 : (j : Int) ≤ (windowEnd - durationMs - cursor) / slotMs :=
    Int.le_ediv_of_mul_le hs h1
  have h3 : ((j : Int) + 1).toNat ≤ ((windowEnd - durationMs - cursor) / slotMs + 1).toNat :=
    Int.toNat_le_toNat (by omega)
  have h4 : ((j : Int) + 1).toNat = j + 1 := by omega
  omega

/-- Running `walkGrid` for `gridSteps` tests is running the `while` loop: it satisfies the
equation of the loop, `while (cursor + durationMs <= windowEnd) { if (isFree) return cursor;
cursor += slotMs }`. -/
theorem walkGrid_loop {slotMs durationMs windowEnd : Int} (busyRows : List Busy)
    (hs : 0 < slotMs) (cursor : Int) :
    walkGrid slotMs durationMs windowEnd busyRows
        (gridSteps slotMs durationMs windowEnd cursor) cursor =
      if cursor + durationMs ≤ windowEnd then
        if isFree cursor (cursor + durationMs) busyRows then some cursor
        else walkGrid slotMs durationMs windowEnd busyRows
          (gridSteps slotMs durationMs windowEnd (cursor + slotMs)) (cursor + slotMs)
      else none := by
  by_cases hfit : cursor + durationMs ≤ windowEnd
  · have hstep : gridSteps slotMs durationMs windowEnd cursor =
        gridSteps slotMs durationMs windowEnd (cursor + slotMs) + 1 := by
      unfold gridSteps
      have e : windowEnd - durationMs - (cursor + slotMs) =
          (windowEnd - durationMs - cursor) - slotMs := by ring
      rw [e, Int.sub_ediv_of_dvd _ (dvd_refl slotMs), Int.ediv_self (by omega)]
      have hnn : 0 ≤ (windowEnd - durationMs - cursor) / slotMs :=
        Int.ediv_nonneg (by omega) (by omega)
      omega
    rw [hstep, if_pos hfit]
    conv_lhs => unfold walkGrid
    rw [if_pos hfit]
  · have hzero : gridSteps slotMs durationMs windowEnd cursor = 0 := by
      unfold gridSteps
      have hneg : (windowEnd - durationMs - cursor) / slotMs < 0 :=
        Int.ediv_neg' (by omega) hs
      omega
    rw [hzero, if_neg hfit]
    rfl

/-- The boundary `roundUpToBoundary` returns is the least instant of the slot grid that is
not before `date`. -/
theorem roundUpToBoundary_some {date : Int} {slotMinutes : Nat} {cursor : Int}
    (h : roundUpToBoundary date slotMinutes = some cursor) :
    0 < slotMinutes ∧ ((slotMinutes : Int) * 60000) ∣ cursor ∧ date ≤ cursor ∧
      ∀ u, ((slotMinutes : Int) * 60000) ∣ u → date ≤ u → cursor ≤ u := by
  unfold roundUpToBoundary at h
  split at h
  · cases h
  · rename_i h0
    injection h with h
    have hpos : (0 : Int) < (slotMinutes : Int) * 60000 := by
      have : 0 < slotMinutes := Nat.pos_of_ne_zero h0
      omega
    refine ⟨Nat.pos_of_ne_zero h0, ?_, ?_, ?_⟩
    · rw [← h]; exact dvd_mul_left _ _
    · rw [← h]
      have := Int.ediv_mul_le (-date) (ne_of_gt hpos)
      rw [neg_mul]
      omega
    · rintro u ⟨k, rfl⟩ hu
      rw [← h]
      have h1 : (-k) * ((slotMinutes : Int) * 60000) ≤ -date := by
        rw [neg_mul, mul_comm]; omega
      have h2 : -k ≤ (-date) / ((slotMinutes : Int) * 60000) := Int.le_ediv_of_mul_le hpos h1
      have h3 : -((-date) / ((slotMinutes : Int) * 60000)) ≤ k := by omega
      have := mul_le_mul_of_nonneg_right h3 (le_of_lt hpos)
      rw [mul_comm k] at this
      linarith

/-- An instant of the grid that is not before the cursor is the cursor plus a number of
slots. -/
theorem grid_index {slotMs cursor u : Int} (hs : 0 < slotMs) (hc : slotMs ∣ cursor)
    (hu : slotMs ∣ u) (hle : cursor ≤ u) : ∃ j : Nat, u = cursor + j * slotMs := by
  obtain ⟨q, hq⟩ := Int.dvd_sub hu hc
  have hq0 : 0 ≤ q := by
    by_contra hneg
    have : slotMs * q < 0 := mul_neg_of_pos_of_neg hs (by omega)
    omega
  refine ⟨q.toNat, ?_⟩
  rw [Int.toNat_of_nonneg hq0, mul_comm]
  omega

/-- One day of the scan, for a positive slot: the result of the loop is the least feasible
instant of the grid from the day's start, and there is none when the loop ends without
one. -/
theorem walkGrid_day {slotMs dayStart cursor : Int} (durationMs windowEnd : Int)
    (busyRows : List Busy) (hs : 0 < slotMs) (hc : slotMs ∣ cursor) (hlo : dayStart ≤ cursor)
    (hleast : ∀ u, slotMs ∣ u → dayStart ≤ u → cursor ≤ u) :
    (∀ t, walkGrid slotMs durationMs windowEnd busyRows
        (gridSteps slotMs durationMs windowEnd cursor) cursor = some t →
      slotMs ∣ t ∧ dayStart ≤ t ∧ t + durationMs ≤ windowEnd ∧
        isFree t (t + durationMs) busyRows = true ∧
        ∀ u, slotMs ∣ u → dayStart ≤ u → u + durationMs ≤ windowEnd →
          isFree u (u + durationMs) busyRows = true → t ≤ u) ∧
    (walkGrid slotMs durationMs windowEnd busyRows
        (gridSteps slotMs durationMs windowEnd cursor) cursor = none →
      ∀ u, slotMs ∣ u → dayStart ≤ u → u + durationMs ≤ windowEnd →
        isFree u (u + durationMs) busyRows = false) := by
  constructor
  · intro t h
    obtain ⟨i, _, ht, hfit, hfree, hprev⟩ := walkGrid_some _ _ _ h
    have hi0 : (0 : Int) ≤ i * slotMs := mul_nonneg (by omega) (le_of_lt hs)
    refine ⟨?_, by omega, hfit, hfree, ?_⟩
    · rw [ht]; exact dvd_add hc (dvd_mul_left _ _)
    · intro u hu hulo _ hufree
      obtain ⟨j, hj⟩ := grid_index hs hc hu (hleast u hu hulo)
      by_contra hlt
      have hji : j < i := by
        by_contra hge
        have : (i : Int) ≤ j := by omega
        have := mul_le_mul_of_nonneg_right this (le_of_lt hs)
        omega
      have := hprev j hji
      rw [← hj, hufree] at this
      cases this
  · intro h u hu hulo hufit
    obtain ⟨j, hj⟩ := grid_index hs hc hu (hleast u hu hulo)
    by_cases hjs : j < gridSteps slotMs durationMs windowEnd cursor
    · have := walkGrid_none (le_of_lt hs) _ _ h j hjs (by rw [← hj]; exact hufit)
      rw [← hj] at this
      exact this
    · exfalso
      have hfit2 : cursor + j * slotMs + durationMs ≤ windowEnd := by
        rw [← hj]; exact hufit
      exact gridSteps_bound hs j (Nat.le_of_not_lt hjs) hfit2

/-- With a slot of 0 minutes no cursor is a valid date and the scan finds nothing. -/
theorem scanDays_slot_zero {cfg : Config} (h0 : cfg.slotMinutes = 0) (requestedStart
    durationMs : Int) (busyRows : List Busy) (overrideRows : Int → Option OverrideRow) :
    ∀ days offsetDays,
      scanDays cfg requestedStart durationMs busyRows overrideRows days offsetDays = none := by
  intro days
  induction days with
  | zero => intro _; rfl
  | succ n ih =>
    intro k
    unfold scanDays
    simp only [roundUpToBoundary, h0, if_true]
    split
    · exact ih _
    · exact ih _

/-- The scan over days, for a positive slot. A result is feasible on its day, least among
the feasible instants of that day, and no earlier scanned day has a feasible instant; when
there is no result, no scanned day has one. -/
theorem scanDays_spec {cfg : Config} (hs : 0 < cfg.slotMinutes) (requestedStart
    durationMs : Int) (busyRows : List Busy) (overrideRows : Int → Option OverrideRow) :
    ∀ days offsetDays,
      (∀ t, scanDays cfg requestedStart durationMs busyRows overrideRows days offsetDays =
          some t →
        ∃ k, offsetDays ≤ k ∧ k < offsetDays + days ∧
          DayFeasible cfg requestedStart durationMs busyRows overrideRows k t ∧
          (∀ u, DayFeasible cfg requestedStart durationMs busyRows overrideRows k u → t ≤ u) ∧
          ∀ k1, offsetDays ≤ k1 → k1 < k → ∀ u,
            ¬DayFeasible cfg requestedStart durationMs busyRows overrideRows k1 u) ∧
      (scanDays cfg requestedStart durationMs busyRows overrideRows days offsetDays = none →
        ∀ k, offsetDays ≤ k → k < offsetDays + days → ∀ u,
          ¬DayFeasible cfg requestedStart durationMs busyRows overrideRows k u) := by
  have hpos : (0 : Int) < (cfg.slotMinutes : Int) * 60000 := by omega
  intro days
  induction days with
  | zero =>
    intro k
    exact ⟨fun t h => by simp [scanDays] at h, fun _ k1 h1 h2 => by omega⟩
  | succ n ih =>
    intro k
    obtain ⟨ihs, ihn⟩ := ih (k + 1)
    -- what the tail of the scan gives, once day `k` is known to have no feasible instant
    have tail : (∀ u, ¬DayFeasible cfg requestedStart durationMs busyRows overrideRows k u) →
        (∀ t, scanDays cfg requestedStart durationMs busyRows overrideRows n (k + 1) = some t →
          ∃ k', k ≤ k' ∧ k' < k + (n + 1) ∧
            DayFeasible cfg requestedStart durationMs busyRows overrideRows k' t ∧
            (∀ u, DayFeasible cfg requestedStart durationMs busyRows overrideRows k' u →
              t ≤ u) ∧
            ∀ k1, k ≤ k1 → k1 < k' → ∀ u,
              ¬DayFeasible cfg requestedStart durationMs busyRows overrideRows k1 u) ∧
        (scanDays cfg requestedStart durationMs busyRows overrideRows n (k + 1) = none →
          ∀ k', k ≤ k' → k' < k + (n + 1) → ∀ u,
            ¬DayFeasible cfg requestedStart durationMs busyRows overrideRows k' u) := by
      intro hempty
      constructor
      · intro t h
        obtain ⟨k', h1, h2, h3, h4, h5⟩ := ihs t h
        refine ⟨k', by omega, by omega, h3, h4, ?_⟩
        intro k1 hk1 hk1' u
        by_cases he : k1 = k
        · subst he; exact hempty u
        · exact h5 k1 (by omega) hk1' u
      · intro h k' hk1 hk2 u
        by_cases he : k' = k
        · subst he; exact hempty u
        · exact ihn h k' (by omega) (by omega) u
    unfold scanDays
    simp only
    cases hwin : toWindowForDay cfg (dayAt cfg.zone requestedStart k)
        (overrideRows (dayKey cfg.zone (dayAt cfg.zone requestedStart k))) with
    | none =>
      simp only
      apply tail
      rintro u ⟨ws, we, hw, _⟩
      rw [hwin] at hw
      cases hw
    | some win =>
      obtain ⟨ws, we⟩ := win
      simp only
      cases hround : roundUpToBoundary (if k = 0 then max ws requestedStart else ws)
          cfg.slotMinutes with
      | none =>
        exfalso
        unfold roundUpToBoundary at hround
        rw [if_neg (by omega)] at hround
        cases hround
      | some cursor =>
        obtain ⟨_, hcdvd, hclo, hcleast⟩ := roundUpToBoundary_some hround
        obtain ⟨hsome, hnone⟩ := walkGrid_day durationMs we busyRows hpos hcdvd hclo
          hcleast
        simp only
        cases hwalk : walkGrid ((cfg.slotMinutes : Int) * 60000) durationMs we busyRows
            (gridSteps ((cfg.slotMinutes : Int) * 60000) durationMs we cursor) cursor with
        | some t0 =>
          simp only
          obtain ⟨h1, h2, h3, h4, h5⟩ := hsome t0 hwalk
          constructor
          · intro t ht
            injection ht with ht
            subst ht
            refine ⟨k, by omega, by omega, ⟨ws, we, hwin, h1, h2, h3,
              (isFree_iff _ _ _).mp h4⟩, ?_, fun k1 hk1 hk2 => by omega⟩
            rintro u ⟨ws1, we1, hw1, hu1, hu2, hu3, hu4⟩
            rw [hwin] at hw1
            injection hw1 with hw1
            injection hw1 with e1 e2
            subst e1 e2
            exact h5 u hu1 hu2 hu3 ((isFree_iff _ _ _).mpr hu4)
          · intro h; cases h
        | none =>
          simp only
          apply tail
          rintro u ⟨ws1, we1, hw1, hu1, hu2, hu3, hu4⟩
          rw [hwin] at hw1
          injection hw1 with hw1
          injection hw1 with e1 e2
          subst e1 e2
          have := hnone hwalk u hu1 hu2 hu3
          rw [(isFree_iff _ _ _).mpr hu4] at this
          cases this

/-- What a window returned by `toWindowForDay` says about the day's override. -/
theorem toWindowForDay_some {cfg : Config} {day : Int} {override : Option OverrideRow}
    {windowStart windowEnd : Int}
    (h : toWindowForDay cfg day override = some (windowStart, windowEnd)) :
    (∀ o, override = some o → o.is_blocked = false) ∧
    (∀ o sh sm eh em, override = some o → o.custom_start_time = some (sh, sm) →
      o.custom_end_time = some (eh, em) →
      windowStart = setHours cfg.zone day sh sm ∧ windowEnd = setHours cfg.zone day eh em) ∧
    ((∀ o, override = some o → o.custom_start_time = none ∨ o.custom_end_time = none) →
      windowStart = setHours cfg.zone day cfg.startHour cfg.startMinute ∧
      windowEnd = setHours cfg.zone day cfg.endHour cfg.endMinute) ∧
    ∃ h1 m1 h2 m2 : Nat,
      windowStart = setHours cfg.zone day h1 m1 ∧ windowEnd = setHours cfg.zone day h2 m2 := by
  unfold toWindowForDay at h
  cases override with
  | none =>
    simp only at h
    injection h with h
    injection h with e1 e2
    refine ⟨fun o ho => ?_, fun o _ _ _ _ ho => ?_, fun _ => ?_, ?_⟩
    · cases ho
    · cases ho
    · exact ⟨e1.symm, e2.symm⟩
    · exact ⟨_, _, _, _, e1.symm, e2.symm⟩
  | some o =>
    simp only at h
    by_cases hb : o.is_blocked = true
    · rw [if_pos hb] at h; cases h
    · rw [if_neg hb] at h
      have hnb : o.is_blocked = false := by simpa using hb
      cases hcs : o.custom_start_time with
      | none =>
        rw [hcs] at h
        simp only at h
        injection h with h
        injection h with e1 e2
        refine ⟨fun r hr => by injection hr with hr; rw [← hr]; exact hnb, ?_,
          fun _ => ⟨e1.symm, e2.symm⟩, _, _, _, _, e1.symm, e2.symm⟩
        intro r sh sm eh em hr h1 _
        injection hr with hr
        rw [← hr, hcs] at h1
        cases h1
      | some cs =>
        obtain ⟨sh0, sm0⟩ := cs
        cases hce : o.custom_end_time with
        | none =>
          rw [hcs, hce] at h
          simp only at h
          injection h with h
          injection h with e1 e2
          refine ⟨fun r hr => by injection hr with hr; rw [← hr]; exact hnb, ?_,
            fun _ => ⟨e1.symm, e2.symm⟩, _, _, _, _, e1.symm, e2.symm⟩
          intro r sh sm eh em hr _ h2
          injection hr with hr
          rw [← hr, hce] at h2
          cases h2
        | some ce =>
          obtain ⟨eh0, em0⟩ := ce
          rw [hcs, hce] at h
          simp only at h
          injection h with h
          injection h with e1 e2
          refine ⟨fun r hr => by injection hr with hr; rw [← hr]; exact hnb, ?_, ?_,
            _, _, _, _, e1.symm, e2.symm⟩
          · intro r sh sm eh em hr h1 h2
            injection hr with hr
            rw [← hr, hcs] at h1
            rw [← hr, hce] at h2
            injection h1 with h1
            injection h2 with h2
            injection h1 with a1 a2
            injection h2 with b1 b2
            subst a1 a2 b1 b2
            exact ⟨e1.symm, e2.symm⟩
          · intro hno
            rcases hno o rfl with h1 | h1
            · rw [hcs] at h1; cases h1
            · rw [hce] at h1; cases h1

/-- A result of `scanForSlot` is feasible on one of the scanned days, least among the
feasible instants of that day, and no earlier day has a feasible instant. -/
theorem scanForSlot_some {cfg : Config} {requestedStart : Int} {durationMinutes : Nat}
    {busyRows : List Busy} {overrideRows : Int → Option OverrideRow} {horizonDays : Nat}
    {t : Int}
    (h : scanForSlot cfg requestedStart durationMinutes busyRows overrideRows horizonDays =
      some t) :
    0 < cfg.slotMinutes ∧ ∃ k, k ≤ horizonDays ∧
      DayFeasible cfg requestedStart ((durationMinutes : Int) * 60000) busyRows overrideRows
        k t ∧
      (∀ u, DayFeasible cfg requestedStart ((durationMinutes : Int) * 60000) busyRows
        overrideRows k u → t ≤ u) ∧
      ∀ k1, k1 < k → ∀ u, ¬DayFeasible cfg requestedStart ((durationMinutes : Int) * 60000)
        busyRows overrideRows k1 u := by
  unfold scanForSlot at h
  by_cases h0 : cfg.slotMinutes = 0
  · rw [scanDays_slot_zero h0] at h; cases h
  · have hs : 0 < cfg.slotMinutes := Nat.pos_of_ne_zero h0
    obtain ⟨k, _, hk, hf, hl, he⟩ :=
      (scanDays_spec hs requestedStart ((durationMinutes : Int) * 60000) busyRows
        overrideRows (horizonDays + 1) 0).1 t h
    exact ⟨hs, k, by omega, hf, hl, fun k1 hk1 u => he k1 (by omega) hk1 u⟩

/-- C16, the code at the failing input. With the default configuration (30-day horizon),
the 29 days after 2026-03-01 closed and three confirmed reservations on 2026-03-31,
getNextAvailable for 2026-03-01T17:30Z and 60 minutes returns 2026-03-31T17:00Z, an hour
that shares the instant 17:30 with the confirmed reservation appt-0003 (17:30 to 18:00),
which the busy query did not load because it starts at the end of the horizon. With a
horizon of 0 days the query range is empty: the requested 13:00 is returned although a
confirmed reservation holds 13:00 to 14:00. -/
theorem getNextAvailable_proposes_taken_slot :
    getNextAvailable defaultConfig lastDayBookings monthClosure 1772386200000 60 none none =
      some 1774976400000 ∧
    (sampleRow "appt-0003" 1774978200000 1774980000000 Status.confirmed none 2 ∈
        lastDayBookings ∧
      (1774976400000 : Int) ≤ 1774978200000 ∧
      (1774978200000 : Int) < 1774976400000 + 60 * 60000 ∧
      (sampleRow "appt-0003" 1774978200000 1774980000000 Status.confirmed none 2).start_time ≤
        1774978200000 ∧
      1774978200000 <
        (sampleRow "appt-0003" 1774978200000 1774980000000 Status.confirmed none 2).end_time) ∧
    getNextAvailable defaultConfig
      [sampleRow "existing-appt" 1772370000000 1772373600000 Status.confirmed none 2] []
      1772370000000 60 none (some 0) = some 1772370000000 := by
  decide

/-- C17. For every requested start, duration, list of busy intervals, override table and
horizon, if scanForSlot returns a start t then the candidate [t, t + duration) passes the
overlap test of the source against every busy interval, and shares no instant with any of
them. -/
theorem scanForSlot_avoids_busy (cfg : Config) (requestedStart : Int) (durationMinutes : Nat)
    (busyRows : List Busy) (overrideRows : Int → Option OverrideRow) (horizonDays : Nat)
    (t : Int)
    (h : scanForSlot cfg requestedStart durationMinutes busyRows overrideRows horizonDays =
      some t) :
    ∀ b ∈ busyRows,
      overlaps t (t + (durationMinutes : Int) * 60000) b.start b.stop = false ∧
      ¬Intersect t (t + (durationMinutes : Int) * 60000) b.start b.stop := by
  obtain ⟨_, k, _, ⟨ws, we, _, _, _, _, hfree⟩, _, _⟩ := scanForSlot_some h
  intro b hb
  exact ⟨hfree b hb, not_intersect_of_overlaps_false (hfree b hb)⟩

theorem scanForSlot_avoids_busy_witness :
    scanForSlot defaultConfig 1772370000000 60 scenarioBusy noOverrides 0 =
      some 1772373600000 ∧
    ∀ b ∈ scenarioBusy,
      overlaps 1772373600000 (1772373600000 + ((60 : Nat) : Int) * 60000) b.start b.stop =
        false ∧
      ¬Intersect 1772373600000 (1772373600000 + ((60 : Nat) : Int) * 60000) b.start b.stop :=
  ⟨by decide,
   scanForSlot_avoids_busy defaultConfig 1772370000000 60 scenarioBusy noOverrides 0
     1772373600000 (by decide)⟩

/-- C18. The scanner never returns a slot outside business hours: if scanForSlot returns a
start t, then on one of the days 0 to horizonDays the day is not blocked, its window
(start, end) satisfies start ≤ t and t + duration ≤ end, and the window is the override's
custom times when the day's override has both, the configured default hours when the day
has no override or its override lacks one of them. -/
theorem scanForSlot_within_business_hours (cfg : Config) (requestedStart : Int)
    (durationMinutes : Nat) (busyRows : List Busy) (overrideRows : Int → Option OverrideRow)
    (horizonDays : Nat) (t : Int)
    (h : scanForSlot cfg requestedStart durationMinutes busyRows overrideRows horizonDays =
      some t) :
    ∃ k, k ≤ horizonDays ∧ ∃ windowStart windowEnd,
      toWindowForDay cfg (dayAt cfg.zone requestedStart k)
        (overrideRows (dayKey cfg.zone (dayAt cfg.zone requestedStart k))) = some (windowStart, windowEnd) ∧
      windowStart ≤ t ∧ t + (durationMinutes : Int) * 60000 ≤ windowEnd ∧
      (∀ o, overrideRows (dayKey cfg.zone (dayAt cfg.zone requestedStart k)) = some o → o.is_blocked = false) ∧
      (∀ o sh sm eh em, overrideRows (dayKey cfg.zone (dayAt cfg.zone requestedStart k)) = some o →
        o.custom_start_time = some (sh, sm) → o.custom_end_time = some (eh, em) →
        windowStart = setHours cfg.zone (dayAt cfg.zone requestedStart k) sh sm ∧
        windowEnd = setHours cfg.zone (dayAt cfg.zone requestedStart k) eh em) ∧
      ((∀ o, overrideRows (dayKey cfg.zone (dayAt cfg.zone requestedStart k)) = some o →
          o.custom_start_time = none ∨ o.custom_end_time = none) →
        windowStart = setHours cfg.zone (dayAt cfg.zone requestedStart k) cfg.startHour cfg.startMinute ∧
        windowEnd = setHours cfg.zone (dayAt cfg.zone requestedStart k) cfg.endHour cfg.endMinute) := by
  obtain ⟨_, k, hk, ⟨ws, we, hwin, _, hlo, hfit, _⟩, _, _⟩ := scanForSlot_some h
  obtain ⟨h1, h2, h3, _⟩ := toWindowForDay_some hwin
  refine ⟨k, hk, ws, we, hwin, ?_, hfit, h1, h2, h3⟩
  by_cases hk0 : k = 0
  · rw [if_pos hk0] at hlo
    exact le_trans (le_max_left _ _) hlo
  · rw [if_neg hk0] at hlo
    exact hlo

theorem scanForSlot_within_business_hours_witness :
    scanForSlot defaultConfig 1772370000000 60 scenarioBusy noOverrides 0 =
      some 1772373600000 ∧
    ∃ k, k ≤ 0 ∧ ∃ windowStart windowEnd,
      toWindowForDay defaultConfig (dayAt defaultConfig.zone 1772370000000 k)
        (noOverrides (dayKey defaultConfig.zone (dayAt defaultConfig.zone 1772370000000 k))) = some (windowStart, windowEnd) ∧
      windowStart ≤ 1772373600000 ∧
      1772373600000 + ((60 : Nat) : Int) * 60000 ≤ windowEnd ∧
      (∀ o, noOverrides (dayKey defaultConfig.zone (dayAt defaultConfig.zone 1772370000000 k)) = some o →
        o.is_blocked = false) ∧
      (∀ o sh sm eh em, noOverrides (dayKey defaultConfig.zone (dayAt defaultConfig.zone 1772370000000 k)) = some o →
        o.custom_start_time = some (sh, sm) → o.custom_end_time = some (eh, em) →
        windowStart = setHours defaultConfig.zone (dayAt defaultConfig.zone 1772370000000 k) sh sm ∧
        windowEnd = setHours defaultConfig.zone (dayAt defaultConfig.zone 1772370000000 k) eh em) ∧
      ((∀ o, noOverrides (dayKey defaultConfig.zone (dayAt defaultConfig.zone 1772370000000 k)) = some o →
          o.custom_start_time = none ∨ o.custom_end_time = none) →
        windowStart =
          setHours defaultConfig.zone (dayAt defaultConfig.zone 1772370000000 k) defaultConfig.startHour defaultConfig.startMinute ∧
        windowEnd =
          setHours defaultConfig.zone (dayAt defaultConfig.zone 1772370000000 k) defaultConfig.endHour defaultConfig.endMinute) :=
  ⟨by decide,
   scanForSlot_within_business_hours defaultConfig 1772370000000 60 scenarioBusy
     noOverrides 0 1772373600000 (by decide)⟩

/-! ### Days and time zones -/

/-- A slot found on the first scanned day is never earlier than the requested start, in
every time zone. -/
theorem dayFeasible_zero_not_before_request {cfg : Config} {requestedStart durationMs : Int}
    {busyRows : List Busy} {overrideRows : Int → Option OverrideRow} {t : Int}
    (h : DayFeasible cfg requestedStart durationMs busyRows overrideRows 0 t) :
    requestedStart ≤ t := by
  obtain ⟨ws, we, _, _, hlo, _, _⟩ := h
  rw [if_pos rfl] at hlo
  exact le_trans (le_max_right _ _) hlo

/-- In a zone of fixed offset the scanned days are the local midnights of consecutive
calendar days. -/
theorem dayAt_fixed_offset {zone : Zone} (hfix : FixedOffset zone) (requestedStart : Int)
    (k : Nat) :
    startOfDay zone (dayAt zone requestedStart k) = dayAt zone requestedStart k ∧
    dayKey zone (dayAt zone requestedStart k) = dayKey zone requestedStart + k := by
  obtain ⟨offset, hto, hfrom⟩ := hfix
  simp only [startOfDay, dayAt, dayKey, addMinutes, hto, hfrom]
  constructor <;> omega

/-- In a zone of fixed offset an instant set by `setHours` on a scanned day after the
first is after the requested start. -/
theorem setHours_dayAt_fixed_offset {zone : Zone} (hfix : FixedOffset zone)
    (requestedStart : Int) (k h m : Nat) :
    setHours zone (dayAt zone requestedStart k) h m =
      dayAt zone requestedStart k + h * 3600000 + m * 60000 ∧
    (1 ≤ k → requestedStart ≤ setHours zone (dayAt zone requestedStart k) h m) := by
  obtain ⟨offset, hto, hfrom⟩ := hfix
  simp only [setHours, startOfDay, dayAt, addMinutes, hto, hfrom]
  constructor
  · omega
  · intro hk
    omega

/-- In a process whose time zone has a fixed offset (UTC for one), the scanner never
proposes a time before the request. -/
theorem scanForSlot_not_before_request_fixed_offset (cfg : Config) (requestedStart : Int)
    (durationMinutes : Nat) (busyRows : List Busy) (overrideRows : Int → Option OverrideRow)
    (horizonDays : Nat) (t : Int) (hfix : FixedOffset cfg.zone)
    (h : scanForSlot cfg requestedStart durationMinutes busyRows overrideRows horizonDays =
      some t) :
    requestedStart ≤ t := by
  obtain ⟨_, k, _, ⟨ws, we, hwin, _, hlo, _, _⟩, _, _⟩ := scanForSlot_some h
  by_cases hk0 : k = 0
  · rw [if_pos hk0] at hlo
    exact le_trans (le_max_right _ _) hlo
  · rw [if_neg hk0] at hlo
    obtain ⟨_, _, _, h1, m1, _, _, hws, _⟩ := toWindowForDay_some hwin
    have hge := (setHours_dayAt_fixed_offset hfix requestedStart k h1 m1).2 (by omega)
    rw [← hws] at hge
    exact le_trans hge hlo

theorem fixedOffset_utc : FixedOffset utcZone :=
  ⟨0, fun t => by simp [utcZone], fun t => by simp [utcZone]⟩

/-- C19. The scanner proposes a time before the request on a day of 25 hours. In US
Eastern time, for a request at 2026-11-01T22:30Z (17:30 local, the day daylight saving
time ends) of 60 minutes with a horizon of one day and no reservation at all, scanForSlot
returns 2026-11-01T14:30Z, eight hours before the requested start: nothing fits on day 0
after the clamp, and the day scanned at offset 1, firstDay plus 24 hours, is 23:00 local
of the same calendar day, whose window from 09:30 is scanned without the clamp. So does
getNextAvailable with the default horizon. -/
theorem scanForSlot_before_request_on_long_day :
    scanForSlot easternConfig 1793572200000 60 [] noOverrides 1 = some 1793543400000 ∧
    (1793543400000 : Int) < 1793572200000 ∧
    dayAt easternZone 1793572200000 0 = 1793505600000 ∧
    dayAt easternZone 1793572200000 1 = 1793592000000 ∧
    dayKey easternZone (dayAt easternZone 1793572200000 1) =
      dayKey easternZone (dayAt easternZone 1793572200000 0) ∧
    toWindowForDay easternConfig (dayAt easternZone 1793572200000 0) none =
      some (1793543400000, 1793574000000) ∧
    toWindowForDay easternConfig (dayAt easternZone 1793572200000 1) none =
      some (1793543400000, 1793574000000) ∧
    getNextAvailable easternConfig [] [] 1793572200000 60 none none = some 1793543400000 := by
  decide

/-- First fit over scanned days that do not run into each other. When the slot size is
positive and the window of every scanned day lies within the 24 hours that start at the
scanned instant, scanForSlot returns the least instant t of the slot grid, over days 0 to
horizonDays, such that t is not before the day's window start (nor before requestedStart
on day 0), t + duration is not after the day's window end and [t, t + duration) overlaps
no busy interval; it returns null if and only if there is no such instant. -/
theorem scanForSlot_first_fit_of_blocks (cfg : Config) (requestedStart : Int)
    (durationMinutes : Nat) (busyRows : List Busy) (overrideRows : Int → Option OverrideRow)
    (horizonDays : Nat) (hs : 0 < cfg.slotMinutes)
    (hwin : ∀ k, k ≤ horizonDays → ∀ windowStart windowEnd,
      toWindowForDay cfg (dayAt cfg.zone requestedStart k)
        (overrideRows (dayKey cfg.zone (dayAt cfg.zone requestedStart k))) =
          some (windowStart, windowEnd) →
      dayAt cfg.zone requestedStart k ≤ windowStart ∧
        windowEnd ≤ dayAt cfg.zone requestedStart k + 86400000) :
    (∀ t, scanForSlot cfg requestedStart durationMinutes busyRows overrideRows horizonDays =
        some t →
      Feasible cfg requestedStart ((durationMinutes : Int) * 60000) busyRows overrideRows
        horizonDays t ∧
      ∀ u, Feasible cfg requestedStart ((durationMinutes : Int) * 60000) busyRows overrideRows
        horizonDays u → t ≤ u) ∧
    (scanForSlot cfg requestedStart durationMinutes busyRows overrideRows horizonDays = none ↔
      ∀ u, ¬Feasible cfg requestedStart ((durationMinutes : Int) * 60000) busyRows
        overrideRows horizonDays u) := by
  have part1 : ∀ t,
      scanForSlot cfg requestedStart durationMinutes busyRows overrideRows horizonDays =
        some t →
      Feasible cfg requestedStart ((durationMinutes : Int) * 60000) busyRows overrideRows
        horizonDays t ∧
      ∀ u, Feasible cfg requestedStart ((durationMinutes : Int) * 60000) busyRows overrideRows
        horizonDays u → t ≤ u := by
    intro t h
    obtain ⟨_, k, hk, hf, hl, he⟩ := scanForSlot_some h
    refine ⟨⟨k, hk, hf⟩, ?_⟩
    rintro u ⟨j, hj, hju⟩
    rcases Nat.lt_trichotomy j k with hlt | heq | hgt
    · exact absurd hju (he j hlt u)
    · subst heq; exact hl u hju
    · obtain ⟨ws, we, hw, _, _, hfit, _⟩ := hf
      obtain ⟨ws1, we1, hw1, _, hlo1, _, _⟩ := hju
      have h1 := (hwin k hk ws we hw).2
      have h2 := (hwin j hj ws1 we1 hw1).1
      rw [if_neg (by omega)] at hlo1
      have hd : (0 : Int) ≤ (durationMinutes : Int) * 60000 := by omega
      have hdays : dayAt cfg.zone requestedStart k + 86400000 ≤
          dayAt cfg.zone requestedStart j := by
        unfold dayAt addMinutes
        omega
      omega
  refine ⟨part1, ?_, ?_⟩
  · intro h u
    rintro ⟨j, hj, hju⟩
    unfold scanForSlot at h
    exact (scanDays_spec hs requestedStart ((durationMinutes : Int) * 60000) busyRows
      overrideRows (horizonDays + 1) 0).2 h j (by omega) (by omega) u hju
  · intro hnone
    cases h : scanForSlot cfg requestedStart durationMinutes busyRows overrideRows
        horizonDays with
    | none => rfl
    | some t => exact absurd (part1 t h).1 (hnone t)

/-- First fit in a zone of fixed offset. When the time zone of the process has a fixed
offset, the slot size is positive and the window of every scanned day lies inside that
calendar day (from its local midnight to the next), scanForSlot returns the least
feasible instant over days 0 to horizonDays, and null if and only if there is none. -/
theorem scanForSlot_first_fit_fixed_offset (cfg : Config) (requestedStart : Int)
    (durationMinutes : Nat) (busyRows : List Busy) (overrideRows : Int → Option OverrideRow)
    (horizonDays : Nat) (hfix : FixedOffset cfg.zone) (hs : 0 < cfg.slotMinutes)
    (hwin : ∀ k, k ≤ horizonDays → ∀ windowStart windowEnd,
      toWindowForDay cfg (dayAt cfg.zone requestedStart k)
        (overrideRows (dayKey cfg.zone (dayAt cfg.zone requestedStart k))) =
          some (windowStart, windowEnd) →
      startOfDay cfg.zone (dayAt cfg.zone requestedStart k) ≤ windowStart ∧
        windowEnd ≤ startOfDay cfg.zone (dayAt cfg.zone requestedStart k) + 86400000) :
    (∀ t, scanForSlot cfg requestedStart durationMinutes busyRows overrideRows horizonDays =
        some t →
      Feasible cfg requestedStart ((durationMinutes : Int) * 60000) busyRows overrideRows
        horizonDays t ∧
      ∀ u, Feasible cfg requestedStart ((durationMinutes : Int) * 60000) busyRows overrideRows
        horizonDays u → t ≤ u) ∧
    (scanForSlot cfg requestedStart durationMinutes busyRows overrideRows horizonDays = none ↔
      ∀ u, ¬Feasible cfg requestedStart ((durationMinutes : Int) * 60000) busyRows
        overrideRows horizonDays u) := by
  apply scanForSlot_first_fit_of_blocks cfg requestedStart durationMinutes busyRows
    overrideRows horizonDays hs
  intro k hk ws we hw
  have h := hwin k hk ws we hw
  rw [(dayAt_fixed_offset hfix requestedStart k).1] at h
  exact h

/-- The look-ahead scenario with a horizon of one day, in UTC: 14:00 is feasible and no
feasible instant is earlier. -/
theorem scanForSlot_first_fit_sample :
    scanForSlot defaultConfig 1772370000000 60 scenarioBusy noOverrides 1 =
      some 1772373600000 ∧
    Feasible defaultConfig 1772370000000 (((60 : Nat) : Int) * 60000) scenarioBusy
      noOverrides 1 1772373600000 ∧
    ∀ u, Feasible defaultConfig 1772370000000 (((60 : Nat) : Int) * 60000) scenarioBusy
      noOverrides 1 u → 1772373600000 ≤ u :=
  ⟨by decide,
   (scanForSlot_first_fit_fixed_offset defaultConfig 1772370000000 60 scenarioBusy
      noOverrides 1 fixedOffset_utc (by decide)
      (fun k hk ws we h => by
        have hk01 : k = 0 ∨ k = 1 := by omega
        rcases hk01 with rfl | rfl <;>
          (simp [toWindowForDay, setHours, startOfDay, dayAt, addMinutes, defaultConfig,
             utcZone, noOverrides] at h ⊢
           omega))).1 1772373600000 (by decide)⟩

/-- C20. First fit fails on a day of 25 hours. In US Eastern time, for a request at
2026-11-01T15:00Z (10:00 local, the day daylight saving time ends) of 60 minutes with a
horizon of one day and no reservation, the slot size is positive and the window of each
of the two scanned days lies inside its own calendar day, yet scanForSlot returns
2026-11-01T15:00Z while 2026-11-01T14:30Z is a feasible instant of the day scanned at
offset 1 (slot-aligned, at that day's window start, ending by its window end, no busy
interval): the returned instant is not the least. -/
theorem scanForSlot_not_least_on_long_day :
    scanForSlot easternConfig 1793545200000 60 [] noOverrides 1 = some 1793545200000 ∧
    Feasible easternConfig 1793545200000 (((60 : Nat) : Int) * 60000) [] noOverrides 1
      1793543400000 ∧
    (1793543400000 : Int) < 1793545200000 ∧
    0 < easternConfig.slotMinutes ∧
    (∀ k, k ≤ 1 → ∀ windowStart windowEnd,
      toWindowForDay easternConfig (dayAt easternZone 1793545200000 k)
        (noOverrides (dayKey easternZone (dayAt easternZone 1793545200000 k))) =
          some (windowStart, windowEnd) →
      dayKey easternZone windowStart = dayKey easternZone (dayAt easternZone 1793545200000 k) ∧
      dayKey easternZone windowEnd = dayKey easternZone (dayAt easternZone 1793545200000 k) ∧
      startOfDay easternZone (dayAt easternZone 1793545200000 k) ≤ windowStart ∧
      windowEnd ≤ startOfDay easternZone (dayAt easternZone 1793545200000 k) + 90000000) := by
  refine ⟨by decide, ⟨1, by decide, 1793543400000, 1793574000000, by decide, by decide,
    by decide, by decide, fun b hb => by simp at hb⟩, by decide, by decide, ?_⟩
  intro k hk ws we h
  have hk01 : k = 0 ∨ k = 1 := by omega
  have hw0 : toWindowForDay easternConfig (dayAt easternZone 1793545200000 0)
      (noOverrides (dayKey easternZone (dayAt easternZone 1793545200000 0))) =
        some (1793543400000, 1793574000000) := by decide
  have hw1 : toWindowForDay easternConfig (dayAt easternZone 1793545200000 1)
      (noOverrides (dayKey easternZone (dayAt easternZone 1793545200000 1))) =
        some (1793543400000, 1793574000000) := by decide
  rcases hk01 with rfl | rfl
  · rw [hw0] at h
    injection h with h
    injection h with h1 h2
    subst h1; subst h2
    decide
  · rw [hw1] at h
    injection h with h
    injection h with h1 h2
    subst h1; subst h2
    decide

/-- Within the horizon the proposal of getNextAvailable is free, in a zone of fixed
offset: when it returns t and the candidate ends by the end of the horizon, no active
reservation of the store other than the excluded one shares an instant with
[t, t + duration). -/
theorem getNextAvailable_free_within_horizon (cfg : Config) (appointments : List Appointment)
    (overrides : List OverrideRow) (requestedStart : Int) (durationMinutes : Nat)
    (excludeAppointmentId : Option String) (horizonDays : Option Nat) (t : Int)
    (hfix : FixedOffset cfg.zone)
    (h : getNextAvailable cfg appointments overrides requestedStart durationMinutes
      excludeAppointmentId horizonDays = some t)
    (hin : t + (durationMinutes : Int) * 60000 ≤
      addMinutes requestedStart ((horizonDays.getD cfg.horizonDays : Nat) * 24 * 60)) :
    ∀ r ∈ appointments, (r.status = Status.pending_approval ∨ r.status = Status.confirmed) →
      (truthy excludeAppointmentId = true → some r.id ≠ excludeAppointmentId) →
      ¬Intersect r.start_time r.end_time t (t + (durationMinutes : Int) * 60000) := by
  intro r hr hact hex
  rintro ⟨τ, h1, h2, h3, h4⟩
  unfold getNextAvailable at h
  simp only at h
  -- the request is not after the proposal
  have hreq : requestedStart ≤ t :=
    scanForSlot_not_before_request_fixed_offset cfg requestedStart durationMinutes _ _ _ t
      hfix h
  obtain ⟨_, k, _, ⟨ws, we, hwin, _, hlo, _, hfree⟩, _, _⟩ := scanForSlot_some h
  -- so the reservation was loaded as a busy interval
  have hload : ({ id := r.id, start := r.start_time, stop := r.end_time } : Busy) ∈
      loadBusyAppointments appointments requestedStart
        (addMinutes requestedStart ((horizonDays.getD cfg.horizonDays : Nat) * 24 * 60))
        excludeAppointmentId := by
    unfold loadBusyAppointments
    rw [List.mem_map]
    refine ⟨r, ?_, rfl⟩
    rw [(List.perm_insertionSort _ _).mem_iff, List.mem_filter]
    refine ⟨hr, ?_⟩
    have hov : rangesOverlap r.start_time r.end_time requestedStart
        (addMinutes requestedStart ((horizonDays.getD cfg.horizonDays : Nat) * 24 * 60)) =
        true := (rangesOverlap_iff _ _ _ _).mpr ⟨τ, h1, h2, by omega, by omega⟩
    by_cases ht : truthy excludeAppointmentId = true
    · simp [(active_iff r).mpr hact, hov, ht, hex ht]
    · simp [(active_iff r).mpr hact, hov, ht]
  have := hfree _ hload
  unfold overlaps at this
  have h5 : t < r.end_time := by omega
  have h6 : t + (durationMinutes : Int) * 60000 > r.start_time := by omega
  simp [h5, h6] at this

/-! ### The look-ahead scenario -/

/-- C21, as the code behaves. With default business hours, no overrides and one confirmed
reservation on 2026-03-01 from 13:00 to 14:00 (UTC), a book command for 13:00 of 60 minutes
is answered, when the conflict read succeeds and the availability service is the scanner,
with status conflict and proposedTime 2026-03-01T14:00:00Z: a 30-minute-aligned slot of the
same day, inside business hours and free. Nothing is written. -/
theorem book_scenario_proposes_next_free_slot (env : Env) (hq : env.queryFault 1 = none)
    (hscan : env.getNextAvailable = (scannerEnv defaultConfig []).getNextAvailable) :
    handleBook env (sampleCommand "book" "" 1772370000000 60) scenarioWorld =
      (.ok (Response.conflict "book" 1772370000000 (some 1772373600000)),
       { db := scenarioWorld.db, trace := [Event.query, Event.getNextAvailable] }) ∧
    dayKey utcZone 1772373600000 = dayKey utcZone 1772370000000 ∧
    ((defaultConfig.slotMinutes : Int) * 60000) ∣ 1772373600000 ∧
    setHours utcZone 1772370000000 defaultConfig.startHour defaultConfig.startMinute ≤ 1772373600000 ∧
    1772373600000 + 60 * 60000 ≤
      setHours utcZone 1772370000000 defaultConfig.endHour defaultConfig.endMinute ∧
    ∀ r ∈ scenarioWorld.db.appointments,
      ¬Intersect r.start_time r.end_time 1772373600000 (1772373600000 + 60 * 60000) := by
  refine ⟨?_, by decide, by decide, by decide, by decide, ?_⟩
  · unfold handleBook findConflict
    simp only [pRetry, hq, buildConflictResponse, hscan]
    have hread : (overlapRangeQuery scenarioWorld.db.appointments
        (sampleCommand "book" "" 1772370000000 60).requestedStart
        (addMinutes (sampleCommand "book" "" 1772370000000 60).requestedStart
          ((sampleCommand "book" "" 1772370000000 60).durationMinutes : Int)) none).head? =
        some (sampleRow "existing-appt" 1772370000000 1772373600000 Status.confirmed
          none 2) := by
      decide
    rw [hread]
    dsimp only
    decide
  · intro r hr
    have hr2 : r = sampleRow "existing-appt" 1772370000000 1772373600000 Status.confirmed
        none 2 := by
      simpa [scenarioWorld, sampleWorld] using hr
    subst hr2
    rintro ⟨t, h1, h2, h3, h4⟩
    simp only [sampleRow] at h1 h2
    omega

theorem book_scenario_proposes_next_free_slot_witness :
    handleBook (scannerEnv defaultConfig []) (sampleCommand "book" "" 1772370000000 60)
        scenarioWorld =
      (.ok (Response.conflict "book" 1772370000000 (some 1772373600000)),
       { db := scenarioWorld.db, trace := [Event.query, Event.getNextAvailable] }) :=
  (book_scenario_proposes_next_free_slot (scannerEnv defaultConfig []) (by decide) rfl).1

/-- C21, the scenario as stated fails: the proposed time is on 2026-03-01, before the
start of 2026-03-02 (1772409600000), and not the 2026-03-02T09:30:00Z of the unit test,
whose availability service is a stub. -/
theorem book_scenario_not_next_day :
    (handleBook (scannerEnv defaultConfig []) (sampleCommand "book" "" 1772370000000 60)
        scenarioWorld).1 =
      .ok (Response.conflict "book" 1772370000000 (some 1772373600000)) ∧
    (1772373600000 : Int) < startOfDay utcZone 1772443800000 ∧
    startOfDay utcZone 1772443800000 = 1772409600000 ∧
    dayKey utcZone 1772373600000 ≠ dayKey utcZone 1772443800000 ∧
    (handleBook lookAheadEnv (sampleCommand "book" "" 1772370000000 60) scenarioWorld).1 =
      .ok (Response.conflict "book" 1772370000000 (some 1772443800000)) := by
  decide

/-! ## The signature verifier -/

theorem truthy_some {s : String} (h : s ≠ "") : truthy (some s) = true := by
  simp [truthy, h]

theorem hexValue_hexDigit (n : Nat) (h : n < 16) : hexValue (hexDigit n) = some n := by
  interval_cases n <;> decide

theorem bufferFromHex_toHex_append (bytes : List (Fin 256)) (tail : List Char)
    (htail : tail.length ≤ 1) : bufferFromHex (toHex bytes ++ tail) = bytes := by
  induction bytes with
  | nil =>
    match tail, htail with
    | [], _ => rfl
    | [_], _ => rfl
  | cons b rest ih =>
    have h1 : b.val / 16 < 16 := by omega
    have h2 : b.val % 16 < 16 := by omega
    have hb : (Fin.ofNat (16 * (b.val / 16) + b.val % 16) : Fin 256) = b := by
      apply Fin.ext
      simp only [Fin.ofNat, Fin.val_mk]
      omega
    have hstep : bufferFromHex (toHex (b :: rest) ++ tail) =
        Fin.ofNat (16 * (b.val / 16) + b.val % 16) :: bufferFromHex (toHex rest ++ tail) := by
      simp only [toHex, List.cons_append, bufferFromHex, hexValue_hexDigit _ h1,
        hexValue_hexDigit _ h2]
      rfl
    rw [hstep, ih, hb]

theorem bufferFromHex_toHex (bytes : List (Fin 256)) : bufferFromHex (toHex bytes) = bytes := by
  simpa using bufferFromHex_toHex_append bytes [] (by simp)

theorem toHex_all_hex (bytes : List (Fin 256)) :
    (toHex bytes).all (fun c => (hexValue c).isSome) = true := by
  induction bytes with
  | nil => rfl
  | cons b rest ih =>
    have h1 : b.val / 16 < 16 := by omega
    have h2 : b.val % 16 < 16 := by omega
    simp only [toHex, List.all_cons, hexValue_hexDigit _ h1, hexValue_hexDigit _ h2,
      Option.isSome_some, Bool.true_and, ih]

theorem toHex_length (bytes : List (Fin 256)) : (toHex bytes).length = 2 * bytes.length := by
  induction bytes with
  | nil => rfl
  | cons b rest ih => simp only [toHex, List.length_cons, ih]; omega

/-- The comparison made by `safeEqualsHex` against an expected digest in hexadecimal. -/
theorem safeEqualsHex_toHex (providedHex : String) (bytes : List (Fin 256)) :
    safeEqualsHex providedHex (String.mk (toHex bytes)) = true ↔
      bufferFromHex providedHex.data = bytes := by
  unfold safeEqualsHex
  simp only [bufferFromHex_toHex]
  constructor
  · intro h
    split at h
    · cases h
    · simpa using h
  · intro h
    simp [h]

/-- When the checks before the comparison pass, the verifier returns the outcome of the
comparison, with the tier, the timestamp and the raw body it used. -/
theorem verify_of_passes {rt : Runtime} {req : Request}
    {timestampRaw signature auditTier : String} {timestampMs : ℚ} {secret : String}
    (h : PassesChecks rt req timestampRaw signature auditTier timestampMs secret) :
    verifyTieredAuditRouteSignature rt req =
      { ok := isHex signature && safeEqualsHex signature
          (String.mk (toHex (rt.hmacSha256 secret
            (canonicalString rt req timestampMs auditTier))))
        reason :=
          if (isHex signature && safeEqualsHex signature
            (String.mk (toHex (rt.hmacSha256 secret
              (canonicalString rt req timestampMs auditTier))))) = true then none
          else some "signature_mismatch"
        auditTier := some auditTier
        timestampMs := some timestampMs
        rawBody := some (normalizeRawBody rt req) } := by
  obtain ⟨h1, h1n, h2, h2n, h3, h3n, hnum, hskew, hsec, hsecn⟩ := h
  unfold verifyTieredAuditRouteSignature
  simp only [h1, h2, h3, truthy_some h1n, truthy_some h2n, truthy_some h3n, Option.getD_some,
    hnum, hsec, truthy_some hsecn, Bool.not_true, Bool.or_self, Bool.false_eq_true, if_false]
  rw [if_neg (not_lt.mpr (by unfold DEFAULT_MAX_SKEW_MS; norm_num; exact hskew))]

/-- The signatures the verifier accepts, when the earlier checks pass: the strings of
hexadecimal digits whose decoding by `Buffer.from(_, 'hex')` is the digest. -/
theorem verify_ok_iff {rt : Runtime} {req : Request}
    {timestampRaw signature auditTier : String} {timestampMs : ℚ} {secret : String}
    (h : PassesChecks rt req timestampRaw signature auditTier timestampMs secret) :
    (verifyTieredAuditRouteSignature rt req).ok = true ↔
      isHex signature = true ∧
      bufferFromHex signature.data =
        rt.hmacSha256 secret (canonicalString rt req timestampMs auditTier) := by
  rw [verify_of_passes h]
  simp only [Bool.and_eq_true, safeEqualsHex_toHex]

/-- C22. The comparison accepts a signature that is longer than the expected digest. For
every request that passes the header, timestamp and secret checks and whose signature is
the expected hexadecimal digest followed by one more hexadecimal digit, the verifier
returns ok = true with no reason, although the signature and the expected digest differ
in length: `Buffer.from(_, 'hex')` drops the odd digit and the lengths compared are those
of the decoded buffers. -/
theorem signature_with_trailing_digit_accepted (rt : Runtime) (req : Request)
    (timestampRaw signature auditTier : String) (timestampMs : ℚ) (secret : String) (c : Char)
    (h : PassesChecks rt req timestampRaw signature auditTier timestampMs secret)
    (hc : (hexValue c).isSome = true)
    (hsig : signature = String.mk (toHex (rt.hmacSha256 secret
      (canonicalString rt req timestampMs auditTier)) ++ [c])) :
    (verifyTieredAuditRouteSignature rt req).ok = true ∧
    (verifyTieredAuditRouteSignature rt req).reason = none ∧
    signature.data.length =
      (toHex (rt.hmacSha256 secret (canonicalString rt req timestampMs auditTier))).length
        + 1 := by
  have hok : (verifyTieredAuditRouteSignature rt req).ok = true := by
    rw [verify_ok_iff h]
    subst hsig
    refine ⟨?_, bufferFromHex_toHex_append _ [c] (by simp)⟩
    unfold isHex
    simp only [List.all_append, toHex_all_hex, List.all_cons, hc, List.all_nil, Bool.and_self,
      Bool.and_true]
    cases hx : toHex (rt.hmacSha256 secret (canonicalString rt req timestampMs auditTier)) <;>
      rfl
  refine ⟨hok, ?_, ?_⟩
  · rw [verify_of_passes h] at hok ⊢
    simp only at hok
    simp only [hok, if_true]
  · subst hsig
    simp

theorem signature_with_trailing_digit_accepted_witness :
    (verifyTieredAuditRouteSignature sampleRuntime overlongRequest).ok = true ∧
    (verifyTieredAuditRouteSignature sampleRuntime overlongRequest).reason = none ∧
    (sampleSignature ++ "0").data.length =
      (toHex (sampleRuntime.hmacSha256 "test-tier2-secret"
        (canonicalString sampleRuntime overlongRequest 1772370000000 "tier2"))).length + 1 :=
  signature_with_trailing_digit_accepted sampleRuntime overlongRequest "1772370000000"
    (sampleSignature ++ "0") "tier2" 1772370000000 "test-tier2-secret" '0'
    ⟨by decide!, by decide!, by decide!, by decide!, by decide!, by decide!, by decide!,
      by decide!, by decide!, by decide!⟩
    (by decide!) (by decide!)

/-- C23. Freshness window. For every request that carries the three headers (non-empty)
and whose timestamp reads as the finite number ts, and every clock value now, the verifier
returns reason timestamp_out_of_window if and only if |now - ts| > 300000, and then with
ok = false, whatever the signature and the configured secrets are; at a skew of exactly
300000 that reason is not returned. -/
theorem timestamp_out_of_window_iff (rt : Runtime) (req : Request)
    (timestampRaw signature auditTier : String) (timestampMs : ℚ)
    (h1 : getHeader req.headers "x-sentinel-timestamp" = some timestampRaw)
    (h1n : timestampRaw ≠ "")
    (h2 : getHeader req.headers "x-sentinel-signature" = some signature)
    (h2n : signature ≠ "")
    (h3 : getHeader req.headers "x-audit-tier" = some auditTier)
    (h3n : auditTier ≠ "")
    (hnum : rt.parseNumber timestampRaw = some timestampMs) :
    ((verifyTieredAuditRouteSignature rt req).reason = some "timestamp_out_of_window" ↔
      |(rt.now : ℚ) - timestampMs| > 300000) ∧
    (|(rt.now : ℚ) - timestampMs| > 300000 →
      verifyTieredAuditRouteSignature rt req =
        { ok := false, reason := some "timestamp_out_of_window" }) ∧
    (|(rt.now : ℚ) - timestampMs| = 300000 →
      (verifyTieredAuditRouteSignature rt req).reason ≠ some "timestamp_out_of_window") := by
  have hD : DEFAULT_MAX_SKEW_MS = 300000 := by unfold DEFAULT_MAX_SKEW_MS; norm_num
  have hlate : |(rt.now : ℚ) - timestampMs| > 300000 →
      verifyTieredAuditRouteSignature rt req =
        { ok := false, reason := some "timestamp_out_of_window" } := by
    intro hskew
    unfold verifyTieredAuditRouteSignature
    simp only [h1, h2, h3, truthy_some h1n, truthy_some h2n, truthy_some h3n,
      Option.getD_some, hnum, Bool.not_true, Bool.or_self, Bool.false_eq_true, if_false, hD]
    rw [if_pos hskew]
  have hfresh : ¬|(rt.now : ℚ) - timestampMs| > 300000 →
      (verifyTieredAuditRouteSignature rt req).reason ≠ some "timestamp_out_of_window" := by
    intro hskew
    unfold verifyTieredAuditRouteSignature
    simp only [h1, h2, h3, truthy_some h1n, truthy_some h2n, truthy_some h3n,
      Option.getD_some, hnum, Bool.not_true, Bool.or_self, Bool.false_eq_true, if_false, hD]
    rw [if_neg hskew]
    split
    · decide
    · simp only
      split <;> decide
  refine ⟨⟨fun hr => ?_, fun hskew => ?_⟩, hlate, fun heq => hfresh (by rw [heq]; norm_num)⟩
  · by_contra hskew
    exact hfresh hskew hr
  · rw [hlate hskew]

theorem timestamp_out_of_window_iff_witness :
    ((verifyTieredAuditRouteSignature sampleRuntime (stampedRequest "1772369699999")).reason =
        some "timestamp_out_of_window" ↔
      |(sampleRuntime.now : ℚ) - 1772369699999| > 300000) ∧
    (|(sampleRuntime.now : ℚ) - 1772369699999| > 300000 →
      verifyTieredAuditRouteSignature sampleRuntime (stampedRequest "1772369699999") =
        { ok := false, reason := some "timestamp_out_of_window" }) ∧
    (|(sampleRuntime.now : ℚ) - 1772369699999| = 300000 →
      (verifyTieredAuditRouteSignature sampleRuntime (stampedRequest "1772369699999")).reason ≠
        some "timestamp_out_of_window") :=
  timestamp_out_of_window_iff sampleRuntime (stampedRequest "1772369699999") "1772369699999"
    sampleSignature "tier2" 1772369699999 (by decide!) (by decide!) (by decide!) (by decide!)
    (by decide!) (by decide!) (by decide!)

/-- C24, as the code behaves. The string that is signed is upper(method) + "\n" + path +
"\n" + String(Number(timestamp header)) + "\n" + auditTier + "\n" + rawBody, where method
defaults to POST, path is originalUrl, else url, else "/", and rawBody is the raw body of
the request when it carries one, else the body when that is a string, else the
serialisation JSON.stringify of the parsed body; the verifier accepts exactly the
signatures that decode to the HMAC of that string. -/
theorem canonical_signing_string (rt : Runtime) (req : Request)
    (timestampRaw signature auditTier : String) (timestampMs : ℚ) (secret : String)
    (h : PassesChecks rt req timestampRaw signature auditTier timestampMs secret) :
    canonicalString rt req timestampMs auditTier =
      toUpperCase (req.method.getD "POST") ++ "\n" ++ (req.originalUrl <|> req.url).getD "/" ++
        "\n" ++ rt.numberToString timestampMs ++ "\n" ++ auditTier ++ "\n" ++
        normalizeRawBody rt req ∧
    rt.parseNumber timestampRaw = some timestampMs ∧
    (∀ raw, req.rawBody = some raw → normalizeRawBody rt req = raw) ∧
    (∀ text, req.rawBody = none → req.body = JsValue.string text →
      normalizeRawBody rt req = text) ∧
    (req.rawBody = none → (∀ text, req.body ≠ JsValue.string text) →
      normalizeRawBody rt req = rt.stringify (req.body.orElse (JsValue.object []))) ∧
    ((verifyTieredAuditRouteSignature rt req).ok = true ↔
      isHex signature = true ∧
      bufferFromHex signature.data =
        rt.hmacSha256 secret (canonicalString rt req timestampMs auditTier)) ∧
    (verifyTieredAuditRouteSignature rt req).rawBody = some (normalizeRawBody rt req) := by
  refine ⟨?_, h.2.2.2.2.2.2.1, ?_, ?_, ?_, verify_ok_iff h, ?_⟩
  · simp only [canonicalString, joinWith, String.append_assoc]
  · intro raw hraw
    simp only [normalizeRawBody, hraw]
  · intro text hraw hbody
    simp only [normalizeRawBody, hraw, hbody]
  · intro hraw hbody
    unfold normalizeRawBody
    rw [hraw]
    cases hb : req.body with
    | string text => exact absurd hb (hbody text)
    | _ => rfl
  · rw [verify_of_passes h]

theorem canonical_signing_string_witness :
    canonicalString sampleRuntime signedCancel 1772370000000 "tier2" =
      "POST\n/sentinel/agent\n1772370000000\ntier2\n" ++ sampleStringify cancelBody ∧
    (verifyTieredAuditRouteSignature sampleRuntime signedCancel).ok = true :=
  have h := canonical_signing_string sampleRuntime signedCancel "1772370000000"
    sampleSignature "tier2" 1772370000000 "test-tier2-secret"
    ⟨by decide!, by decide!, by decide!, by decide!, by decide!, by decide!, by decide!,
      by decide!, by decide!, by decide!⟩
  ⟨by decide!, h.2.2.2.2.2.1.mpr ⟨by decide!, by decide!⟩⟩

/-- C24, the claim as stated fails. A request without a raw body, with method `post`,
the parsed cancel command as its body and the timestamp header `01772370000000`, is
accepted with a signature over the string whose timestamp is `1772370000000` (not the
header value) and whose last part is a serialisation of the parsed body made by the
verifier. -/
theorem canonical_string_reserialises :
    parsedOnlyRequest.rawBody = none ∧
    getHeader parsedOnlyRequest.headers "x-sentinel-timestamp" = some "01772370000000" ∧
    verifyTieredAuditRouteSignature sampleRuntime parsedOnlyRequest =
      { ok := true, reason := none, auditTier := some "tier2"
        timestampMs := some 1772370000000
        rawBody := some (sampleRuntime.stringify cancelBody) } ∧
    canonicalString sampleRuntime parsedOnlyRequest 1772370000000 "tier2" =
      "POST\n/sentinel/agent\n1772370000000\ntier2\n" ++
        "\x7b\"action\":\"cancel\",\"auditTier\":\"tier2\",\"appointmentId\":\"appt-0001\"\x7d" ∧
    bufferFromHex sampleSignature.data =
      sampleRuntime.hmacSha256 "test-tier2-secret"
        ("POST\n/sentinel/agent\n1772370000000\ntier2\n" ++
          "\x7b\"action\":\"cancel\",\"auditTier\":\"tier2\",\"appointmentId\":\"appt-0001\"\x7d") := by
  decide!

/-- C25. The header lookup is not case-insensitive. The signed request whose three header
names are written `X-Sentinel-Timestamp`, `X-Sentinel-Signature`, `X-Audit-Tier` is
rejected with missing_signature_headers although none of the three is absent or empty,
while the same request with the names in lower case, or all in capitals, is accepted:
`getHeader` tries the name as given, in lower case and in capitals, nothing else. -/
theorem mixed_case_header_names_missed :
    verifyTieredAuditRouteSignature sampleRuntime mixedCaseRequest =
      { ok := false, reason := some "missing_signature_headers" } ∧
    mixedCaseRequest.headers.lookup "X-Sentinel-Timestamp" = some "1772370000000" ∧
    mixedCaseRequest.headers.lookup "X-Sentinel-Signature" = some sampleSignature ∧
    mixedCaseRequest.headers.lookup "X-Audit-Tier" = some "tier2" ∧
    (verifyTieredAuditRouteSignature sampleRuntime
      (withHeaders mixedCaseRequest
        (mixedCaseRequest.headers.map (fun kv => (toLowerCase kv.1, kv.2))))).ok = true ∧
    (verifyTieredAuditRouteSignature sampleRuntime upperCaseRequest).ok = true ∧
    (∀ rt req, req.headers.lookup "x-sentinel-timestamp" = none →
      req.headers.lookup "X-SENTINEL-TIMESTAMP" = none →
      verifyTieredAuditRouteSignature rt req =
        { ok := false, reason := some "missing_signature_headers" }) := by
  refine ⟨by decide!, by decide!, by decide!, by decide!, by decide!, by decide!, ?_⟩
  intro rt req hlow hup
  have hkey : getHeader req.headers "x-sentinel-timestamp" = none := by
    unfold getHeader
    have e1 : toLowerCase "x-sentinel-timestamp" = "x-sentinel-timestamp" := by decide
    have e2 : toUpperCase "x-sentinel-timestamp" = "X-SENTINEL-TIMESTAMP" := by decide
    rw [e1, e2, hlow, hup]
    rfl
  unfold verifyTieredAuditRouteSignature
  simp [hkey, truthy]

/-! ## The handlers -/

open createSentinelHandlers

/-- A rejected request carries one of the five reasons of the verifier. -/
theorem verify_reason_of_rejected (rt : Runtime) (req : Request)
    (h : (verifyTieredAuditRouteSignature rt req).ok = false) :
    ∃ reason, (verifyTieredAuditRouteSignature rt req).reason = some reason ∧
      reason ∈ ["missing_signature_headers", "invalid_timestamp", "timestamp_out_of_window",
        "missing_server_secret", "signature_mismatch"] := by
  unfold verifyTieredAuditRouteSignature at h ⊢
  simp only at h ⊢
  split
  · exact ⟨_, rfl, by simp⟩
  · rename_i hhead
    rw [if_neg hhead] at h
    split
    · exact ⟨_, rfl, by simp⟩
    · rename_i timestampMs hnum
      rw [hnum] at h
      simp only at h
      split
      · exact ⟨_, rfl, by simp⟩
      · rename_i hskew
        rw [if_neg hskew] at h
        split
        · exact ⟨_, rfl, by simp⟩
        · rename_i hsecret
          rw [if_neg hsecret] at h
          simp only at h
          refine ⟨"signature_mismatch", ?_, by simp⟩
          simp only [h, Bool.false_eq_true, if_false]

/-- C26. For every request that signature verification rejects, the sentinel handler
answers HTTP 403 with error text 'Unauthorized AI Agent request' and the verifier's reason
as code; it calls neither the sanitiser nor handleAgentAction and leaves the world as it
was. -/
theorem rejected_request_gets_403 (rt : Runtime) (appointments : Service) (req : Request)
    (w : World) (h : (verifyTieredAuditRouteSignature rt req).ok = false) :
    ∃ reason, (verifyTieredAuditRouteSignature rt req).reason = some reason ∧
      sentinel rt appointments req w =
        { response :=
            .ok { status := 403
                  body := ResponseBody.failure "Unauthorized AI Agent request" reason }
          calls := [], world := w } := by
  obtain ⟨reason, hreason, _⟩ := verify_reason_of_rejected rt req h
  refine ⟨reason, hreason, ?_⟩
  unfold sentinel
  simp only [h, hreason, Bool.not_false, if_true, Option.getD_some, sendError]

theorem rejected_request_gets_403_witness :
    (verifyTieredAuditRouteSignature sampleRuntime forgedRequest).ok = false ∧
    ∃ reason, (verifyTieredAuditRouteSignature sampleRuntime forgedRequest).reason =
        some reason ∧
      sentinel sampleRuntime (agentService calmEnv (fun _ w => (.error typeError, w)))
          forgedRequest (sampleWorld []) =
        { response :=
            .ok { status := 403
                  body := ResponseBody.failure "Unauthorized AI Agent request" reason }
          calls := [], world := sampleWorld [] } :=
  ⟨by decide!,
   rejected_request_gets_403 sampleRuntime
     (agentService calmEnv (fun _ w => (.error typeError, w))) forgedRequest (sampleWorld [])
     (by decide!)⟩

/-! ### Errors of the sanitiser -/

theorem boundedString_error {value : JsValue} {field : String} {max min : Nat} {e : JsError}
    (h : boundedString value field max min = .error e) :
    e.statusCode = some 400 ∧ e.code = some "invalid_payload" := by
  unfold boundedString at h
  split at h
  · simp only at h
    split at h
    · injection h with h; subst h; exact ⟨rfl, rfl⟩
    · cases h
  · injection h with h; subst h; exact ⟨rfl, rfl⟩

theorem optionalString_error {value : JsValue} {field : String} {max min : Nat} {e : JsError}
    (h : optionalString value field max min = .error e) :
    e.statusCode = some 400 ∧ e.code = some "invalid_payload" := by
  unfold optionalString at h
  split at h
  · cases h
  · cases h
  · cases hb : boundedString value field max min with
    | error e2 =>
      rw [hb] at h
      injection h with h; subst h
      exact boundedString_error hb
    | ok text => rw [hb] at h; cases h

theorem parseIsoDate_error {rt : Runtime} {value : JsValue} {field : String} {e : JsError}
    (h : parseIsoDate rt value field = .error e) :
    e.statusCode = some 400 ∧ e.code = some "invalid_payload" := by
  unfold parseIsoDate at h
  split at h
  · rename_i e2 hb
    injection h with h; subst h
    exact boundedString_error hb
  · split at h
    · injection h with h; subst h; exact ⟨rfl, rfl⟩
    · cases h

theorem parseDurationMinutes_error {rt : Runtime} {value : JsValue} {e : JsError}
    (h : parseDurationMinutes rt value = .error e) :
    e.statusCode = some 400 ∧ e.code = some "invalid_payload" := by
  unfold parseDurationMinutes at h
  simp only at h
  split at h
  · injection h with h; subst h; exact ⟨rfl, rfl⟩
  · split at h
    · injection h with h; subst h; exact ⟨rfl, rfl⟩
    · cases h

theorem parseClient_error {client : JsValue} {e : JsError}
    (h : parseClient client = .error e) :
    e.statusCode = some 400 ∧ e.code = some "invalid_payload" := by
  have hgo : ∀ e,
      (match boundedString
          ((client.get "phoneNumber").orElse
            ((client.get "phone_number").orElse (.string "")))
          "client.phoneNumber" 20 7 with
      | .error e => (.error e : Except JsError Person)
      | .ok phone =>
        if !isPhoneNumber phone then
          .error (JsError.HttpError 400 "client.phoneNumber format is invalid"
            "invalid_payload")
        else
          match boundedString ((client.get "name").orElse (.string "")) "client.name"
              120 1 with
          | .error e => .error e
          | .ok name =>
            match optionalString (client.get "email") "client.email" 200 0 with
            | .error e => .error e
            | .ok email => .ok { name := name, phoneNumber := phone, email := email }) =
        .error e →
      e.statusCode = some 400 ∧ e.code = some "invalid_payload" := by
    intro e h
    split at h
    · rename_i e2 hb
      injection h with h; subst h
      exact boundedString_error hb
    · split at h
      · injection h with h; subst h; exact ⟨rfl, rfl⟩
      · split at h
        · rename_i e2 hb
          injection h with h; subst h
          exact boundedString_error hb
        · split at h
          · rename_i e2 hb
            injection h with h; subst h
            exact optionalString_error hb
          · cases h
  unfold parseClient at h
  simp only at h
  split at h
  · exact hgo e h
  · exact hgo e h
  · injection h with h; subst h; exact ⟨rfl, rfl⟩

theorem sanitizeBase_error {body : JsValue} {e : JsError}
    (h : sanitizeBase body = .error e) :
    e.statusCode = some 400 ∧ e.code = some "invalid_payload" := by
  unfold sanitizeBase at h
  split at h
  · rename_i e2 hb
    injection h with h; subst h
    cases hb2 : boundedString ((body.get "action").orElse (.string "")) "action" 10 3 with
    | error e3 =>
      rw [hb2] at hb
      injection hb with hb; subst hb
      exact boundedString_error hb2
    | ok text => rw [hb2] at hb; cases hb
  · split at h
    · injection h with h; subst h; exact ⟨rfl, rfl⟩
    · split at h
      · rename_i e2 hb
        injection h with h; subst h
        exact optionalString_error hb
      · split at h
        · rename_i e2 hb
          injection h with h; subst h
          exact boundedString_error hb
        · split at h
          · rename_i e2 hb
            injection h with h; subst h
            exact optionalString_error hb
          · split at h
            · rename_i e2 hb
              injection h with h; subst h
              exact optionalString_error hb
            · cases h

theorem sanitizeAction_error {rt : Runtime} {body : JsValue} {base : Base} {e : JsError}
    (h : sanitizeAction rt body base = .error e) :
    e.statusCode = some 400 ∧ e.code = some "invalid_payload" := by
  unfold sanitizeAction at h
  simp only at h
  split at h
  · split at h
    · rename_i e2 hb
      injection h with h; subst h
      exact parseIsoDate_error hb
    · split at h
      · rename_i e2 hb
        injection h with h; subst h
        exact parseDurationMinutes_error hb
      · split at h
        · rename_i e2 hb
          injection h with h; subst h
          exact parseClient_error hb
        · cases h
  · split at h
    · split at h
      · rename_i e2 hb
        injection h with h; subst h
        exact boundedString_error hb
      · split at h
        · rename_i e2 hb
          injection h with h; subst h
          exact optionalString_error hb
        · cases h
    · split at h
      · rename_i e2 hb
        injection h with h; subst h
        exact boundedString_error hb
      · split at h
        · rename_i e2 hb
          injection h with h; subst h
          exact parseIsoDate_error hb
        · split at h
          · rename_i e2 hb
            injection h with h; subst h
            exact parseDurationMinutes_error hb
          · cases h

/-- The sentinel handler on a request that passes verification and whose body the
sanitiser rejects: the error is sent, the service is not called. -/
theorem sentinel_of_sanitize_error {rt : Runtime} {appointments : Service} {req : Request}
    {w : World} {e : JsError} (hver : (verifyTieredAuditRouteSignature rt req).ok = true)
    (hsan : sanitizeAgentPayload rt req.body = .error e) :
    sentinel rt appointments req w =
      { response := sendError e, calls := [Call.sanitizeAgentPayload], world := w } := by
  unfold sentinel
  simp only [hver, hsan, Bool.not_true, Bool.false_eq_true, if_false]

/-- The sentinel handler on a request that passes verification and sanitation with the
tier of its headers: the service is called with the sanitised command. -/
theorem sentinel_of_call {rt : Runtime} {appointments : Service} {req : Request}
    {w : World} {payload : Payload}
    (hver : (verifyTieredAuditRouteSignature rt req).ok = true)
    (hsan : sanitizeAgentPayload rt req.body = .ok payload)
    (htier : some payload.auditTier = (verifyTieredAuditRouteSignature rt req).auditTier) :
    sentinel rt appointments req w =
      match appointments.handleAgentAction payload w with
      | (.error e, w1) =>
        { response := sendError e
          calls := [Call.sanitizeAgentPayload, Call.handleAgentAction payload], world := w1 }
      | (.ok result, w1) =>
        { response :=
            .ok { status := if result.status = "pending_toney_approval" then 202 else 200
                  body := ResponseBody.result result }
          calls := [Call.sanitizeAgentPayload, Call.handleAgentAction payload], world := w1 } := by
  unfold sentinel
  simp only [hver, hsan, htier, Bool.not_true, Bool.false_eq_true, if_false, ne_eq,
    not_true_eq_false]

/-- The fixed response to a fault that is an error object. For every error object that
is not an HttpError, sendError answers HTTP 500 with the body {error: 'System fault.
Active recovery initiated.', code: 'sentinel_fault'}, the same for every such error; so
does the sentinel handler when handleAgentAction rejects with such an error, and the
approve handler when confirmPendingAppointment does, and two runs whose errors differ in
message or code produce identical responses. -/
theorem error_object_fault_gets_fixed_500 (rt : Runtime) (appointments : Service)
    (req : Request) (w w1 : World) (payload : Payload) (message : String)
    (code : Option String)
    (hver : (verifyTieredAuditRouteSignature rt req).ok = true)
    (hsan : sanitizeAgentPayload rt req.body = .ok payload)
    (htier : some payload.auditTier = (verifyTieredAuditRouteSignature rt req).auditTier)
    (hthrow : appointments.handleAgentAction payload w =
      (.error (JsError.Error message code), w1)) :
    (sentinel rt appointments req w).response =
      .ok { status := 500
            body := ResponseBody.failure "System fault. Active recovery initiated."
              "sentinel_fault" } ∧
    (∀ m c, sendError (JsError.Error m c) =
      .ok { status := 500
            body := ResponseBody.failure "System fault. Active recovery initiated."
              "sentinel_fault" }) ∧
    (∀ (other : Service) (w2 : World) (message2 : String) (code2 : Option String),
      other.handleAgentAction payload w = (.error (JsError.Error message2 code2), w2) →
      (sentinel rt other req w).response = (sentinel rt appointments req w).response) ∧
    (∀ (approvals : Service) (decision : Request) (approved : Bool) (m : String)
        (c : Option String),
      parseApprovedFlag (decision.body.get "approved") = .ok approved →
      (∀ args, (approvals.confirmPendingAppointment args w).1 = .error (JsError.Error m c)) →
      (approve rt approvals decision w).response =
        .ok { status := 500
              body := ResponseBody.failure "System fault. Active recovery initiated."
                "sentinel_fault" }) := by
  have hmain : ∀ (svc : Service) (w2 : World) (m : String) (c : Option String),
      svc.handleAgentAction payload w = (.error (JsError.Error m c), w2) →
      (sentinel rt svc req w).response =
        .ok { status := 500
              body := ResponseBody.failure "System fault. Active recovery initiated."
                "sentinel_fault" } := by
    intro svc w2 m c hsvc
    rw [sentinel_of_call hver hsan htier, hsvc]
    rfl
  refine ⟨hmain appointments w1 message code hthrow, fun _ _ => rfl, ?_, ?_⟩
  · intro other w2 message2 code2 hother
    rw [hmain other w2 message2 code2 hother, hmain appointments w1 message code hthrow]
  · intro approvals decision approved m c hflag hfail
    unfold approve
    simp only [hflag]
    split
    · rename_i e w3 hres
      have h3 := congrArg Prod.fst hres
      rw [hfail] at h3
      injection h3 with h3
      subst h3
      rfl
    · rename_i r w3 hres
      have h3 := congrArg Prod.fst hres
      rw [hfail] at h3
      cases h3

/-- The unit test "returns safe 500 response on upstream collapse without exposing stack
traces". -/
theorem error_object_fault_sample :
    (sentinel sampleRuntime
        (failingService
          (JsError.Error "FATAL: connection to database \"supabase\" failed" none))
        (signReq sampleRuntime baseBookBody "test-tier2-secret") (sampleWorld [])).response =
      .ok { status := 500
            body := ResponseBody.failure "System fault. Active recovery initiated."
              "sentinel_fault" } :=
  (error_object_fault_gets_fixed_500 sampleRuntime
    (failingService (JsError.Error "FATAL: connection to database \"supabase\" failed" none))
    (signReq sampleRuntime baseBookBody "test-tier2-secret") (sampleWorld []) (sampleWorld [])
    baseBookCommand "FATAL: connection to database \"supabase\" failed" none
    (by decide!) (by decide!) (by decide!) rfl).1

/-- C27. A fault that is not an error object gets no response. A thrown null or undefined
is not an HttpError, and on it sendError throws a TypeError (reading error.message for
the log) before it sends anything. So when handleAgentAction rejects with null or
undefined on a request that passes verification and sanitation, the sentinel handler
sends no response at all, neither the 500 with code sentinel_fault nor any other, and
its promise rejects with the TypeError; so does the approve handler when
confirmPendingAppointment rejects so. -/
theorem nullish_fault_gets_no_response (rt : Runtime) (appointments : Service)
    (req : Request) (w w1 : World) (payload : Payload)
    (hver : (verifyTieredAuditRouteSignature rt req).ok = true)
    (hsan : sanitizeAgentPayload rt req.body = .ok payload)
    (htier : some payload.auditTier = (verifyTieredAuditRouteSignature rt req).auditTier)
    (hthrow : appointments.handleAgentAction payload w = (.error JsError.nullish, w1)) :
    (∀ statusCode message code,
      JsError.nullish ≠ JsError.HttpError statusCode message code) ∧
    sendError JsError.nullish = .error typeError ∧
    (sentinel rt appointments req w).response = .error typeError ∧
    (∀ response : HttpResponse, (sentinel rt appointments req w).response ≠ .ok response) ∧
    (sentinel rt appointments req w).calls =
      [Call.sanitizeAgentPayload, Call.handleAgentAction payload] ∧
    (∀ (approvals : Service) (decision : Request) (approved : Bool),
      parseApprovedFlag (decision.body.get "approved") = .ok approved →
      (∀ args, (approvals.confirmPendingAppointment args w).1 = .error JsError.nullish) →
      (approve rt approvals decision w).response = .error typeError) := by
  have hmain : sentinel rt appointments req w =
      { response := .error typeError
        calls := [Call.sanitizeAgentPayload, Call.handleAgentAction payload]
        world := w1 } := by
    rw [sentinel_of_call hver hsan htier, hthrow]
    rfl
  refine ⟨fun _ _ _ h => (by cases h), rfl, (by rw [hmain]), ?_, (by rw [hmain]), ?_⟩
  · intro response h
    rw [hmain] at h
    cases h
  · intro approvals decision approved hflag hfail
    unfold approve
    simp only [hflag]
    split
    · rename_i e w3 hres
      have h3 := congrArg Prod.fst hres
      rw [hfail] at h3
      injection h3 with h3
      subst h3
      rfl
    · rename_i r w3 hres
      have h3 := congrArg Prod.fst hres
      rw [hfail] at h3
      cases h3

theorem nullish_fault_gets_no_response_witness :
    (verifyTieredAuditRouteSignature sampleRuntime
      (signReq sampleRuntime baseBookBody "test-tier2-secret")).ok = true ∧
    sanitizeAgentPayload sampleRuntime
      (signReq sampleRuntime baseBookBody "test-tier2-secret").body = .ok baseBookCommand ∧
    (sentinel sampleRuntime (failingService JsError.nullish)
      (signReq sampleRuntime baseBookBody "test-tier2-secret") (sampleWorld [])).response =
      .error typeError ∧
    (approve sampleRuntime (failingService JsError.nullish) approvalRequest
      (sampleWorld [])).response = .error typeError :=
  have h := nullish_fault_gets_no_response sampleRuntime (failingService JsError.nullish)
    (signReq sampleRuntime baseBookBody "test-tier2-secret") (sampleWorld []) (sampleWorld [])
    baseBookCommand (by decide!) (by decide!) (by decide!) rfl
  ⟨by decide!, by decide!, h.2.2.1,
   h.2.2.2.2.2 (failingService JsError.nullish) approvalRequest false (by decide!)
     (fun _ => rfl)⟩

/-- C28. Oversized payloads are rejected first. For every JSON-object body whose
serialisation is longer than 8192, sanitizeAgentPayload fails with HttpError 413 and code
payload_too_large, whatever its fields are, and the sentinel handler, on a request that
passes verification, answers 413 after calling the sanitiser only; for every object body
whose serialisation is at most 8192 long every failure of the sanitiser is an HttpError
400 with code invalid_payload. -/
theorem oversized_payload_rejected_first (rt : Runtime) (fields : List (String × JsValue)) :
    (jsLength (rt.stringify (JsValue.object fields)) > 8192 →
      sanitizeAgentPayload rt (JsValue.object fields) =
        .error (JsError.HttpError 413 "payload too large" "payload_too_large")) ∧
    (jsLength (rt.stringify (JsValue.object fields)) > 8192 →
      ∀ (appointments : Service) (req : Request) (w : World),
        req.body = JsValue.object fields →
        (verifyTieredAuditRouteSignature rt req).ok = true →
        sentinel rt appointments req w =
          { response :=
              .ok { status := 413
                    body := ResponseBody.failure "payload too large" "payload_too_large" }
            calls := [Call.sanitizeAgentPayload], world := w }) ∧
    (jsLength (rt.stringify (JsValue.object fields)) ≤ 8192 →
      ∀ e, sanitizeAgentPayload rt (JsValue.object fields) = .error e →
        e.statusCode = some 400 ∧ e.code = some "invalid_payload" ∧
        e.code ≠ some "payload_too_large") := by
  have hbig : jsLength (rt.stringify (JsValue.object fields)) > 8192 →
      sanitizeAgentPayload rt (JsValue.object fields) =
        .error (JsError.HttpError 413 "payload too large" "payload_too_large") := by
    intro hlen
    simp only [sanitizeAgentPayload, normalizeBodySize, JsValue.orElse, MAX_BODY_BYTES]
    rw [if_pos (by omega)]
  refine ⟨hbig, ?_, ?_⟩
  · intro hlen appointments req w hbody hver
    rw [sentinel_of_sanitize_error hver (by rw [hbody]; exact hbig hlen)]
    rfl
  · intro hlen e h
    have hcode : e.statusCode = some 400 ∧ e.code = some "invalid_payload" := by
      simp only [sanitizeAgentPayload, normalizeBodySize, JsValue.orElse, MAX_BODY_BYTES] at h
      rw [if_neg (by omega)] at h
      simp only at h
      split at h
      · rename_i e2 hb
        injection h with h; subst h
        exact sanitizeBase_error hb
      · exact sanitizeAction_error h
    refine ⟨hcode.1, hcode.2, ?_⟩
    rw [hcode.2]
    decide

theorem oversized_payload_rejected_first_witness :
    jsLength (sampleRuntime.stringify poisonedBody) > 8192 ∧
    sanitizeAgentPayload sampleRuntime poisonedBody =
      .error (JsError.HttpError 413 "payload too large" "payload_too_large") ∧
    sentinel sampleRuntime (resolvingService (Response.already_cancelled "appt-0001"))
        (signReq sampleRuntime poisonedBody "test-tier2-secret") (sampleWorld []) =
      { response :=
          .ok { status := 413
                body := ResponseBody.failure "payload too large" "payload_too_large" }
        calls := [Call.sanitizeAgentPayload], world := sampleWorld [] } :=
  have h := oversized_payload_rejected_first sampleRuntime poisonedFields
  ⟨by decide!, h.1 (by decide!),
   h.2.1 (by decide!) (resolvingService (Response.already_cancelled "appt-0001"))
     (signReq sampleRuntime poisonedBody "test-tier2-secret") (sampleWorld []) rfl
     (by decide!)⟩

/-- The size compared with 8192 is the length of the serialisation in UTF-16 code units,
not its size in bytes: a body of more than 8192 bytes of UTF-8 passes the sanitiser. -/
theorem body_size_counts_code_units :
    jsLength (sampleRuntime.stringify paddedBody) ≤ 8192 ∧
    (sampleRuntime.stringify paddedBody).utf8ByteSize > 8192 ∧
    (sanitizeAgentPayload sampleRuntime paddedBody).toOption.map (fun p => p.appointmentId) =
      some "appt-0001" := by
  decide!

/-- C29. Approval-flag parsing. parseApprovedFlag returns b for every boolean b, true for
every string that is 'true' after trimming and lower-casing, false for every string that
is 'false' after trimming and lower-casing, and fails with HttpError 400 invalid_payload
for every other value; the approve handler passes the parsed boolean to
confirmPendingAppointment, and calls nothing when the flag does not parse. -/
theorem parseApprovedFlag_spec (rt : Runtime) (appointments : Service) (req : Request)
    (w : World) :
    (∀ b, parseApprovedFlag (JsValue.bool b) = .ok b) ∧
    (∀ s, toLowerCase (trim s) = "true" → parseApprovedFlag (JsValue.string s) = .ok true) ∧
    (∀ s, toLowerCase (trim s) = "false" → parseApprovedFlag (JsValue.string s) = .ok false) ∧
    (∀ value, (∀ b, value ≠ JsValue.bool b) →
      (∀ s, value = JsValue.string s →
        toLowerCase (trim s) ≠ "true" ∧ toLowerCase (trim s) ≠ "false") →
      parseApprovedFlag value =
        .error (JsError.HttpError 400 "approved must be a boolean" "invalid_payload")) ∧
    (∀ b, parseApprovedFlag (req.body.get "approved") = .ok b →
      ∃ args, args.approved = b ∧
        (approve rt appointments req w).calls = [Call.confirmPendingAppointment args]) ∧
    (∀ e, parseApprovedFlag (req.body.get "approved") = .error e →
      approve rt appointments req w = { response := sendError e, calls := [], world := w }) := by
  refine ⟨fun b => rfl, ?_, ?_, ?_, ?_, ?_⟩
  · intro s hs
    simp only [parseApprovedFlag, hs, if_true]
  · intro s hs
    have hne : ¬(("false" : String) = "true") := by decide
    simp only [parseApprovedFlag, hs, hne, if_false, if_true]
  · intro value hbool hstr
    unfold parseApprovedFlag
    cases value with
    | bool b => exact absurd rfl (hbool b)
    | string s =>
      obtain ⟨h1, h2⟩ := hstr s rfl
      simp only [h1, h2, if_false]
    | _ => rfl
  · intro b hb
    unfold approve
    simp only [hb]
    split <;> exact ⟨_, rfl, rfl⟩
  · intro e he
    unfold approve
    simp only [he]

theorem parseApprovedFlag_spec_witness :
    parseApprovedFlag (JsValue.string "false") = .ok false ∧
    parseApprovedFlag (JsValue.string "  TRUE ") = .ok true ∧
    ∃ args, args.approved = false ∧
      (approve sampleRuntime
        (resolvingService (Response.approval_resolved "appt-1" Status.confirmed 4 false))
        approvalRequest (sampleWorld [])).calls = [Call.confirmPendingAppointment args] :=
  have h := parseApprovedFlag_spec sampleRuntime
    (resolvingService (Response.approval_resolved "appt-1" Status.confirmed 4 false))
    approvalRequest (sampleWorld [])
  ⟨h.2.2.1 "false" (by decide), h.2.1 "  TRUE " (by decide),
   h.2.2.2.2.1 false (by decide)⟩

/-! ## Two bookings in a race -/

/-- Advancing a call four times with nothing in between is `handleBook`. -/
theorem bookRun_handleBook (env : Env) (payload : Payload) (w : World) :
    bookRun env payload 4 (BookPhase.start, w) =
      (BookPhase.done (handleBook env payload w).1, (handleBook env payload w).2) := by
  simp only [bookRun, bookAdvance, handleBook]
  rcases hread : findConflict env payload.requestedStart
      (addMinutes payload.requestedStart payload.durationMinutes) none w with ⟨r, w1⟩
  cases r with
  | error e => rfl
  | ok conflict =>
    cases conflict with
    | some c => rfl
    | none =>
      simp only [bookAdvance]
      rcases htx : withTransaction env (bookTransaction env payload) w1 with ⟨t, w2⟩
      cases t with
      | error e =>
        simp only
        by_cases hcode : e.code = some "23P01"
        · simp only [hcode, if_true, bookAdvance]
        · simp only [hcode, if_false, bookAdvance]
      | ok row =>
        simp only [bookAdvance]
        rcases hpush : notifyPending env PendingAction.book row true w2 with ⟨n, w3⟩
        cases n with
        | error e =>
          simp only
          by_cases hcode : e.code = some "23P01"
          · simp only [hcode, if_true, bookAdvance]
          · simp only [hcode, if_false, bookAdvance]
        | ok r => rfl

theorem upsertClient_ok (env : Env) (clients : List ClientRow) (person : Person)
    (hfresh : ∀ c ∈ clients, c.id ≠ env.newClientId) :
    ∃ clients1 clientId, upsertClient env clients person = .ok (clients1, clientId) ∧
      ∀ c ∈ clients1, (∃ c0 ∈ clients, c0.id = c.id) ∨ c.id = env.newClientId := by
  unfold upsertClient
  cases hfind : clients.find? (fun c => decide (c.phone_number = person.phoneNumber)) with
  | some c0 =>
    refine ⟨_, _, rfl, ?_⟩
    intro c hc
    rw [List.mem_map] at hc
    obtain ⟨r, hr, hrc⟩ := hc
    refine Or.inl ⟨r, hr, ?_⟩
    rw [← hrc]
    split <;> rfl
  | none =>
    have hany : clients.any (fun c => decide (c.id = env.newClientId)) = false := by
      rw [List.any_eq_false]
      intro c hc
      simpa using hfresh c hc
    simp only [hany, Bool.false_eq_true, if_false]
    refine ⟨_, _, rfl, ?_⟩
    intro c hc
    rw [List.mem_append] at hc
    rcases hc with hc | hc
    · exact Or.inl ⟨c, hc, rfl⟩
    · rw [List.mem_singleton] at hc
      exact Or.inr (by rw [hc])

/-- The booking transaction on a store in which the requested range is free and the
generated keys are new: it commits the row `bookRow`. -/
theorem bookTransaction_free (env : Env) (payload : Payload) (db : Db)
    (hclient : ∀ c ∈ db.clients, c.id ≠ env.newClientId)
    (hid : ∀ r ∈ db.appointments, r.id ≠ env.newAppointmentId)
    (hfree : ∀ r ∈ db.appointments, r.active = true →
      rangesOverlap r.start_time r.end_time payload.requestedStart
        (addMinutes payload.requestedStart payload.durationMinutes) = false) :
    ∃ clientId db1, bookTransaction env payload db =
        .ok (bookRow env payload clientId, db1) ∧
      db1.appointments = db.appointments ++ [bookRow env payload clientId] ∧
      ∀ c ∈ db1.clients, (∃ c0 ∈ db.clients, c0.id = c.id) ∨ c.id = env.newClientId := by
  obtain ⟨clients1, clientId, hup, hids⟩ := upsertClient_ok env db.clients payload.client hclient
  have hany : db.appointments.any
      (fun x => decide (x.id = (bookRow env payload clientId).id)) = false := by
    rw [List.any_eq_false]
    intro r hr
    simpa [bookRow] using hid r hr
  have hex : exclusionViolation (bookRow env payload clientId) db.appointments = false :=
    bookRow_not_excluded env payload clientId db.appointments
      (overlapRangeQuery_none _ _ _ hfree none)
  refine ⟨clientId, Db.mk (db.appointments ++ [bookRow env payload clientId]) clients1, ?_,
    rfl, hids⟩
  unfold bookTransaction
  simp only [hup, insertAppointment, hany, hex, Bool.false_eq_true, if_false]

/-- The booking transaction on a store that holds an active reservation overlapping the
requested range, with new keys: the insert trips the exclusion guarantee. -/
theorem bookTransaction_taken (env : Env) (payload : Payload) (db : Db)
    (hclient : ∀ c ∈ db.clients, c.id ≠ env.newClientId)
    (hid : ∀ r ∈ db.appointments, r.id ≠ env.newAppointmentId)
    (htaken : ∃ r ∈ db.appointments, r.active = true ∧
      rangesOverlap r.start_time r.end_time payload.requestedStart
        (addMinutes payload.requestedStart payload.durationMinutes) = true) :
    bookTransaction env payload db = .error (pgError "23P01") := by
  obtain ⟨clients1, clientId, hup, _⟩ := upsertClient_ok env db.clients payload.client hclient
  have hany : db.appointments.any
      (fun x => decide (x.id = (bookRow env payload clientId).id)) = false := by
    rw [List.any_eq_false]
    intro r hr
    simpa [bookRow] using hid r hr
  have hex : exclusionViolation (bookRow env payload clientId) db.appointments = true := by
    obtain ⟨r, hr, hact, hov⟩ := htaken
    unfold exclusionViolation
    rw [Bool.and_eq_true]
    refine ⟨by simp [bookRow, Appointment.active], ?_⟩
    rw [List.any_eq_true]
    exact ⟨r, hr, by simp [hact, bookRow, hov]⟩
  unfold bookTransaction
  simp only [hup, insertAppointment, hany, hex, Bool.false_eq_true, if_false, if_true]

theorem remaining_eq_zero {p : BookPhase} (h : p.remaining = 0) : ∃ r, p = BookPhase.done r := by
  cases p with
  | done r => exact ⟨r, rfl⟩
  | _ => simp [BookPhase.remaining] at h

/-- A call that has not written, advanced on a store where its range is free: it reads no
conflict, then commits. -/
theorem bookAdvance_early (env : Env) (payload : Payload) (w : World) (p : BookPhase)
    (hdep : Dependable env)
    (hclient : ∀ c ∈ w.db.clients, c.id ≠ env.newClientId)
    (hid : ∀ r ∈ w.db.appointments, r.id ≠ env.newAppointmentId)
    (hfree : ∀ r ∈ w.db.appointments, r.active = true →
      rangesOverlap r.start_time r.end_time payload.requestedStart
        (addMinutes payload.requestedStart payload.durationMinutes) = false)
    (hp : p.Early) :
    ((bookAdvance env payload p w).1.Early ∧ (bookAdvance env payload p w).2.db = w.db ∨
      (bookAdvance env payload p w).1.Won ∧
        TakenBy env payload w.db (bookAdvance env payload p w).2.db) ∧
    (bookAdvance env payload p w).1.remaining ≤ p.remaining - 1 := by
  obtain ⟨hq, htx, _, _⟩ := hdep
  rcases hp with rfl | rfl
  · obtain ⟨k, _, _, hread⟩ := findConflict_ok env payload.requestedStart
      (addMinutes payload.requestedStart payload.durationMinutes) none w hq
    rw [overlapRangeQuery_none _ _ _ hfree none] at hread
    have hadv : bookAdvance env payload BookPhase.start w =
        (BookPhase.checked none,
          { w with trace := w.trace ++ List.replicate k Event.query }) := by
      simp only [bookAdvance, hread]
    rw [hadv]
    exact ⟨Or.inl ⟨Or.inr rfl, rfl⟩, by simp [BookPhase.remaining]⟩
  · obtain ⟨clientId, db1, hbook, _, _⟩ := bookTransaction_free env payload w.db hclient hid hfree
    have hadv : bookAdvance env payload (BookPhase.checked none) w =
        (BookPhase.committed (bookRow env payload clientId),
          { db := db1, trace := w.trace ++ [Event.transaction true] }) := by
      simp only [bookAdvance, withTransaction, htx, hbook]
    rw [hadv]
    exact ⟨Or.inr ⟨Or.inl ⟨_, rfl⟩, clientId, hbook⟩, by simp [BookPhase.remaining]⟩

/-- A call that has committed, advanced: it notifies and resolves with
`pending_toney_approval`; the store is left as it is. -/
theorem bookAdvance_won (env : Env) (payload : Payload) (w : World) (p : BookPhase)
    (hdep : Dependable env) (hp : p.Won) :
    (bookAdvance env payload p w).1.Won ∧ (bookAdvance env payload p w).2.db = w.db ∧
    (bookAdvance env payload p w).1.remaining ≤ p.remaining - 1 := by
  obtain ⟨_, _, hpush, _⟩ := hdep
  rcases hp with ⟨row, rfl⟩ | ⟨r, rfl, hr⟩
  · have hadv : bookAdvance env payload (BookPhase.committed row) w =
        (BookPhase.done (.ok (Response.pending_toney_approval PendingAction.book row.id
            row.version (some row.start_time) (some row.end_time))),
          { w with trace := w.trace ++
              [Event.sendPendingApproval row.id PendingAction.book] }) := by
      simp only [bookAdvance, notifyPending, hpush, if_true]
    rw [hadv]
    exact ⟨Or.inr ⟨_, rfl, rfl⟩, rfl, by simp [BookPhase.remaining]⟩
  · exact ⟨Or.inr ⟨r, rfl, hr⟩, rfl, by simp [bookAdvance, BookPhase.remaining]⟩

/-- A call that has committed nothing, advanced on a store that holds an active
reservation overlapping its range: it reads the conflict, or its insert trips the
exclusion guarantee, and it resolves with `conflict`; the store is left as it is. -/
theorem bookAdvance_lost (env : Env) (payload : Payload) (w : World) (p : BookPhase)
    (hdep : Dependable env)
    (hclient : ∀ c ∈ w.db.clients, c.id ≠ env.newClientId)
    (hid : ∀ r ∈ w.db.appointments, r.id ≠ env.newAppointmentId)
    (htaken : ∃ r ∈ w.db.appointments, r.active = true ∧
      rangesOverlap r.start_time r.end_time payload.requestedStart
        (addMinutes payload.requestedStart payload.durationMinutes) = true)
    (hp : p.Lost) :
    (bookAdvance env payload p w).1.Lost ∧ (bookAdvance env payload p w).2.db = w.db ∧
    (bookAdvance env payload p w).1.remaining ≤ p.remaining - 1 := by
  obtain ⟨hq, htx, _, hnext⟩ := hdep
  have hconflict : ∀ w1 : World, ∃ t,
      buildConflictResponse env payload payload.requestedStart payload.durationMinutes
        none w1 =
      (.ok (Response.conflict payload.action payload.requestedStart t),
        { w1 with trace := w1.trace ++ [Event.getNextAvailable] }) := by
    intro w1
    obtain ⟨t, ht⟩ := hnext w1.db.appointments payload.requestedStart payload.durationMinutes
      none
    exact ⟨t, by simp only [buildConflictResponse, ht]⟩
  rcases hp with rfl | ⟨c, rfl⟩ | rfl | ⟨r, rfl, hr⟩
  · obtain ⟨k, _, _, hread⟩ := findConflict_ok env payload.requestedStart
      (addMinutes payload.requestedStart payload.durationMinutes) none w hq
    obtain ⟨c, hc⟩ := overlapRangeQuery_some _ _ _ htaken
    rw [hc] at hread
    have hadv : bookAdvance env payload BookPhase.start w =
        (BookPhase.checked (some c),
          { w with trace := w.trace ++ List.replicate k Event.query }) := by
      simp only [bookAdvance, hread]
    rw [hadv]
    exact ⟨Or.inr (Or.inl ⟨_, rfl⟩), rfl, by simp [BookPhase.remaining]⟩
  · cases c with
    | some c0 =>
      obtain ⟨t, ht⟩ := hconflict w
      have hadv : bookAdvance env payload (BookPhase.checked (some c0)) w =
          (BookPhase.done (.ok (Response.conflict payload.action payload.requestedStart t)),
            { w with trace := w.trace ++ [Event.getNextAvailable] }) := by
        simp only [bookAdvance, ht]
      rw [hadv]
      exact ⟨Or.inr (Or.inr (Or.inr ⟨_, rfl, rfl⟩)), rfl, by simp [BookPhase.remaining]⟩
    | none =>
      have hbook := bookTransaction_taken env payload w.db hclient hid htaken
      have hcode : (pgError "23P01").code = some "23P01" := rfl
      have hadv : bookAdvance env payload (BookPhase.checked none) w =
          (BookPhase.raced, { w with trace := w.trace ++ [Event.transaction false] }) := by
        simp only [bookAdvance, withTransaction, htx, hbook, hcode, if_true]
      rw [hadv]
      exact ⟨Or.inr (Or.inr (Or.inl rfl)), rfl, by simp [BookPhase.remaining]⟩
  · obtain ⟨t, ht⟩ := hconflict w
    have hadv : bookAdvance env payload BookPhase.raced w =
        (BookPhase.done (.ok (Response.conflict payload.action payload.requestedStart t)),
          { w with trace := w.trace ++ [Event.getNextAvailable] }) := by
      simp only [bookAdvance, ht]
    rw [hadv]
    exact ⟨Or.inr (Or.inr (Or.inr ⟨_, rfl, rfl⟩)), rfl, by simp [BookPhase.remaining]⟩
  · exact ⟨Or.inr (Or.inr (Or.inr ⟨r, rfl, hr⟩)), rfl, by simp [bookAdvance, BookPhase.remaining]⟩

/-- After the booking transaction of one call the store holds its reservation, which is
active and has the requested range, and the keys of the other call are still new. -/
theorem takenBy_facts {env : Env} (other : Env) {payload : Payload} {db0 db : Db}
    (h : TakenBy env payload db0 db)
    (hkeys : env.newAppointmentId ≠ other.newAppointmentId ∧
      env.newClientId ≠ other.newClientId)
    (hid : ∀ r ∈ db0.appointments, r.id ≠ other.newAppointmentId)
    (hclient0 : ∀ c ∈ db0.clients, c.id ≠ env.newClientId)
    (hclient : ∀ c ∈ db0.clients, c.id ≠ other.newClientId) :
    (∃ row, db.appointments = db0.appointments ++ [row] ∧ row.active = true ∧
      row.start_time = payload.requestedStart ∧
      row.end_time = addMinutes payload.requestedStart payload.durationMinutes) ∧
    (∀ r ∈ db.appointments, r.id ≠ other.newAppointmentId) ∧
    (∀ c ∈ db.clients, c.id ≠ other.newClientId) := by
  obtain ⟨clientId, hbook⟩ := h
  have hrows := bookTransaction_rows hbook
  refine ⟨⟨bookRow env payload clientId, hrows, rfl, rfl, rfl⟩, ?_, ?_⟩
  · intro r hr
    rw [hrows, List.mem_append, List.mem_singleton] at hr
    rcases hr with hr | hr
    · exact hid r hr
    · rw [hr]
      exact hkeys.1
  · obtain ⟨clients1, cid, hup, hids⟩ :=
      upsertClient_ok env db0.clients payload.client hclient0
    have hcl : db.clients = clients1 := by
      unfold bookTransaction at hbook
      rw [hup] at hbook
      simp only at hbook
      split at hbook
      · cases hbook
      · injection hbook with hbook
        injection hbook with _ hdb
        rw [← hdb]
    intro c hc
    rw [hcl] at hc
    rcases hids c hc with ⟨c0, hc0, hc0id⟩ | hnew
    · rw [← hc0id]
      exact hclient c0 hc0
    · rw [hnew]
      exact hkeys.2

/-- One step of the race keeps the invariant, and the call that moved has one await
fewer left. -/
theorem raceStep_inv (env1 : Env) (payload1 : Payload) (env2 : Env) (payload2 : Payload)
    (db0 : Db) (hdep1 : Dependable env1) (hdep2 : Dependable env2)
    (hkeys : FreshKeys env1 env2 db0)
    (hfree1 : ∀ r ∈ db0.appointments, r.active = true →
      rangesOverlap r.start_time r.end_time payload1.requestedStart
        (addMinutes payload1.requestedStart payload1.durationMinutes) = false)
    (hfree2 : ∀ r ∈ db0.appointments, r.active = true →
      rangesOverlap r.start_time r.end_time payload2.requestedStart
        (addMinutes payload2.requestedStart payload2.durationMinutes) = false)
    (hslot : rangesOverlap payload1.requestedStart
        (addMinutes payload1.requestedStart payload1.durationMinutes)
        payload2.requestedStart
        (addMinutes payload2.requestedStart payload2.durationMinutes) = true)
    (turn : Bool) (s : Race) (hinv : RaceInv env1 payload1 env2 payload2 db0 s) :
    RaceInv env1 payload1 env2 payload2 db0 (raceStep env1 payload1 env2 payload2 turn s) ∧
    (raceStep env1 payload1 env2 payload2 turn s).first.remaining ≤
      s.first.remaining - (if turn then 1 else 0) ∧
    (raceStep env1 payload1 env2 payload2 turn s).second.remaining ≤
      s.second.remaining - (if turn then 0 else 1) := by
  obtain ⟨hk1, hk2, hka, hkc⟩ := hkeys
  have hslot2 : rangesOverlap payload2.requestedStart
      (addMinutes payload2.requestedStart payload2.durationMinutes)
      payload1.requestedStart
      (addMinutes payload1.requestedStart payload1.durationMinutes) = true := by
    rw [rangesOverlap_comm]; exact hslot
  rcases hinv with ⟨hdb, he1, he2⟩ | ⟨htaken, hw, hl⟩ | ⟨htaken, hw, hl⟩
  · -- nothing written yet
    cases turn with
    | true =>
      obtain ⟨hstep, hrem⟩ := bookAdvance_early env1 payload1 s.world s.first hdep1
        (by rw [hdb]; exact fun c hc => (hkc c hc).1)
        (by rw [hdb]; exact fun r hr => (hka r hr).1)
        (by rw [hdb]; exact hfree1) he1
      simp only [raceStep, if_true]
      refine ⟨?_, hrem, by simp⟩
      rcases hstep with ⟨hearly, hsame⟩ | ⟨hwon, htb⟩
      · exact Or.inl ⟨by rw [hsame, hdb], hearly, he2⟩
      · refine Or.inr (Or.inl ⟨by rw [← hdb]; exact htb, hwon, ?_⟩)
        rcases he2 with h | h
        · exact Or.inl h
        · exact Or.inr (Or.inl ⟨_, h⟩)
    | false =>
      obtain ⟨hstep, hrem⟩ := bookAdvance_early env2 payload2 s.world s.second hdep2
        (by rw [hdb]; exact fun c hc => (hkc c hc).2)
        (by rw [hdb]; exact fun r hr => (hka r hr).2)
        (by rw [hdb]; exact hfree2) he2
      simp only [raceStep, Bool.false_eq_true, if_false]
      refine ⟨?_, by simp, hrem⟩
      rcases hstep with ⟨hearly, hsame⟩ | ⟨hwon, htb⟩
      · exact Or.inl ⟨by rw [hsame, hdb], he1, hearly⟩
      · refine Or.inr (Or.inr ⟨by rw [← hdb]; exact htb, hwon, ?_⟩)
        rcases he1 with h | h
        · exact Or.inl h
        · exact Or.inr (Or.inl ⟨_, h⟩)
  · -- the first call has committed
    obtain ⟨⟨row, hrows, hact, hstart, hend⟩, hid2, hclient2⟩ :=
      takenBy_facts env2 htaken ⟨hk1, hk2⟩ (fun r hr => (hka r hr).2)
        (fun c hc => (hkc c hc).1) (fun c hc => (hkc c hc).2)
    cases turn with
    | true =>
      obtain ⟨hwon, hsame, hrem⟩ := bookAdvance_won env1 payload1 s.world s.first hdep1 hw
      simp only [raceStep, if_true]
      exact ⟨Or.inr (Or.inl ⟨by rw [hsame]; exact htaken, hwon, hl⟩), hrem, by simp⟩
    | false =>
      obtain ⟨hlost, hsame, hrem⟩ := bookAdvance_lost env2 payload2 s.world s.second hdep2
        hclient2 hid2
        ⟨row, by rw [hrows]; simp, hact, by rw [hstart, hend]; exact hslot⟩ hl
      simp only [raceStep, Bool.false_eq_true, if_false]
      exact ⟨Or.inr (Or.inl ⟨by rw [hsame]; exact htaken, hw, hlost⟩), by simp, hrem⟩
  · -- the second call has committed
    obtain ⟨⟨row, hrows, hact, hstart, hend⟩, hid1, hclient1⟩ :=
      takenBy_facts env1 htaken ⟨Ne.symm hk1, Ne.symm hk2⟩
        (fun r hr => (hka r hr).1) (fun c hc => (hkc c hc).2) (fun c hc => (hkc c hc).1)
    cases turn with
    | true =>
      obtain ⟨hlost, hsame, hrem⟩ := bookAdvance_lost env1 payload1 s.world s.first hdep1
        hclient1 hid1
        ⟨row, by rw [hrows]; simp, hact, by rw [hstart, hend]; exact hslot2⟩ hl
      simp only [raceStep, if_true]
      exact ⟨Or.inr (Or.inr ⟨by rw [hsame]; exact htaken, hw, hlost⟩), hrem, by simp⟩
    | false =>
      obtain ⟨hwon, hsame, hrem⟩ := bookAdvance_won env2 payload2 s.world s.second hdep2 hw
      simp only [raceStep, Bool.false_eq_true, if_false]
      exact ⟨Or.inr (Or.inr ⟨by rw [hsame]; exact htaken, hwon, hl⟩), by simp, hrem⟩

/-- The invariant holds along every schedule, and each call has at most as many awaits left
as it had, less its turns. -/
theorem race_inv (env1 : Env) (payload1 : Payload) (env2 : Env) (payload2 : Payload)
    (db0 : Db) (hdep1 : Dependable env1) (hdep2 : Dependable env2)
    (hkeys : FreshKeys env1 env2 db0)
    (hfree1 : ∀ r ∈ db0.appointments, r.active = true →
      rangesOverlap r.start_time r.end_time payload1.requestedStart
        (addMinutes payload1.requestedStart payload1.durationMinutes) = false)
    (hfree2 : ∀ r ∈ db0.appointments, r.active = true →
      rangesOverlap r.start_time r.end_time payload2.requestedStart
        (addMinutes payload2.requestedStart payload2.durationMinutes) = false)
    (hslot : rangesOverlap payload1.requestedStart
        (addMinutes payload1.requestedStart payload1.durationMinutes)
        payload2.requestedStart
        (addMinutes payload2.requestedStart payload2.durationMinutes) = true)
    (schedule : List Bool) :
    ∀ s : Race, RaceInv env1 payload1 env2 payload2 db0 s →
      RaceInv env1 payload1 env2 payload2 db0 (race env1 payload1 env2 payload2 schedule s) ∧
      (race env1 payload1 env2 payload2 schedule s).first.remaining ≤
        s.first.remaining - schedule.count true ∧
      (race env1 payload1 env2 payload2 schedule s).second.remaining ≤
        s.second.remaining - schedule.count false := by
  induction schedule with
  | nil =>
    intro s hs
    exact ⟨hs, by simp [race], by simp [race]⟩
  | cons turn rest ih =>
    intro s hs
    obtain ⟨hinv, h1, h2⟩ := raceStep_inv env1 payload1 env2 payload2 db0 hdep1 hdep2 hkeys
      hfree1 hfree2 hslot turn s hs
    obtain ⟨hinv2, h3, h4⟩ := ih _ hinv
    refine ⟨hinv2, ?_, ?_⟩
    · simp only [race]
      cases turn
      · simp only [Bool.false_eq_true, if_false, Nat.sub_zero] at h1
        simp only [List.count_cons, Bool.false_eq_true, beq_iff_eq, if_false, Nat.add_zero]
        omega
      · simp only [if_true] at h1
        simp only [List.count_cons, beq_self_eq_true, if_true]
        omega
    · simp only [race]
      cases turn
      · simp only [Bool.false_eq_true, if_false] at h2
        simp only [List.count_cons, beq_self_eq_true, if_true]
        omega
      · simp only [if_true, Nat.sub_zero] at h2
        simp only [List.count_cons, Bool.true_eq_false, beq_iff_eq, if_false, Nat.add_zero]
        omega

/-- C30. Two book calls whose requested ranges intersect (in particular two calls for the
same slot), racing on a store in which no active reservation intersects either range:
when no collaborator fails and the store generates new, distinct keys, then under every
schedule of their awaits that lets both finish (three turns each), both calls resolve, one
with pending_toney_approval and the other with conflict, and exactly one reservation has
been added to the store. -/
theorem racing_bookings_one_wins (env1 env2 : Env) (payload1 payload2 : Payload) (w : World)
    (schedule : List Bool) (hdep1 : Dependable env1) (hdep2 : Dependable env2)
    (hkeys : FreshKeys env1 env2 w.db)
    (hslot : Intersect payload1.requestedStart
        (addMinutes payload1.requestedStart payload1.durationMinutes)
        payload2.requestedStart
        (addMinutes payload2.requestedStart payload2.durationMinutes))
    (hfree : ∀ r ∈ w.db.appointments,
      (r.status = Status.pending_approval ∨ r.status = Status.confirmed) →
      ¬Intersect r.start_time r.end_time payload1.requestedStart
          (addMinutes payload1.requestedStart payload1.durationMinutes) ∧
      ¬Intersect r.start_time r.end_time payload2.requestedStart
          (addMinutes payload2.requestedStart payload2.durationMinutes))
    (hturns : 3 ≤ schedule.count true ∧ 3 ≤ schedule.count false) :
    ∃ r1 r2 row,
      (race env1 payload1 env2 payload2 schedule
        { first := BookPhase.start, second := BookPhase.start, world := w }).first =
          BookPhase.done (.ok r1) ∧
      (race env1 payload1 env2 payload2 schedule
        { first := BookPhase.start, second := BookPhase.start, world := w }).second =
          BookPhase.done (.ok r2) ∧
      (r1.status = "pending_toney_approval" ∧ r2.status = "conflict" ∨
        r1.status = "conflict" ∧ r2.status = "pending_toney_approval") ∧
      (race env1 payload1 env2 payload2 schedule
        { first := BookPhase.start, second := BookPhase.start, world := w
          }).world.db.appointments = w.db.appointments ++ [row] := by
  have hfree1 : ∀ r ∈ w.db.appointments, r.active = true →
      rangesOverlap r.start_time r.end_time payload1.requestedStart
        (addMinutes payload1.requestedStart payload1.durationMinutes) = false := by
    intro r hr hact
    rw [Bool.eq_false_iff]
    intro hov
    exact (hfree r hr ((active_iff r).mp hact)).1 ((rangesOverlap_iff _ _ _ _).mp hov)
  have hfree2 : ∀ r ∈ w.db.appointments, r.active = true →
      rangesOverlap r.start_time r.end_time payload2.requestedStart
        (addMinutes payload2.requestedStart payload2.durationMinutes) = false := by
    intro r hr hact
    rw [Bool.eq_false_iff]
    intro hov
    exact (hfree r hr ((active_iff r).mp hact)).2 ((rangesOverlap_iff _ _ _ _).mp hov)
  obtain ⟨hinv, h1, h2⟩ := race_inv env1 payload1 env2 payload2 w.db hdep1 hdep2 hkeys
    hfree1 hfree2 ((rangesOverlap_iff _ _ _ _).mpr hslot) schedule
    { first := BookPhase.start, second := BookPhase.start, world := w }
    (Or.inl ⟨rfl, Or.inl rfl, Or.inl rfl⟩)
  have h1a : (race env1 payload1 env2 payload2 schedule
      { first := BookPhase.start, second := BookPhase.start, world := w }).first.remaining ≤
        3 - schedule.count true := h1
  have h2a : (race env1 payload1 env2 payload2 schedule
      { first := BookPhase.start, second := BookPhase.start, world := w }).second.remaining ≤
        3 - schedule.count false := h2
  obtain ⟨d1, hd1⟩ := remaining_eq_zero (by omega :
    (race env1 payload1 env2 payload2 schedule
      { first := BookPhase.start, second := BookPhase.start, world := w }).first.remaining = 0)
  obtain ⟨d2, hd2⟩ := remaining_eq_zero (by omega :
    (race env1 payload1 env2 payload2 schedule
      { first := BookPhase.start, second := BookPhase.start, world := w }).second.remaining = 0)
  rcases hinv with ⟨_, he1, _⟩ | ⟨htaken, hw, hl⟩ | ⟨htaken, hw, hl⟩
  · rw [hd1] at he1
    rcases he1 with h | h <;> cases h
  · obtain ⟨clientId, hbook⟩ := htaken
    rw [hd1] at hw
    rw [hd2] at hl
    rcases hw with ⟨row, h⟩ | ⟨r1, hr1, hs1⟩
    · cases h
    · rcases hl with h | ⟨c, h⟩ | h | ⟨r2, hr2, hs2⟩
      · cases h
      · cases h
      · cases h
      · exact ⟨r1, r2, _, by rw [hd1, hr1], by rw [hd2, hr2], Or.inl ⟨hs1, hs2⟩,
          bookTransaction_rows hbook⟩
  · obtain ⟨clientId, hbook⟩ := htaken
    rw [hd2] at hw
    rw [hd1] at hl
    rcases hw with ⟨row, h⟩ | ⟨r2, hr2, hs2⟩
    · cases h
    · rcases hl with h | ⟨c, h⟩ | h | ⟨r1, hr1, hs1⟩
      · cases h
      · cases h
      · cases h
      · exact ⟨r1, r2, _, by rw [hd1, hr1], by rw [hd2, hr2], Or.inr ⟨hs1, hs2⟩,
          bookTransaction_rows hbook⟩

theorem racing_bookings_one_wins_witness :
    ∃ r1 r2 row,
      (race (racerEnv "a") (sampleCommand "book" "" 1772370000000 60) (racerEnv "b")
        (sampleCommand "book" "" 1772370000000 60) [true, false, false, true, true, false]
        { first := BookPhase.start, second := BookPhase.start, world := sampleWorld [] }).first =
          BookPhase.done (.ok r1) ∧
      (race (racerEnv "a") (sampleCommand "book" "" 1772370000000 60) (racerEnv "b")
        (sampleCommand "book" "" 1772370000000 60) [true, false, false, true, true, false]
        { first := BookPhase.start, second := BookPhase.start, world := sampleWorld [] }).second =
          BookPhase.done (.ok r2) ∧
      (r1.status = "pending_toney_approval" ∧ r2.status = "conflict" ∨
        r1.status = "conflict" ∧ r2.status = "pending_toney_approval") ∧
      (race (racerEnv "a") (sampleCommand "book" "" 1772370000000 60) (racerEnv "b")
        (sampleCommand "book" "" 1772370000000 60) [true, false, false, true, true, false]
        { first := BookPhase.start, second := BookPhase.start, world := sampleWorld []
          }).world.db.appointments = (sampleWorld []).db.appointments ++ [row] :=
  racing_bookings_one_wins (racerEnv "a") (racerEnv "b")
    (sampleCommand "book" "" 1772370000000 60) (sampleCommand "book" "" 1772370000000 60)
    (sampleWorld []) [true, false, false, true, true, false]
    ⟨⟨1, by decide, by decide, rfl⟩, rfl, rfl, fun _ _ _ _ => ⟨none, rfl⟩⟩
    ⟨⟨1, by decide, by decide, rfl⟩, rfl, rfl, fun _ _ _ _ => ⟨none, rfl⟩⟩
    ⟨by decide, by decide, fun r hr => by simp [sampleWorld] at hr,
      fun c hc => by simp [sampleWorld] at hc⟩
    ⟨1772370000000, by decide, by decide, by decide, by decide⟩
    (fun r hr => by simp [sampleWorld] at hr)
    (by decide)

/-- The race of the witness, run: the second call reads first and commits first, the first
call reads no conflict either and loses at its insert. -/
theorem race_sample :
    race (racerEnv "a") (sampleCommand "book" "" 1772370000000 60) (racerEnv "b")
        (sampleCommand "book" "" 1772370000000 60) [true, false, false, true, true, false]
        { first := BookPhase.start, second := BookPhase.start, world := sampleWorld [] } =
      { first := BookPhase.done
          (.ok (Response.conflict "book" 1772370000000 none))
        second := BookPhase.done
          (.ok (Response.pending_toney_approval PendingAction.book "appt-b" 1
            (some 1772370000000) (some 1772373600000)))
        world :=
          { db :=
              { appointments :=
                  [bookRow (racerEnv "b") (sampleCommand "book" "" 1772370000000 60)
                    "client-b"]
                clients :=
                  [ClientRow.mk "client-b" "+15551234567" "Jordan" none 1000] }
            trace := [Event.query, Event.query, Event.transaction true,
              Event.transaction false, Event.getNextAvailable,
              Event.sendPendingApproval "appt-b" PendingAction.book] } } := by
  decide

/-! ## The canonical string is unambiguous -/

theorem append_newline_inj {a b r s : List Char} (ha : '\n' ∉ a) (hb : '\n' ∉ b)
    (h : a ++ '\n' :: r = b ++ '\n' :: s) : a = b ∧ r = s := by
  induction a generalizing b with
  | nil =>
    cases b with
    | nil =>
      simp only [List.nil_append, List.cons.injEq, true_and] at h
      exact ⟨rfl, h⟩
    | cons c b1 =>
      simp only [List.nil_append, List.cons_append, List.cons.injEq] at h
      exact absurd (by rw [← h.1]; exact List.mem_cons_self _ _) hb
  | cons x a1 ih =>
    cases b with
    | nil =>
      simp only [List.nil_append, List.cons_append, List.cons.injEq] at h
      exact absurd (by rw [h.1]; exact List.mem_cons_self _ _) ha
    | cons c b1 =>
      simp only [List.cons_append, List.cons.injEq] at h
      obtain ⟨h1, h2⟩ := ih (fun hx => ha (List.mem_cons_of_mem _ hx))
        (fun hx => hb (List.mem_cons_of_mem _ hx)) h.2
      exact ⟨by rw [h.1, h1], h2⟩

theorem toUpper_ne_newline (c : Char) (h : c ≠ '\n') : c.toUpper ≠ '\n' := by
  unfold Char.toUpper
  simp only
  split
  · rename_i hrange
    intro heq
    have hnat := congrArg Char.toNat heq
    generalize c.toNat = n at hrange hnat
    obtain ⟨h1, h2⟩ := hrange
    interval_cases n <;> revert hnat <;> decide
  · exact h

theorem toUpperCase_no_newline {s : String} (h : '\n' ∉ s.data) :
    '\n' ∉ (toUpperCase s).data := by
  unfold toUpperCase
  simp only [List.mem_map, not_exists, not_and]
  intro c hc heq
  exact toUpper_ne_newline c (fun hcn => h (hcn ▸ hc)) heq

/-- The characters of the canonical string: the five parts with a newline after each of
the first four. -/
theorem canonicalString_data (rt : Runtime) (req : Request) (timestampMs : ℚ)
    (auditTier : String) :
    (canonicalString rt req timestampMs auditTier).data =
      (toUpperCase (req.method.getD "POST")).data ++ '\n' ::
        (((req.originalUrl <|> req.url).getD "/").data ++ '\n' ::
          ((rt.numberToString timestampMs).data ++ '\n' ::
            (auditTier.data ++ '\n' :: (normalizeRawBody rt req).data))) := by
  simp only [canonicalString, joinWith, String.data_append, List.append_assoc]
  rfl

/-- Equal canonical strings have equal parts, when the first four parts hold no newline. -/
theorem canonicalString_parts {rt : Runtime} {req1 req2 : Request} {ts1 ts2 : ℚ}
    {tier1 tier2 : String}
    (hnum : ∀ x, '\n' ∉ (rt.numberToString x).data)
    (hm1 : '\n' ∉ (req1.method.getD "POST").data)
    (hm2 : '\n' ∉ (req2.method.getD "POST").data)
    (hp1 : '\n' ∉ ((req1.originalUrl <|> req1.url).getD "/").data)
    (hp2 : '\n' ∉ ((req2.originalUrl <|> req2.url).getD "/").data)
    (ht1 : '\n' ∉ tier1.data) (ht2 : '\n' ∉ tier2.data)
    (h : canonicalString rt req1 ts1 tier1 = canonicalString rt req2 ts2 tier2) :
    toUpperCase (req1.method.getD "POST") = toUpperCase (req2.method.getD "POST") ∧
    (req1.originalUrl <|> req1.url).getD "/" = (req2.originalUrl <|> req2.url).getD "/" ∧
    rt.numberToString ts1 = rt.numberToString ts2 ∧
    tier1 = tier2 ∧
    normalizeRawBody rt req1 = normalizeRawBody rt req2 := by
  have hdata := congrArg String.data h
  rw [canonicalString_data, canonicalString_data] at hdata
  obtain ⟨e1, r1⟩ := append_newline_inj (toUpperCase_no_newline hm1)
    (toUpperCase_no_newline hm2) hdata
  obtain ⟨e2, r2⟩ := append_newline_inj hp1 hp2 r1
  obtain ⟨e3, r3⟩ := append_newline_inj (hnum ts1) (hnum ts2) r2
  obtain ⟨e4, r4⟩ := append_newline_inj ht1 ht2 r3
  exact ⟨String.ext e1, String.ext e2, String.ext e3, String.ext e4, String.ext r4⟩

theorem hexDigit_ne_newline (n : Nat) (h : n < 10) : hexDigit n ≠ '\n' := by
  interval_cases n <;> decide

theorem natDigits_no_newline (fuel n : Nat) : '\n' ∉ natDigits fuel n := by
  induction fuel generalizing n with
  | zero => simp [natDigits]
  | succ fuel ih =>
    unfold natDigits
    split
    · rename_i hlt
      simp only [List.mem_singleton]
      exact fun heq => hexDigit_ne_newline n hlt heq.symm
    · simp only [List.mem_append, List.mem_singleton, not_or]
      exact ⟨ih _, fun heq => hexDigit_ne_newline (n % 10) (by omega) heq.symm⟩

/-- C31. The canonical signing string is unambiguous. For any two requests whose method,
path and audit tier hold no newline character (the rendering of a number holds none):
their canonical strings are equal if and only if their upper-cased methods, paths,
rendered timestamps, audit tiers and raw bodies are pairwise equal, and then the
timestamps are equal as numbers when the rendering tells numbers apart; and when the HMAC
tells messages apart, a signature accepted for both requests under one secret means that
the two agree in every signed component. -/
theorem canonical_string_unambiguous (rt : Runtime) (req1 req2 : Request) (ts1 ts2 : ℚ)
    (tier1 tier2 : String)
    (hnum : ∀ x, '\n' ∉ (rt.numberToString x).data)
    (hm1 : '\n' ∉ (req1.method.getD "POST").data)
    (hm2 : '\n' ∉ (req2.method.getD "POST").data)
    (hp1 : '\n' ∉ ((req1.originalUrl <|> req1.url).getD "/").data)
    (hp2 : '\n' ∉ ((req2.originalUrl <|> req2.url).getD "/").data)
    (ht1 : '\n' ∉ tier1.data) (ht2 : '\n' ∉ tier2.data) :
    (canonicalString rt req1 ts1 tier1 = canonicalString rt req2 ts2 tier2 ↔
      toUpperCase (req1.method.getD "POST") = toUpperCase (req2.method.getD "POST") ∧
      (req1.originalUrl <|> req1.url).getD "/" = (req2.originalUrl <|> req2.url).getD "/" ∧
      rt.numberToString ts1 = rt.numberToString ts2 ∧
      tier1 = tier2 ∧
      normalizeRawBody rt req1 = normalizeRawBody rt req2) ∧
    (canonicalString rt req1 ts1 tier1 = canonicalString rt req2 ts2 tier2 →
      Function.Injective rt.numberToString → ts1 = ts2) ∧
    (∀ (secret signature raw1 raw2 : String),
      PassesChecks rt req1 raw1 signature tier1 ts1 secret →
      PassesChecks rt req2 raw2 signature tier2 ts2 secret →
      Function.Injective (rt.hmacSha256 secret) →
      (verifyTieredAuditRouteSignature rt req1).ok = true →
      (verifyTieredAuditRouteSignature rt req2).ok = true →
      toUpperCase (req1.method.getD "POST") = toUpperCase (req2.method.getD "POST") ∧
      (req1.originalUrl <|> req1.url).getD "/" = (req2.originalUrl <|> req2.url).getD "/" ∧
      rt.numberToString ts1 = rt.numberToString ts2 ∧
      tier1 = tier2 ∧
      normalizeRawBody rt req1 = normalizeRawBody rt req2) := by
  refine ⟨⟨canonicalString_parts hnum hm1 hm2 hp1 hp2 ht1 ht2, ?_⟩, ?_, ?_⟩
  · rintro ⟨e1, e2, e3, e4, e5⟩
    apply String.ext
    rw [canonicalString_data, canonicalString_data, e1, e2, e3, e4, e5]
  · intro h hinj
    exact hinj (canonicalString_parts hnum hm1 hm2 hp1 hp2 ht1 ht2 h).2.2.1
  · intro secret signature raw1 raw2 hpass1 hpass2 hinj hok1 hok2
    have h1 := ((verify_ok_iff hpass1).mp hok1).2
    have h2 := ((verify_ok_iff hpass2).mp hok2).2
    exact canonicalString_parts hnum hm1 hm2 hp1 hp2 ht1 ht2 (hinj (h1.symm.trans h2))

theorem canonical_string_unambiguous_witness :
    canonicalString sampleRuntime signedCancel 1772370000000 "tier2" =
      canonicalString sampleRuntime parsedOnlyRequest 1772370000000 "tier2" ∧
    toUpperCase (signedCancel.method.getD "POST") =
      toUpperCase (parsedOnlyRequest.method.getD "POST") ∧
    (signedCancel.originalUrl <|> signedCancel.url).getD "/" =
      (parsedOnlyRequest.originalUrl <|> parsedOnlyRequest.url).getD "/" ∧
    sampleRuntime.numberToString 1772370000000 = sampleRuntime.numberToString 1772370000000 ∧
    "tier2" = "tier2" ∧
    normalizeRawBody sampleRuntime signedCancel =
      normalizeRawBody sampleRuntime parsedOnlyRequest :=
  have hcanon : canonicalString sampleRuntime signedCancel 1772370000000 "tier2" =
      canonicalString sampleRuntime parsedOnlyRequest 1772370000000 "tier2" := by decide!
  ⟨hcanon,
   (canonical_string_unambiguous sampleRuntime signedCancel parsedOnlyRequest 1772370000000
      1772370000000 "tier2" "tier2" (fun x => natDigits_no_newline 25 x.num.toNat)
      (by decide) (by decide) (by decide) (by decide) (by decide) (by decide)).1.mp hcanon⟩

/-- The condition on newlines is needed: a path that holds a newline makes two requests
that differ in path, timestamp, tier and raw body share one canonical string. -/
theorem canonical_string_ambiguous_with_newline :
    canonicalString sampleRuntime newlinePathRequest 2 "t" =
      canonicalString sampleRuntime plainPathRequest 1 "2" ∧
    (newlinePathRequest.originalUrl <|> newlinePathRequest.url).getD "/" ≠
      (plainPathRequest.originalUrl <|> plainPathRequest.url).getD "/" ∧
    normalizeRawBody sampleRuntime newlinePathRequest ≠
      normalizeRawBody sampleRuntime plainPathRequest := by
  decide!

end Sentinel
